import Mathlib

/-!
# PropWare storage engine: SD block driver (`sd.c`) and FAT file layer (`fatfile.h`)

A shallow embedding of the parts of the repository that the verified properties talk about.

* Machine integers are natural numbers; every place where the C code can wrap is written with
  an explicit reduction modulo `2 ^ 8`, `2 ^ 16` or `2 ^ 32`.
* A byte array is a function from index to stored value; a read reduces modulo 256.
* `sd.c` is embedded as it compiles without `SD_DEBUG`, where `SDError(err, ...)` is the macro
  `return err`.
-/

namespace PropWare

/-! ## Machine arithmetic -/

/-- A byte array (`uint8 buf[]`), indexed from zero. -/
abbrev Bytes := Nat → Nat

/-- Reading one `uint8` element. -/
def u8 (b : Bytes) (i : Nat) : Nat := b i % 256

/-- Unsigned 32-bit addition. -/
def add32 (a b : Nat) : Nat := (a + b) % 2 ^ 32

/-- Unsigned 32-bit subtraction. -/
def sub32 (a b : Nat) : Nat := (a % 2 ^ 32 + 2 ^ 32 - b % 2 ^ 32) % 2 ^ 32

/-- Unsigned 32-bit multiplication. -/
def mul32 (a b : Nat) : Nat := (a * b) % 2 ^ 32

/-! ## sd.c -/

namespace SD

/-- The status codes that `sd.c` takes from `sd.h`. The header is not among the sources, so
their numeric values stay symbolic. -/
structure Codes where
  SD_INVALID_CMD : Nat
  SD_READ_TIMEOUT : Nat
  SD_INVALID_NUM_BYTES : Nat
  SD_INVALID_RESPONSE : Nat
  SD_INVALID_INIT : Nat
  SD_INVALID_FILESYSTEM : Nat
  SD_INVALID_DAT_STRT_ID : Nat
deriving DecidableEq, Repr

def SD_SECTOR_SIZE : Nat := 512
def SD_WIGGLE_ROOM : Nat := 10000
def SD_RESPONSE_IDLE : Nat := 0x01
def SD_RESPONSE_ACTIVE : Nat := 0x00
def SD_DATA_START_ID : Nat := 0xFE
def SD_CMD_IDLE : Nat := 0x40 + 0
def SD_CMD_SDHC : Nat := 0x40 + 8
def SD_CMD_READ_OCR : Nat := 0x40 + 58
def SD_CMD_APP : Nat := 0x40 + 55
def SD_CMD_WR_OP : Nat := 0x40 + 41
def SD_CMD_VOLT_ARG : Nat := 0x000001AA
def SD_CRC_IDLE : Nat := 0x95
def SD_CRC_SDHC : Nat := 0x87
def SD_RESPONSE_LEN_R1 : Nat := 1
def SD_RESPONSE_LEN_R3 : Nat := 5
def SD_RESPONSE_LEN_R7 : Nat := 5
def SD_SPI_INIT_FREQ : Nat := 200000
def SD_SPI_FINAL_FREQ : Nat := 1900000
def SD_CMD_RD_BLOCK : Nat := 0x40 + 17
def SD_CRC_OTHER : Nat := 0x01

def SD_FAT_16 : Nat := 2
def SD_FAT_32 : Nat := 4
def SD_BOOT_SECTOR_ID : Nat := 0xeb
def SD_BOOT_SECTOR_ID_ADDR : Nat := 0
def SD_BOOT_SECTOR_BACKUP : Nat := 0x1c6
def SD_CLUSTER_SIZE_ADDR : Nat := 0x0d
def SD_RSVD_SCTR_CNT_ADDR : Nat := 0x0e
def SD_NUM_FATS_ADDR : Nat := 0x10
def SD_ROOT_ENTRY_CNT_ADDR : Nat := 0x11
def SD_TOT_SCTR_16_ADDR : Nat := 0x13
def SD_FAT_SIZE_ADDR : Nat := 0x16
def SD_TOT_SCTR_32_ADDR : Nat := 0x20
def SD_FAT_SIZE_32_ADDR : Nat := 0x24
def SD_ROOT_CLUSTER_ADDR : Nat := 0x2c
def SD_FAT12_CLSTR_CNT : Nat := 4085
def SD_FAT16_CLSTR_CNT : Nat := 65525

/-- `SDConvertDat16(&dat[off])`: `(dat[1] << 8) + dat[0]`, returned as `uint16`. -/
def SDConvertDat16 (dat : Bytes) (off : Nat) : Nat :=
  ((u8 dat (off + 1) <<< 8) + u8 dat off) % 2 ^ 16

/-- `SDConvertDat32(&dat[off])`:
`(dat[3] << 24) + (dat[2] << 16) + (dat[1] << 8) + dat[0]`, returned as `uint32`. -/
def SDConvertDat32 (dat : Bytes) (off : Nat) : Nat :=
  ((u8 dat (off + 3) <<< 24) + (u8 dat (off + 2) <<< 16) + (u8 dat (off + 1) <<< 8)
    + u8 dat off) % 2 ^ 32

/-- The module-level filesystem geometry that `SDMount` assigns. -/
structure Globals where
  g_filesystem : Nat
  g_dataSectors : Nat
  g_rootDirSectors : Nat
  g_fatStart : Nat
  g_rootAddr : Nat
  g_firstData : Nat
deriving DecidableEq, Repr

/-- What the calls of `SDReadDataBlock` made by `SDMount` deliver: for the `k`-th call (counted
from zero) and the requested block address, the returned status and, when the status is zero,
the 512 bytes stored in `buf`. -/
abbrev BlockReads := Nat → Nat → Nat × Bytes

/-- The local variables `SDMount` extracts from the boot sector (lines 279-293). -/
structure BootFields where
  sectorsPerCluster : Nat
  rsvdSectorCount : Nat
  numFATs : Nat
  rootEntryCount : Nat
  FATSize : Nat
  totalSectors : Nat
deriving DecidableEq, Repr

/-- Lines 279-293 of `SDMount`. -/
def bootFields (buf : Bytes) : BootFields :=
  let FATSize := SDConvertDat16 buf SD_FAT_SIZE_ADDR
  let totalSectors := SDConvertDat16 buf SD_TOT_SCTR_16_ADDR
  { sectorsPerCluster := u8 buf SD_CLUSTER_SIZE_ADDR
    rsvdSectorCount := SDConvertDat16 buf SD_RSVD_SCTR_CNT_ADDR
    numFATs := u8 buf SD_NUM_FATS_ADDR
    rootEntryCount := SDConvertDat16 buf SD_ROOT_ENTRY_CNT_ADDR
    FATSize := if FATSize = 0 then u8 buf SD_FAT_SIZE_32_ADDR else FATSize
    totalSectors :=
      if totalSectors = 0 then SDConvertDat32 buf SD_TOT_SCTR_32_ADDR else totalSectors }

/-- Line 296: the value stored in `g_rootDirSectors`. -/
def rootDirSectorsOf (f : BootFields) : Nat :=
  (add32 (mul32 f.rootEntryCount 32) (SD_SECTOR_SIZE - 1)) / SD_SECTOR_SIZE

/-- Line 297: the value stored in `g_dataSectors`. -/
def dataSectorsOf (f : BootFields) : Nat :=
  sub32 f.totalSectors
    (add32 (add32 f.rsvdSectorCount (mul32 f.numFATs f.FATSize)) f.rootEntryCount)

/-- Line 298: `clusterCount = g_dataSectors / sectorsPerCluster`. A zero divisor is undefined
behaviour in C and yields `none`. -/
def clusterCountOf (f : BootFields) : Option Nat :=
  if f.sectorsPerCluster = 0 then none else some (dataSectorsOf f / f.sectorsPerCluster)

/-- Lines 279-356 of `SDMount`: everything after the boot sector is in `buf`. `k` is the index
of the next `SDReadDataBlock` call. The result is `none` when the division of line 298 is
undefined, otherwise the returned status and the globals. -/
def SDMount_parse (c : Codes) (rd : BlockReads) (k : Nat) (bootSector : Nat) (buf : Bytes)
    (g : Globals) : Option (Nat × Globals) :=
  let f := bootFields buf
  let g1 := { g with g_rootDirSectors := rootDirSectorsOf f, g_dataSectors := dataSectorsOf f }
  match clusterCountOf f with
  | none => none
  | some clusterCount =>
    if SD_FAT12_CLSTR_CNT > clusterCount then
      some (c.SD_INVALID_FILESYSTEM, g1)
    else
      let g2 :=
        if SD_FAT16_CLSTR_CNT > clusterCount then { g1 with g_filesystem := SD_FAT_16 }
        else { g1 with g_filesystem := SD_FAT_32 }
      let g3 := { g2 with g_fatStart := add32 bootSector f.rsvdSectorCount }
      let g4 :=
        if g3.g_filesystem = SD_FAT_16 then
          let rootAddr := add32 (mul32 f.FATSize f.numFATs) g3.g_fatStart
          { g3 with g_rootAddr := rootAddr, g_firstData := add32 rootAddr f.rootEntryCount }
        else if g3.g_filesystem = SD_FAT_32 then
          let rootCluster := SDConvertDat32 buf SD_ROOT_CLUSTER_ADDR
          let rootAddr := add32 g3.g_fatStart rootCluster
          { g3 with g_rootAddr := rootAddr, g_firstData := rootAddr }
        else g3
      let r := rd k g4.g_rootAddr
      if r.1 ≠ 0 then some (r.1, g4) else some (0, g4)

/-- Lines 262-270 of `SDMount`: the boot sector index and the buffer the layout is parsed
from, together with the number of `SDReadDataBlock` calls made, or the status of the read
that failed. -/
def SDMount_boot (rd : BlockReads) : Except Nat (Nat × Nat × Bytes) :=
  let r0 := rd 0 0
  if r0.1 ≠ 0 then .error r0.1
  else if SD_BOOT_SECTOR_ID ≠ u8 r0.2 SD_BOOT_SECTOR_ID_ADDR then
    let bootSector := SDConvertDat32 r0.2 SD_BOOT_SECTOR_BACKUP
    let r1 := rd 1 bootSector
    if r1.1 ≠ 0 then .error r1.1 else .ok (2, bootSector, r1.2)
  else .ok (1, 0, r0.2)

/-- `SDMount` (sd.c lines 252-357). -/
def SDMount (c : Codes) (rd : BlockReads) (g : Globals) : Option (Nat × Globals) :=
  match SDMount_boot rd with
  | .error err => some (err, g)
  | .ok (k, bootSector, buf) => SDMount_parse c rd k bootSector buf g

/-- The buffer contents `SDMount` parses the layout from when every read succeeds: sector 0
when it carries the boot-sector signature, otherwise the sector that offset 0x1C6 points to. -/
def bootBuffer (rd : BlockReads) : Bytes :=
  if SD_BOOT_SECTOR_ID ≠ u8 (rd 0 0).2 SD_BOOT_SECTOR_ID_ADDR then
    (rd 1 (SDConvertDat32 (rd 0 0).2 SD_BOOT_SECTOR_BACKUP)).2
  else (rd 0 0).2

/-- The cluster count `SDMount` classifies on, for a non-zero sectors-per-cluster byte. -/
def clusterCount (rd : BlockReads) : Nat :=
  dataSectorsOf (bootFields (bootBuffer rd)) / (bootFields (bootBuffer rd)).sectorsPerCluster

/-- The value of the local `bootSector` of `SDMount` once the boot sector is in `buf` (lines
259-270): zero when sector 0 carries the signature, otherwise the value found at
`SD_BOOT_SECTOR_BACKUP` in sector 0. -/
def bootIndex (rd : BlockReads) : Nat :=
  if SD_BOOT_SECTOR_ID ≠ u8 (rd 0 0).2 SD_BOOT_SECTOR_ID_ADDR then
    SDConvertDat32 (rd 0 0).2 SD_BOOT_SECTOR_BACKUP
  else 0

/-! ### The SPI transport and the response parser -/

/-- Modelled from the spec: `WORD_0`, the mask of the low 16 bits, comes from a header that is
not among the sources; the command frame carries the argument as four big-endian bytes, which
the two 16-bit shift-outs of `SDSendCommand` give with this mask. -/
def WORD_0 : Nat := 0xFFFF

/-- What the serial transport, the device behind it and the system counter deliver.
`shiftIn k` is the status returned by the `k`-th call of `SPIShiftIn` and the byte the device
presents on it, `shiftOut k` the status of the `k`-th call of `SPIShiftOut`, `cnt k` the value
of the `k`-th read of the `CNT` register, and `clkfreq` the value of `CLKFREQ`. -/
structure Wire where
  shiftIn : Nat → Nat × Nat
  shiftOut : Nat → Nat
  cnt : Nat → Nat
  clkfreq : Nat

/-- The driver-side state: how many transport calls and counter reads were made, the log of
the `(bits, value)` arguments of every `SPIShiftOut` call, the level of the chip-select pin,
the caller's array `dat` and the local `checksum` of `SDReadBlock`. -/
structure Port where
  nIn : Nat
  nOut : Nat
  nCnt : Nat
  sent : List (Nat × Nat)
  cs : Bool
  dat : Bytes
  checksum : Nat

/-- One read of the 32-bit `CNT` register. -/
def readCNT (w : Wire) (p : Port) : Nat × Port :=
  (w.cnt p.nCnt % 2 ^ 32, { p with nCnt := p.nCnt + 1 })

/-- The call `SPIShiftIn(8, SD_SPI_MODE_IN, ptr, 1)`: the status, the received byte, and the
state with the call counted. Storing the byte is left to the caller of this function. -/
def SPIShiftIn (w : Wire) (p : Port) : Nat × Nat × Port :=
  ((w.shiftIn p.nIn).1 % 256, (w.shiftIn p.nIn).2 % 256, { p with nIn := p.nIn + 1 })

/-- The call `SPIShiftOut(bits, value, SD_SPI_MODE_OUT)`; the call is logged. -/
def SPIShiftOut (w : Wire) (bits value : Nat) (p : Port) : Nat × Port :=
  (w.shiftOut p.nOut % 256, { p with nOut := p.nOut + 1, sent := p.sent ++ [(bits, value)] })

/-- The assignment `*ptr = b` with `ptr == dat`. -/
def storeDat0 (b : Nat) (p : Port) : Port :=
  { p with dat := Function.update p.dat 0 b }

/-- The assignment to the local `checksum`. -/
def storeChecksum (b : Nat) (p : Port) : Port :=
  { p with checksum := b }

/-- The timeout test of a polling loop. With `strict` it is the test of the first wait,
`0 < (timeout - CNT) && (timeout - CNT) < SD_WIGGLE_ROOM` (the second read of `CNT` happens
only when the first operand holds); otherwise it is `(timeout - CNT) < SD_WIGGLE_ROOM`. -/
def timedOut (w : Wire) (strict : Bool) (timeout : Nat) (p : Port) : Bool × Port :=
  if strict then
    if 0 < sub32 timeout (readCNT w p).1 then
      (decide (sub32 timeout (readCNT w (readCNT w p).2).1 < SD_WIGGLE_ROOM),
        (readCNT w (readCNT w p).2).2)
    else (false, (readCNT w p).2)
  else
    (decide (sub32 timeout (readCNT w p).1 < SD_WIGGLE_ROOM), (readCNT w p).2)

/-- A polling loop of `SDReadBlock` and `SDGetResponse`:
`do { if (err = SPIShiftIn(..., ptr, ...)) return err; if (<timed out>) return SD_READ_TIMEOUT; }
while (0xff == *ptr);`
`store` is the assignment through `ptr`. The loop may run forever, so it takes fuel: `none`
means the fuel ran out, `.error s` that the enclosing function returns `s`, `.ok b` that the
loop was left with the byte `b`. A failed `SPIShiftIn` is taken to store nothing. -/
def pollLoop (c : Codes) (w : Wire) (strict : Bool) (store : Nat → Port → Port)
    (timeout : Nat) : Nat → Port → Option (Except Nat Nat × Port)
  | 0, _ => none
  | fuel + 1, p =>
    if (SPIShiftIn w p).1 ≠ 0 then some (.error (SPIShiftIn w p).1, (SPIShiftIn w p).2.2)
    else
      let b := (SPIShiftIn w p).2.1
      let t := timedOut w strict timeout (store b (SPIShiftIn w p).2.2)
      if t.1 then some (.error c.SD_READ_TIMEOUT, t.2)
      else if 0xff = b then pollLoop c w strict store timeout fuel t.2
      else some (.ok b, t.2)

/-- `timeout = SD_RESPONSE_TIMEOUT + CNT`, with `SD_RESPONSE_TIMEOUT` the macro `CLKFREQ/10`. -/
def startTimeout (w : Wire) (p : Port) : Nat × Port :=
  (add32 (w.clkfreq % 2 ^ 32 / 10) (readCNT w p).1, (readCNT w p).2)

/-- The data loop of `SDReadBlock`, `while (bytes--) SPIShiftIn(8, SD_SPI_MODE_IN, dat++, 1);`
with `i` the number of bytes already stored. The status of `SPIShiftIn` is ignored here. -/
def readData (w : Wire) : Nat → Nat → Port → Port
  | 0, _, p => p
  | bytes + 1, i, p =>
    let r := SPIShiftIn w p
    let p1 := if r.1 ≠ 0 then r.2.2 else { r.2.2 with dat := Function.update r.2.2.dat i r.2.1 }
    readData w bytes (i + 1) p1

/-- The checksum loop of `SDReadBlock`, `for (i = 0; i < 2; ++i) { timeout = ...; do ... }`,
with `n` the number of rounds still to run. -/
def readChecksum (c : Codes) (w : Wire) (fuel : Nat) : Nat → Port → Option (Except Nat Unit × Port)
  | 0, p => some (.ok (), p)
  | n + 1, p =>
    match pollLoop c w false storeChecksum (startTimeout w p).1 fuel (startTimeout w p).2 with
    | none => none
    | some (.error s, p1) => some (.error s, p1)
    | some (.ok _, p1) => readChecksum c w fuel n p1

/-- `SDReadBlock(bytes, dat)` (sd.c lines 414-490). The parameter `bytes` is a `uint16`: the
function works with `bytes % 2 ^ 16`. Every polling loop gets `fuel` rounds; the result is
`none` when one of them uses all of it, otherwise the returned status and the final state. -/
def SDReadBlock (c : Codes) (w : Wire) (fuel : Nat) (bytes : Nat) (p : Port) :
    Option (Nat × Port) :=
  if bytes % 2 ^ 16 = 0 then some (c.SD_INVALID_NUM_BYTES, p)
  else
    match pollLoop c w true storeDat0 (startTimeout w p).1 fuel (startTimeout w p).2 with
    | none => none
    | some (.error s, p1) => some (s, p1)
    | some (.ok r1, p1) =>
      if SD_RESPONSE_ACTIVE = r1 then
        match pollLoop c w false storeDat0 (startTimeout w p1).1 fuel (startTimeout w p1).2 with
        | none => none
        | some (.error s, p2) => some (s, p2)
        | some (.ok tok, p2) =>
          if SD_DATA_START_ID = tok then
            match readChecksum c w fuel 2 (readData w (bytes % 2 ^ 16) 0 p2) with
            | none => none
            | some (.error s, p3) => some (s, p3)
            | some (.ok _, p3) =>
              if (SPIShiftOut w 8 0xff p3).1 ≠ 0 then
                some ((SPIShiftOut w 8 0xff p3).1, (SPIShiftOut w 8 0xff p3).2)
              else some (0, (SPIShiftOut w 8 0xff p3).2)
          else some (c.SD_INVALID_DAT_STRT_ID, p2)
      else some (c.SD_INVALID_RESPONSE, p1)

/-- `SDSendCommand(cmd, arg, crc)` (sd.c lines 359-377). -/
def SDSendCommand (w : Wire) (cmd arg crc : Nat) (p : Port) : Nat × Port :=
  let r1 := SPIShiftOut w 8 cmd p
  if r1.1 ≠ 0 then r1
  else
    let r2 := SPIShiftOut w 16 (arg >>> 16) r1.2
    if r2.1 ≠ 0 then r2
    else
      let r3 := SPIShiftOut w 16 (arg &&& WORD_0) r2.2
      if r3.1 ≠ 0 then r3
      else
        let r4 := SPIShiftOut w 8 crc r3.2
        if r4.1 ≠ 0 then r4 else (0, r4.2)

/-- `SDReadDataBlock(address, dat)` (sd.c lines 492-504); chip select is driven low by
`GPIOPinClear` and high again by `GPIOPinSet` on the successful path only. -/
def SDReadDataBlock (c : Codes) (w : Wire) (fuel : Nat) (address : Nat) (p : Port) :
    Option (Nat × Port) :=
  let p0 := { p with cs := false }
  let r := SDSendCommand w SD_CMD_RD_BLOCK address SD_CRC_OTHER p0
  if r.1 ≠ 0 then some r
  else
    match SDReadBlock c w fuel SD_SECTOR_SIZE r.2 with
    | none => none
    | some (s, p1) => if s ≠ 0 then some (s, p1) else some (0, { p1 with cs := true })

/-- The loop `while (bytes--) if (err = SPIShiftIn(8, SD_SPI_MODE_IN, dat++, 1)) return err;`
of `SDGetResponse`, with `i` the index `dat` points to: the status the loop ends on (zero when
it runs to its end) and the state. -/
def readRemaining (w : Wire) : Nat → Nat → Port → Nat × Port
  | 0, _, p => (0, p)
  | bytes + 1, i, p =>
    let r := SPIShiftIn w p
    if r.1 ≠ 0 then (r.1, r.2.2)
    else readRemaining w bytes (i + 1) { r.2.2 with dat := Function.update r.2.2.dat i r.2.1 }

/-- `SDGetResponse(bytes, dat)` (sd.c lines 379-412). The wait for the first byte is the
polling loop with the strict timeout test; `--bytes` is an 8-bit decrement; the status of the
closing `SPIShiftOut` is ignored. The result is `none` when the wait uses all of `fuel`. -/
def SDGetResponse (c : Codes) (w : Wire) (fuel : Nat) (bytes : Nat) (p : Port) :
    Option (Nat × Port) :=
  match pollLoop c w true storeDat0 (startTimeout w p).1 fuel (startTimeout w p).2 with
  | none => none
  | some (.error s, p1) => some (s, p1)
  | some (.ok r1, p1) =>
    if SD_RESPONSE_IDLE = r1 ∨ SD_RESPONSE_ACTIVE = r1 then
      let r := readRemaining w ((bytes % 256 + 255) % 256) 1 p1
      if r.1 ≠ 0 then some r else some (0, (SPIShiftOut w 8 0xff r.2).2)
    else some (c.SD_INVALID_RESPONSE, p1)

/-- Modelled from the spec: `BIT_30` comes from a header that is not among the sources; it is
the mask of bit 30, the argument `SDStart` gives to the operating-conditions command. No branch
of `SDStart` depends on its value. -/
def BIT_30 : Nat := 2 ^ 30

/-- The loop `for (i = 0; i < 5; ++i) SPIShiftOut(16, -1, SD_SPI_MODE_OUT);` of `SDStart`
(lines 160-161), with `n` rounds still to run. The status of `SPIShiftOut` is not looked at;
the argument -1 is logged as the 32-bit value 0xFFFFFFFF. The loop counts in `i`, the counter
of the enclosing loop, and leaves 5 in it. -/
def sendClocks (w : Wire) : Nat → Port → Port
  | 0, p => p
  | n + 1, p => sendClocks w n (SPIShiftOut w 16 0xFFFFFFFF p).2

/-- The body of the first loop of `SDStart` (lines 157-171), up to the increment `++i`:
`waitcnt(CLKFREQ/2 + CNT)` (one read of `CNT`), chip select high, the five shift-outs, chip
select low, the idle command and its response into `response`, whose status is not looked at.
The result is `.error err` when `SDStart` returns `err` here, otherwise the value the body
leaves in `i`: 5 from the inner loop, or 10 when `response[0]` is the idle response. -/
def idleRound (c : Codes) (w : Wire) (fuel : Nat) (p : Port) : Option (Except Nat Nat × Port) :=
  let p1 := (readCNT w p).2
  let p2 := sendClocks w 5 { p1 with cs := true }
  let r := SDSendCommand w SD_CMD_IDLE 0 SD_CRC_IDLE { p2 with cs := false }
  if r.1 ≠ 0 then some (.error r.1, r.2)
  else
    match SDGetResponse c w fuel SD_RESPONSE_LEN_R1 r.2 with
    | none => none
    | some (_, p3) => some (.ok (if SD_RESPONSE_IDLE = u8 p3.dat 0 then 10 else 5), p3)

/-- The first loop of `SDStart`, `for (i = 0; i < 10; ++i) { ... }`, from the test `i < 10` on
with the value `i` of the 16-bit counter. The loop may run forever, so it takes fuel, one unit
per test: `none` means the fuel ran out, `.error err` that `SDStart` returns `err`, `.ok ()`
that the loop was left. -/
def idleLoop (c : Codes) (w : Wire) (fuel : Nat) : Nat → Nat → Port → Option (Except Nat Unit × Port)
  | 0, _, _ => none
  | rounds + 1, i, p =>
    if i < 10 then
      match idleRound c w fuel p with
      | none => none
      | some (.error err, q) => some (.error err, q)
      | some (.ok i', q) => idleLoop c w fuel rounds ((i' + 1) % 2 ^ 16) q
    else some (.ok (), p)

/-- Lines 143-203 of `SDStart`: chip select high, `SPIStart` (whose status `startStatus` is
taken as a uint8, like that of the other SPI calls), the idle loop, the interface-condition
command and the read of the operating-conditions register. `.error err` means that `SDStart`
returns `err`, `.ok ()` that it goes on to the activation loop. -/
def SDStart_init (c : Codes) (w : Wire) (startStatus fuel : Nat) (p : Port) :
    Option (Except Nat Unit × Port) :=
  let p0 := { p with cs := true }
  if startStatus % 256 ≠ 0 then some (.error (startStatus % 256), p0)
  else
    match idleLoop c w fuel fuel 0 p0 with
    | none => none
    | some (.error err, q) => some (.error err, q)
    | some (.ok _, q) =>
      if SD_RESPONSE_IDLE ≠ u8 q.dat 0 then some (.error c.SD_INVALID_INIT, q)
      else
        let r := SDSendCommand w SD_CMD_SDHC SD_CMD_VOLT_ARG SD_CRC_SDHC q
        if r.1 ≠ 0 then some (.error r.1, r.2)
        else
          match SDGetResponse c w fuel SD_RESPONSE_LEN_R7 r.2 with
          | none => none
          | some (err, q2) =>
            if err ≠ 0 then some (.error err, q2)
            else if SD_RESPONSE_IDLE ≠ u8 q2.dat 0 ∨ 0x01 ≠ u8 q2.dat 3 ∨ 0xAA ≠ u8 q2.dat 4 then
              some (.error c.SD_INVALID_INIT, q2)
            else
              let r3 := SDSendCommand w SD_CMD_READ_OCR 0 SD_CRC_OTHER q2
              if r3.1 ≠ 0 then some (.error r3.1, r3.2)
              else
                match SDGetResponse c w fuel SD_RESPONSE_LEN_R3 r3.2 with
                | none => none
                | some (err3, q3) =>
                  if err3 ≠ 0 then some (.error err3, q3)
                  else if SD_RESPONSE_IDLE ≠ u8 q3.dat 0 then some (.error c.SD_INVALID_INIT, q3)
                  else some (.ok (), q3)

/-- The body of the second loop of `SDStart` (lines 207-215): the application-command prefix
and its response, the operating-conditions command and its response, whose status is not
looked at. `.error err` means that `SDStart` returns `err`, `.ok b` gives the value `b` of the
test `SD_RESPONSE_ACTIVE == response[0]` that leaves the loop. -/
def activateRound (c : Codes) (w : Wire) (fuel : Nat) (p : Port) :
    Option (Except Nat Bool × Port) :=
  let r := SDSendCommand w SD_CMD_APP 0 SD_CRC_OTHER p
  if r.1 ≠ 0 then some (.error r.1, r.2)
  else
    match SDGetResponse c w fuel 1 r.2 with
    | none => none
    | some (err, p2) =>
      if err ≠ 0 then some (.error err, p2)
      else
        let r3 := SDSendCommand w SD_CMD_WR_OP BIT_30 SD_CRC_OTHER p2
        if r3.1 ≠ 0 then some (.error r3.1, r3.2)
        else
          match SDGetResponse c w fuel 1 r3.2 with
          | none => none
          | some (_, p4) => some (.ok (decide (SD_RESPONSE_ACTIVE = u8 p4.dat 0)), p4)

/-- The second loop of `SDStart`, `for (i = 0; i < 8; ++i) { ... break; }`, with `n` rounds
still to run. -/
def activateLoop (c : Codes) (w : Wire) (fuel : Nat) : Nat → Port → Option (Except Nat Unit × Port)
  | 0, p => some (.ok (), p)
  | n + 1, p =>
    match activateRound c w fuel p with
    | none => none
    | some (.error err, q) => some (.error err, q)
    | some (.ok true, q) => some (.ok (), q)
    | some (.ok false, q) => activateLoop c w fuel n q

/-- `SDStart(mosi, miso, sclk, cs)` (sd.c lines 143-250). Every polling loop and the idle loop
get `fuel` rounds; the result is `none` when one of them uses all of it, otherwise the returned
status, the final state and the arguments of the `SPISetClock` calls made, in order. -/
def SDStart (c : Codes) (w : Wire) (startStatus fuel : Nat) (p : Port) :
    Option (Nat × Port × List Nat) :=
  match SDStart_init c w startStatus fuel p with
  | none => none
  | some (.error err, q) => some (err, q, [])
  | some (.ok _, q) =>
    match activateLoop c w fuel 8 q with
    | none => none
    | some (.error err, q2) => some (err, q2, [])
    | some (.ok _, q2) =>
      if SD_RESPONSE_ACTIVE ≠ u8 q2.dat 0 then some (c.SD_INVALID_RESPONSE, q2, [])
      else some (0, { q2 with cs := true }, [SD_SPI_FINAL_FREQ])

/-! ### Vocabulary for statements about the response parser -/

/-- The state after `k` rounds of the second loop of `SDStart` from the state `p`; a round that
does not return keeps the state. -/
def afterRounds (c : Codes) (w : Wire) (fuel : Nat) : Nat → Port → Port
  | 0, p => p
  | k + 1, p =>
    match activateRound c w fuel p with
    | none => p
    | some (_, q) => afterRounds c w fuel k q

/-- Modelled from the spec: `SPIShiftOut` belongs to the SPI module, which is not among the
sources. It is the transport's shift_out(bit_count, value, bit_order), and `SD_SPI_MODE_OUT` is
`SPI_MSB_FIRST`, so one call puts the low `bits` bits of `value` on the wire, the most
significant of them first; for a whole number of bytes these are the bytes of `value` in
big-endian order. -/
def frameBytes (bits value : Nat) : List Nat :=
  (List.range (bits / 8)).map fun i => (value >>> (bits - 8 * (i + 1))) % 256

/-- The bytes put on the wire by the logged `SPIShiftOut` calls, in order. -/
def wireBytes (sent : List (Nat × Nat)) : List Nat :=
  sent.flatMap fun e => frameBytes e.1 e.2

/-- The device answers the shift-ins from call number `start` on with the bytes of `l`, each
with status zero. -/
def Delivers (w : Wire) (start : Nat) (l : List Nat) : Prop :=
  ∀ k, k < l.length → w.shiftIn (start + k) = (0, l.getD k 0)

/-- The deadline `SD_RESPONSE_TIMEOUT + CNT` computed from the `i`-th read of `CNT`. -/
def deadline (w : Wire) (i : Nat) : Nat := add32 (w.clkfreq % 2 ^ 32 / 10) (w.cnt i % 2 ^ 32)

/-- No timeout among the `n` reads of `CNT` from number `start` on: every such read lies at
least `SD_WIGGLE_ROOM` cycles before every deadline computed from an earlier one of them. -/
def NoExpiry (w : Wire) (start n : Nat) : Prop :=
  ∀ i j, start ≤ i → i < j → j < start + n →
    SD_WIGGLE_ROOM ≤ sub32 (deadline w i) (w.cnt j % 2 ^ 32)

/-- The last read of `CNT` before the state `p'` lies fewer than `SD_WIGGLE_ROOM` cycles before
a deadline, or on it: the deadline computed from read number `i` of `CNT`, one of the reads
from number `lo` on, and the difference taken in 32-bit arithmetic as the code takes it. -/
def ExpiredAt (w : Wire) (lo : Nat) (p' : Port) : Prop :=
  ∃ i, lo ≤ i ∧ i + 1 < p'.nCnt ∧
    sub32 (deadline w i) (w.cnt (p'.nCnt - 1) % 2 ^ 32) < SD_WIGGLE_ROOM

/-- The wait that begins in the state `q` (the assignment `timeout = SD_RESPONSE_TIMEOUT + CNT`
made there, then the polling loop with the timeout test `strict` and the store `store`) returns
`SD_READ_TIMEOUT` in the state `p'`, and the read of `CNT` it does so on, the last one before
`p'`, lies fewer than `SD_WIGGLE_ROOM` cycles before the deadline of this wait, the one computed
from read number `q.nCnt` of `CNT`, or on it (32-bit difference `timeout - CNT`). -/
def ExpiredWait (c : Codes) (w : Wire) (fuel : Nat) (strict : Bool) (store : Nat → Port → Port)
    (q p' : Port) : Prop :=
  pollLoop c w strict store (startTimeout w q).1 fuel (startTimeout w q).2
      = some (.error c.SD_READ_TIMEOUT, p') ∧
    sub32 (deadline w q.nCnt) (w.cnt (p'.nCnt - 1) % 2 ^ 32) < SD_WIGGLE_ROOM

/-- The state with `i` more shift-ins and `k` more counter reads made. -/
def advance (p : Port) (i k : Nat) : Port := { p with nIn := p.nIn + i, nCnt := p.nCnt + k }

/-! ### Concrete inputs -/

/-- Status codes for the concrete runs (any values would do). -/
def demoCodes : Codes := ⟨16, 17, 18, 19, 20, 21, 22⟩

/-- A boot sector with signature 0xEB, one sector per cluster and 5000 sectors in total. -/
def demoBoot : Bytes := fun i =>
  if i = 0 then 0xeb else if i = 0x0d then 1 else if i = 0x13 then 0x88 else if i = 0x14 then 0x13
  else 0

/-- A device on which every block read succeeds and delivers `demoBoot`. -/
def demoReads : BlockReads := fun _ _ => (0, demoBoot)

def demoGlobals : Globals := ⟨0, 0, 0, 0, 0, 0⟩

/-- A transport on which every call succeeds, whose counter advances 100 cycles per read at
80 MHz, and whose device sends the bytes of `stream` and 0xFF afterwards. -/
def demoWire (stream : List Nat) : Wire :=
  { shiftIn := fun k => (0, stream.getD k 0xff)
    shiftOut := fun _ => 0
    cnt := fun k => 100 * k
    clkfreq := 80000000 }

def demoPort : Port :=
  { nIn := 0, nOut := 0, nCnt := 0, sent := [], cs := false, dat := fun _ => 0, checksum := 0 }

/-- A transport whose device answers every shift-in with 0xFF and whose counter, at 96 MHz, is
65536 cycles further at every read. -/
def slowWire : Wire :=
  { shiftIn := fun _ => (0, 0xff)
    shiftOut := fun _ => 0
    cnt := fun k => 65536 * k
    clkfreq := 96000000 }

/-- A transport on which the third `SPIShiftOut` call fails with status 5. -/
def failingWire : Wire :=
  { shiftIn := fun _ => (0, 0xff)
    shiftOut := fun k => if k = 2 then 5 else 0
    cnt := fun k => 100 * k
    clkfreq := 80000000 }

/-- A FAT32 boot sector: signature 0xEB, 8 sectors per cluster, 32 reserved sectors, 2 FATs,
no root entries, both 16-bit size fields zero, 2000000 sectors in total (0x001E8480 at 0x20),
2000 sectors per FAT (0x000007D0 at 0x24) and root cluster 2. -/
def fat32Boot : Bytes := fun i =>
  if i = 0 then 0xeb else if i = 0x0d then 8 else if i = 0x0e then 32 else if i = 0x10 then 2
  else if i = 0x20 then 0x80 else if i = 0x21 then 0x84 else if i = 0x22 then 0x1e
  else if i = 0x24 then 0xd0 else if i = 0x25 then 0x07 else if i = 0x2c then 2 else 0

/-- A FAT16 boot sector: signature 0xEB, 1 sector per cluster, 1 reserved sector, 2 FATs of
80 sectors, 512 root entries and 20000 sectors in total. -/
def fat16Boot : Bytes := fun i =>
  if i = 0 then 0xeb else if i = 0x0d then 1 else if i = 0x0e then 1 else if i = 0x10 then 2
  else if i = 0x12 then 0x02 else if i = 0x13 then 0x20 else if i = 0x14 then 0x4e
  else if i = 0x16 then 0x50 else 0

/-- A partition table in sector 0 whose entry at 0x1C6 points to sector 63. -/
def demoMBR : Bytes := fun i => if i = 0x1c6 then 63 else 0

/-- A device with `demoMBR` in sector 0 and `fat16Boot` in every other sector. -/
def partitionReads : BlockReads := fun _ a => (0, if a = 0 then demoMBR else fat16Boot)

/-- A transport whose device answers every shift-in with 0x00, a data line stuck low, and
whose counter advances 100 cycles per read at 80 MHz. -/
def stuckWire : Wire :=
  { shiftIn := fun _ => (0, 0x00)
    shiftOut := fun _ => 0
    cnt := fun k => 100 * k
    clkfreq := 80000000 }

/-- The answers of a card that goes idle, echoes the interface condition (R7 ending in 0x01
0xAA), delivers its operating-conditions register, and then answers the application prefix and
the operating-conditions command with the idle response 0x01 in each of eight rounds. -/
def idleStream : List Nat :=
  [0x01, 0x01, 0x00, 0x00, 0x01, 0xAA, 0x01, 0x00, 0xFF, 0x80, 0x00] ++ List.replicate 16 0x01

/-- The answers of a card that initializes: as `idleStream`, but the first operating-conditions
command is answered with the active response 0x00. -/
def activeStream : List Nat :=
  [0x01, 0x01, 0x00, 0x00, 0x01, 0xAA, 0x01, 0x00, 0xFF, 0x80, 0x00, 0x01, 0x00]

/-- A transport whose first shift-in returns after 7990100 cycles, 99.9 ms at 80 MHz, with the
byte 0xFF, and whose counter advances 100 cycles per read from then on. -/
def lateWire : Wire :=
  { shiftIn := fun _ => (0, 0xff)
    shiftOut := fun _ => 0
    cnt := fun k => if k = 0 then 0 else 7990000 + 100 * k
    clkfreq := 80000000 }

/-- A device on which every block read succeeds and delivers `fat16Boot`. -/
def fat16Reads : BlockReads := fun _ _ => (0, fat16Boot)

/-- A device on which every block read succeeds and delivers `fat32Boot`. -/
def fat32Reads : BlockReads := fun _ _ => (0, fat32Boot)

/-- A small volume formatted as FAT32: signature 0xEB, 1 sector per cluster, 32 reserved
sectors, 2 FATs, no root entries, both 16-bit size fields zero, 33310 sectors in total
(0x0000821E at 0x20), 256 sectors per FAT (0x00000100 at 0x24) and root cluster 2. -/
def smallFat32Boot : Bytes := fun i =>
  if i = 0 then 0xeb else if i = 0x0d then 1 else if i = 0x0e then 32 else if i = 0x10 then 2
  else if i = 0x20 then 0x1e else if i = 0x21 then 0x82 else if i = 0x25 then 0x01
  else if i = 0x2c then 2 else 0

/-- A device on which every block read succeeds and delivers `smallFat32Boot`. -/
def smallFat32Reads : BlockReads := fun _ _ => (0, smallFat32Boot)

/-- The reads that bring the boot sector into `buf` succeed: the read of sector 0 and, when
sector 0 does not carry the boot-sector signature, the read of the sector it points to. -/
def BootRead (rd : BlockReads) : Prop :=
  (rd 0 0).1 = 0 ∧
    (SD_BOOT_SECTOR_ID ≠ u8 (rd 0 0).2 SD_BOOT_SECTOR_ID_ADDR → (rd 1 (bootIndex rd)).1 = 0)

/-- A transport on which every call succeeds, whose counter advances 5000 cycles per read at
80 MHz, and whose device answers a block read with the ready token 0x00, the data-start token
0xFE, the data byte 0x55 and the checksum bytes `c1` and `c2`, and leaves the line idle (0xFF)
afterwards. -/
def crcWire (c1 c2 : Nat) : Wire :=
  { shiftIn := fun k => (0, [0x00, 0xfe, 0x55, c1, c2].getD k 0xff)
    shiftOut := fun _ => 0
    cnt := fun k => 5000 * k
    clkfreq := 80000000 }

end SD

/-! ## PropWare/filesystem/filesystem.h and PropWare/filesystem/fat/fatfile.h -/

namespace Filesystem

def HD44780_MAX_ERROR : Nat := 64
def NO_ERROR : Nat := 0
def BEG_ERROR : Nat := HD44780_MAX_ERROR + 1
def FILESYSTEM_ALREADY_MOUNTED : Nat := BEG_ERROR
def END_ERROR : Nat := FILESYSTEM_ALREADY_MOUNTED

end Filesystem

namespace FatFile

def NO_ERROR : Nat := 0
def BEG_ERROR : Nat := Filesystem.END_ERROR + 1
def ENTRY_NOT_FILE : Nat := BEG_ERROR
def FILENAME_NOT_FOUND : Nat := ENTRY_NOT_FILE + 1
def END_ERROR : Nat := FILENAME_NOT_FOUND

def FILE_LEN_OFFSET : Nat := 0x1C
def FILE_ENTRY_LENGTH : Nat := 32
def DELETED_FILE_MARK : Nat := 0xE5
def FILE_NAME_LEN : Nat := 8
def FILE_EXTENSION_LEN : Nat := 3
def FILENAME_STR_LEN : Nat := FILE_NAME_LEN + FILE_EXTENSION_LEN + 2
def FILE_ATTRIBUTE_OFFSET : Nat := 0x0B
def FILE_START_CLSTR_LOW : Nat := 0x1A
def FILE_START_CLSTR_HIGH : Nat := 0x14

/-- Modelled from the spec: `BIT_4` comes from a header that is not among the sources; the
subdirectory attribute is bit 4 of the attribute byte. -/
def SUB_DIR : Nat := 0x10

/-- The record `BlockStorage::MetaData` as far as `fatfile.h` uses it. Its declaration is not
among the sources; `curTier1Offset` is taken to be 8 bits wide, the width the assignment in
`load_sector_from_offset` casts to. -/
structure MetaData where
  curTier2 : Nat
  nextTier2 : Nat
  curTier2Addr : Nat
  curTier1Offset : Nat
deriving DecidableEq, Repr

/-- The identity of a `MetaData` record, that is the pointer value the code compares:
`&m_fs->m_dirMeta`, `&m_contentMeta`, `&m_dirEntryMeta`, or a record of another owner. -/
inductive MetaRef where
  | dirMeta
  | contentMeta
  | dirEntryMeta
  | foreign (k : Nat)
deriving DecidableEq, Repr

/-- The FAT variant stored in `FatFS::m_filesystem`. -/
inductive Variant where
  | FAT_16
  | FAT_32
deriving DecidableEq, Repr

/-- The calls `fatfile.h` makes into the block driver and into `FatFS`, with their arguments.
`flush` and `reload_buffer` record which record the buffer was bound to and its contents. -/
inductive Event where
  | flush (bound : MetaRef) (m : MetaData)
  | read_data_block (address : Nat)
  | reload_buffer (bound : MetaRef) (m : MetaData)
  | get_fat_value (cluster : Nat)
deriving DecidableEq, Repr

/-- The collaborators of `FatFile` whose code is not among the sources (`BlockStorage`,
`FatFS`), kept abstract. `status h` is the error code returned by the call that is last in the
history `h`, `sector h` the bytes a successful `read_data_block` or `reload_buffer` leaves in
the buffer, `fat c` the FAT entry of cluster `c` that a successful `get_fat_value` delivers. -/
structure Driver where
  status : List Event → Nat
  sector : List Event → Bytes
  fat : Nat → Nat
  compute_tier1_from_tier2 : Nat → Nat
  is_eoc : Nat → Bool
  sectorSize : Nat
  sectorSizeShift : Nat
  EOC_END : Nat
  READING_PAST_EOC : Nat

/-- The fields of `FatFS`, of the shared `BlockStorage::Buffer` and of the `FatFile` (with its
base `File`) that the embedded functions use, and the history of driver calls. -/
structure State where
  m_filesystem : Variant
  m_rootAddr : Nat
  m_rootDirSectors : Nat
  m_tier1sPerTier2Shift : Nat
  m_dir_firstCluster : Nat
  m_dirMeta : MetaData
  buf : Bytes
  bufMeta : MetaRef
  m_contentMeta : MetaData
  m_dirEntryMeta : MetaData
  foreignMeta : Nat → MetaData
  m_fsBufMeta : MetaRef
  firstTier2 : Nat
  m_curTier1 : Nat
  m_curTier2 : Nat
  m_dirTier1Addr : Nat
  fileEntryOffset : Nat
  m_length : Nat
  m_ptr : Nat
  trace : List Event

/-- Dereferencing a `MetaData` pointer. -/
def getMeta (s : State) : MetaRef → MetaData
  | .dirMeta => s.m_dirMeta
  | .contentMeta => s.m_contentMeta
  | .dirEntryMeta => s.m_dirEntryMeta
  | .foreign k => s.foreignMeta k

/-- Assigning through a `MetaData` pointer. -/
def setMeta (s : State) (r : MetaRef) (m : MetaData) : State :=
  match r with
  | .dirMeta => { s with m_dirMeta := m }
  | .contentMeta => { s with m_contentMeta := m }
  | .dirEntryMeta => { s with m_dirEntryMeta := m }
  | .foreign k => { s with foreignMeta := Function.update s.foreignMeta k m }

/-- The assignment `m_buf->meta = r`. -/
def rebind (s : State) (r : MetaRef) : State := { s with bufMeta := r }

/-- `m_driver->flush(m_buf)`. -/
def flush (d : Driver) (s : State) : Nat × State :=
  let h := s.trace ++ [Event.flush s.bufMeta (getMeta s s.bufMeta)]
  (d.status h, { s with trace := h })

/-- `m_driver->read_data_block(address, m_buf->buf)`; a failed read is taken to leave the
buffer as it was. -/
def read_data_block (d : Driver) (address : Nat) (s : State) : Nat × State :=
  let h := s.trace ++ [Event.read_data_block address]
  if d.status h ≠ 0 then (d.status h, { s with trace := h })
  else (0, { s with trace := h, buf := d.sector h })

/-- `m_driver->reload_buffer(m_buf)`. -/
def reload_buffer (d : Driver) (s : State) : Nat × State :=
  let h := s.trace ++ [Event.reload_buffer s.bufMeta (getMeta s s.bufMeta)]
  if d.status h ≠ 0 then (d.status h, { s with trace := h })
  else (0, { s with trace := h, buf := d.sector h })

/-- `m_fs->get_fat_value(r->curTier2, &(r->nextTier2))`, the only shape in which the code calls
`get_fat_value`. The call is given the cluster and the address of the result only, so it is
taken to change nothing else of the file or of the shared buffer; a failed lookup is taken to
leave `nextTier2` as it was. -/
def get_fat_value (d : Driver) (r : MetaRef) (s : State) : Nat × State :=
  let h := s.trace ++ [Event.get_fat_value (getMeta s r).curTier2]
  if d.status h ≠ 0 then (d.status h, { s with trace := h })
  else (0, setMeta { s with trace := h } r
    { getMeta s r with nextTier2 := d.fat (getMeta s r).curTier2 })

/-- Modelled from the spec: `BlockStorage::get_short` is not among the sources; directory-entry
fields are little-endian. -/
def get_short (offset : Nat) (buf : Bytes) : Nat :=
  ((u8 buf (offset + 1) <<< 8) ||| u8 buf offset) % 2 ^ 16

/-- Modelled from the spec: `BlockStorage::get_long` is not among the sources; directory-entry
fields are little-endian. -/
def get_long (offset : Nat) (buf : Bytes) : Nat :=
  ((u8 buf (offset + 3) <<< 24) ||| (u8 buf (offset + 2) <<< 16) ||| (u8 buf (offset + 1) <<< 8)
    ||| u8 buf offset) % 2 ^ 32

/-- `get_file_attributes(fileEntryOffset)`. -/
def get_file_attributes (s : State) (fileEntryOffset : Nat) : Nat :=
  u8 s.buf (fileEntryOffset + FILE_ATTRIBUTE_OFFSET)

/-- `is_directory(fileEntryOffset)`: `SUB_DIR & attributes`, converted to `bool`. -/
def is_directory (s : State) (fileEntryOffset : Nat) : Bool :=
  decide ((SUB_DIR &&& get_file_attributes s fileEntryOffset) ≠ 0)

/-- `file_deleted(fileEntryOffset)`. -/
def file_deleted (s : State) (fileEntryOffset : Nat) : Bool :=
  decide (DELETED_FILE_MARK = u8 s.buf fileEntryOffset)

/-- The first loop of `get_filename`, from index `i` on: one round appends 0xe5 for the byte
0x05, the byte itself when it is not a space, and nothing for a space. -/
def nameStep (buf : Bytes) (off : Nat) (filename : List Nat) (i : Nat) : List Nat :=
  if 0x05 = u8 buf (off + i) then filename ++ [0xe5]
  else if 0x20 ≠ u8 buf (off + i) then filename ++ [u8 buf (off + i)]
  else filename

/-- One round of the second loop of `get_filename`. -/
def extStep (buf : Bytes) (off : Nat) (filename : List Nat) (i : Nat) : List Nat :=
  if 0x20 ≠ u8 buf (off + i) then filename ++ [u8 buf (off + i)] else filename

/-- `get_filename(&buf[off], filename)`: the characters written to `filename[0 .. j-1]`; the
function then stores the terminating NUL at `filename[j]`. -/
def get_filename (buf : Bytes) (off : Nat) : List Nat :=
  let name := (List.range FILE_NAME_LEN).foldl (nameStep buf off) []
  if 0x20 ≠ u8 buf (off + FILE_NAME_LEN) then
    (List.range' FILE_NAME_LEN FILE_EXTENSION_LEN).foldl (extStep buf off) (name ++ [0x2e])
  else name

/-- The bytes `get_filename` stores, in the order of the indices `filename[0]`, `filename[1]`,
...: its characters, then the NUL of line 239 at `filename[j]`. -/
def get_filename_stores (buf : Bytes) (off : Nat) : List Nat := get_filename buf off ++ [0]

/-- The C string held by a character array: the characters before the first NUL. -/
def cstr (a : List Nat) : List Nat := a.takeWhile (fun ch => ch ≠ 0)

/-- The test `!strcmp(a, b)`: the two C strings are equal. -/
def strcmp_eq (a b : List Nat) : Bool := decide (cstr a = cstr b)

/-- Lines 304-309 of `inc_cluster`: `curTier2 = nextTier2`, then the lookup of the new
cluster's successor unless the new cluster is the end-of-chain marker. -/
def lookAhead (d : Driver) (s : State) : Nat × State :=
  let s1 := setMeta s s.bufMeta
    { getMeta s s.bufMeta with curTier2 := (getMeta s s.bufMeta).nextTier2 }
  if ¬ d.is_eoc (getMeta s1 s1.bufMeta).curTier2 then get_fat_value d s1.bufMeta s1 else (0, s1)

/-- Lines 310-313 of `inc_cluster`: the base address of the current cluster is recomputed, the
sector offset reset, and the cluster's first sector read. -/
def enterCluster (d : Driver) (s : State) : Nat × State :=
  let s2 := setMeta s s.bufMeta
    { getMeta s s.bufMeta with
      curTier2Addr := d.compute_tier1_from_tier2 (getMeta s s.bufMeta).curTier2
      curTier1Offset := 0 }
  read_data_block d (getMeta s2 s2.bufMeta).curTier2Addr s2

/-- `inc_cluster()` (fatfile.h lines 292-314), acting on the shared buffer `m_buf`. -/
def inc_cluster (d : Driver) (s : State) : Nat × State :=
  if d.is_eoc (getMeta s s.bufMeta).curTier2 then (d.READING_PAST_EOC, s)
  else
    let r := flush d s
    if r.1 ≠ 0 then r
    else
      let r2 := lookAhead d r.2
      if r2.1 ≠ 0 then r2 else enterCluster d r2.2

/-- The increment `buf->meta->curTier1Offset++` (also `++(buf->meta->curTier1Offset)`) of the
8-bit sector offset. -/
def bumpOffset (s : State) : State :=
  setMeta s s.bufMeta
    { getMeta s s.bufMeta with
      curTier1Offset := ((getMeta s s.bufMeta).curTier1Offset + 1) % 2 ^ 8 }

/-- `load_next_sector(buf)` (fatfile.h lines 251-281) with `buf == m_buf`, the argument of its
only caller and the buffer `inc_cluster` works on. -/
def load_next_sector (d : Driver) (s : State) : Nat × State :=
  if d.is_eoc (getMeta s s.bufMeta).curTier2 then (d.EOC_END, s)
  else if Variant.FAT_16 = s.m_filesystem ∧ s.m_rootAddr = (getMeta s s.bufMeta).curTier2Addr then
    if s.m_rootDirSectors = (getMeta s s.bufMeta).curTier1Offset then (d.EOC_END, s)
    else
      let r := flush d s
      if r.1 ≠ 0 then r
      else
        read_data_block d (getMeta (bumpOffset r.2) (bumpOffset r.2).bufMeta).curTier1Offset
          (bumpOffset r.2)
  else
    let tier1sPerTier2 := (1 <<< s.m_tier1sPerTier2Shift) % 2 ^ 32
    let s1 := bumpOffset s
    if tier1sPerTier2 = (getMeta s1 s1.bufMeta).curTier1Offset then inc_cluster d s1
    else
      read_data_block d
        (add32 (getMeta s1 s1.bufMeta).curTier1Offset (getMeta s1 s1.bufMeta).curTier2Addr) s1

/-- `buffer_holds_directory_start()` (fatfile.h lines 316-323). -/
def buffer_holds_directory_start (d : Driver) (s : State) : Bool :=
  let bufferIsDirectory := decide (MetaRef.dirMeta = s.bufMeta)
  let tier1AtStart := decide (0 = s.m_dirMeta.curTier1Offset)
  let tier2AtStart :=
    decide (d.compute_tier1_from_tier2 s.m_dir_firstCluster = s.m_dirMeta.curTier2Addr)
  bufferIsDirectory && tier1AtStart && tier2AtStart

/-- `reload_directory_start()` (fatfile.h lines 325-343). The status of its `flush` is not
looked at. -/
def reload_directory_start (d : Driver) (s : State) : Nat × State :=
  if ¬ buffer_holds_directory_start d s then
    let s0 := (flush d s).2
    let s1 := { s0 with
      m_dirMeta := { s0.m_dirMeta with
        curTier2Addr := d.compute_tier1_from_tier2 s0.m_dir_firstCluster
        curTier1Offset := 0
        curTier2 := s0.m_dir_firstCluster } }
    let r := get_fat_value d s1.m_fsBufMeta s1
    if r.1 ≠ 0 then r
    else
      let r2 := reload_buffer d (rebind r.2 MetaRef.dirMeta)
      if r2.1 ≠ 0 then r2 else (NO_ERROR, r2.2)
  else (NO_ERROR, s)

/-- The advance of `find` to the next directory entry (fatfile.h lines 131-142), from the
entry at offset `off`: the status (non-zero when `load_next_sector` failed and `find` returns
it), the new value of `*fileEntryOffset` and the new state. -/
def scanNext (d : Driver) (off : Nat) (s : State) : Nat × Nat × State :=
  let off1 := (off + FILE_ENTRY_LENGTH) % 2 ^ 16
  if d.sectorSize = off1 then
    let r := load_next_sector d s
    if r.1 ≠ 0 then (r.1, off1, r.2) else (0, 0, r.2)
  else (0, off1, s)

/-- The `while` loop of `find` (fatfile.h lines 122-145), from entry offset `off` on. The scan
can go on for ever, so it takes fuel, one unit per directory entry looked at. The result is
the returned status, the final value of `*fileEntryOffset` and the final state. -/
def findLoop (d : Driver) (filename : List Nat) : Nat → Nat → State → Option (Nat × Nat × State)
  | 0, _, _ => none
  | fuel + 1, off, s =>
    if u8 s.buf off = 0 then some (FILENAME_NOT_FOUND, off, s)
    else if (! file_deleted s off) && strcmp_eq filename (get_filename s.buf off) then
      some (0, off, s)
    else
      let n := scanNext d off s
      if n.1 ≠ 0 then some (n.1, n.2.1, n.2.2) else findLoop d filename fuel n.2.1 n.2.2

/-- `find(filename, fileEntryOffset)` (fatfile.h lines 112-146). -/
def find (d : Driver) (filename : List Nat) (fuel : Nat) (s : State) :
    Option (Nat × Nat × State) :=
  let r := reload_directory_start d s
  if r.1 ≠ 0 then some (r.1, 0, r.2) else findLoop d filename fuel 0 r.2

/-- `open_existing_file(fileEntryOffset)` (fatfile.h lines 151-193). -/
def open_existing_file (d : Driver) (fileEntryOffset : Nat) (s : State) : Nat × State :=
  if is_directory s fileEntryOffset then (ENTRY_NOT_FILE, s)
  else
    let r := flush d s
    if r.1 ≠ 0 then r
    else
      let s1 := { r.2 with m_dirEntryMeta := getMeta r.2 r.2.bufMeta }
      let low := get_short (fileEntryOffset + FILE_START_CLSTR_LOW) s1.buf
      let firstTier2 :=
        if Variant.FAT_16 = s1.m_filesystem then low
        else
          let highWord := get_short (fileEntryOffset + FILE_START_CLSTR_HIGH) s1.buf
          ((low ||| (highWord <<< 16)) % 2 ^ 32) &&& 0x0FFFFFFF
      let s2 := { s1 with
        firstTier2 := firstTier2
        m_curTier2 := 0
        fileEntryOffset := fileEntryOffset
        m_length := get_long (fileEntryOffset + FILE_LEN_OFFSET) s1.buf
        m_contentMeta := { s1.m_contentMeta with
          curTier1Offset := 0
          curTier2 := firstTier2
          curTier2Addr := d.compute_tier1_from_tier2 firstTier2 } }
      let r2 := get_fat_value d MetaRef.contentMeta s2
      if r2.1 ≠ 0 then r2
      else reload_buffer d (rebind r2.2 MetaRef.contentMeta)

/-- The two statements `bufferMetadata->curTier2 = bufferMetadata->nextTier2;` and
`check_errors(get_fat_value(bufferMetadata->curTier2, &(bufferMetadata->nextTier2)));` that
both loops of `load_sector_from_offset` share: the status of the lookup and the new state. -/
def nextCluster (d : Driver) (bufferMetadata : MetaRef) (s : State) : Nat × State :=
  get_fat_value d bufferMetadata
    (setMeta s bufferMetadata
      { getMeta s bufferMetadata with curTier2 := (getMeta s bufferMetadata).nextTier2 })

/-- The statement `++this->m_curTier2;`. In both loops the counter stays at or below
`requiredCluster`, a 32-bit value, so the increment cannot wrap. -/
def incTier2 (s : State) : State := { s with m_curTier2 := s.m_curTier2 + 1 }

/-- The statement `this->m_curTier2 = 0;`. -/
def resetTier2 (s : State) : State := { s with m_curTier2 := 0 }

/-- The `do ... while (m_curTier2 < requiredCluster)` loop of `load_sector_from_offset`
(lines 396-402). `fuel` bounds the number of rounds; the caller passes
`requiredCluster - m_curTier2`, which the guard never lets the loop use up. -/
def walkForward (d : Driver) (bufferMetadata : MetaRef) (requiredCluster : Nat) :
    Nat → State → Nat × State
  | 0, s => (0, s)
  | fuel + 1, s =>
    let r := nextCluster d bufferMetadata s
    if r.1 ≠ 0 then r
    else if (incTier2 r.2).m_curTier2 < requiredCluster then
      walkForward d bufferMetadata requiredCluster fuel (incTier2 r.2)
    else (0, incTier2 r.2)

/-- The `while (requiredCluster--)` loop of `load_sector_from_offset` (lines 410-415). -/
def walkFromStart (d : Driver) (bufferMetadata : MetaRef) : Nat → State → Nat × State
  | 0, s => (0, s)
  | requiredCluster + 1, s =>
    let r := nextCluster d bufferMetadata (incTier2 s)
    if r.1 ≠ 0 then r else walkFromStart d bufferMetadata requiredCluster r.2

/-- Lines 407-409 of `load_sector_from_offset`: `m_curTier2 = 0;`
`bufferMetadata->curTier2 = firstTier2;` and the lookup of its successor. -/
def rewind (d : Driver) (bufferMetadata : MetaRef) (s : State) : Nat × State :=
  get_fat_value d bufferMetadata
    (setMeta (resetTier2 s) bufferMetadata
      { getMeta (resetTier2 s) bufferMetadata with curTier2 := (resetTier2 s).firstTier2 })

/-- The cluster search of `load_sector_from_offset` (lines 392-417). -/
def seekCluster (d : Driver) (requiredCluster : Nat) (bufferMetadata : MetaRef) (s : State) :
    Nat × State :=
  if s.m_curTier2 < requiredCluster then
    let r := walkForward d bufferMetadata requiredCluster (requiredCluster - s.m_curTier2) s
    if r.1 ≠ 0 then r
    else
      (0, setMeta r.2 bufferMetadata
        { getMeta r.2 bufferMetadata with
          curTier2Addr := d.compute_tier1_from_tier2 (getMeta r.2 bufferMetadata).curTier2 })
  else if s.m_curTier2 > requiredCluster then
    let r := rewind d bufferMetadata s
    if r.1 ≠ 0 then r
    else
      let r2 := walkFromStart d bufferMetadata requiredCluster r.2
      if r2.1 ≠ 0 then r2
      else
        (0, setMeta r2.2 bufferMetadata
          { getMeta r2.2 bufferMetadata with
            curTier2Addr := d.compute_tier1_from_tier2 (getMeta r2.2 bufferMetadata).curTier2 })
  else (0, s)

/-- The assignment `this->m_curTier1 = v`. -/
def setTier1 (s : State) (v : Nat) : State := { s with m_curTier1 := v }

/-- Lines 419-424 of `load_sector_from_offset`: the sector offset within the cluster (cast to
`uint8_t`), the sector number, and the read of `curTier2Addr + curTier1Offset`. -/
def readRequired (d : Driver) (requiredSector sectorsPerCluster : Nat) (bufferMetadata : MetaRef)
    (s : State) : Nat × State :=
  let s3 := setMeta s bufferMetadata
    { getMeta s bufferMetadata with
      curTier1Offset := (requiredSector % (1 <<< sectorsPerCluster)) % 2 ^ 8 }
  let s4 := setTier1 s3 requiredSector
  read_data_block d
    (add32 (getMeta s4 bufferMetadata).curTier2Addr (getMeta s4 bufferMetadata).curTier1Offset) s4

/-- `load_sector_from_offset(requiredSector, bufferMetadata)` (fatfile.h lines 384-427). -/
def load_sector_from_offset (d : Driver) (requiredSector : Nat) (bufferMetadata : MetaRef)
    (s : State) : Nat × State :=
  let sectorsPerCluster := s.m_tier1sPerTier2Shift
  let requiredCluster := requiredSector >>> sectorsPerCluster
  let r := flush d s
  if r.1 ≠ 0 then r
  else
    let r2 := seekCluster d requiredCluster bufferMetadata r.2
    if r2.1 ≠ 0 then r2
    else
      let r3 := readRequired d requiredSector sectorsPerCluster bufferMetadata r2.2
      if r3.1 ≠ 0 then r3 else (0, r3.2)

/-- Line 349: `requiredSector = (uint32_t) m_ptr >> m_driver->get_sector_size_shift()`. -/
def requiredSectorOf (d : Driver) (s : State) : Nat := (s.m_ptr % 2 ^ 32) >>> d.sectorSizeShift

/-- `load_sector_under_ptr()` (fatfile.h lines 345-371). -/
def load_sector_under_ptr (d : Driver) (s : State) : Nat × State :=
  let requiredSector := requiredSectorOf d s
  let r :=
    if s.bufMeta ≠ MetaRef.contentMeta then
      let f := flush d s
      if f.1 ≠ 0 then (f.1, f.2, false)
      else (0, rebind f.2 MetaRef.contentMeta, true)
    else (0, s, false)
  if r.1 ≠ 0 then (r.1, r.2.1)
  else
    let r2 :=
      if requiredSector ≠ r.2.1.m_curTier1 then
        let l := load_sector_from_offset d requiredSector r.2.1.bufMeta r.2.1
        (l.1, l.2, false)
      else (0, r.2.1, r.2.2)
    if r2.1 ≠ 0 then (r2.1, r2.2.1)
    else if r2.2.2 then
      let r3 := reload_buffer d r2.2.1
      if r3.1 ≠ 0 then r3 else (NO_ERROR, r3.2)
    else (NO_ERROR, r2.2.1)

/-- `load_directory_sector()` (fatfile.h lines 429-437). The status of its `flush` is not
looked at. -/
def load_directory_sector (d : Driver) (s : State) : Nat × State :=
  if s.bufMeta ≠ MetaRef.dirEntryMeta then
    let s1 := rebind (flush d s).2 MetaRef.dirEntryMeta
    let r := reload_buffer d s1
    if r.1 ≠ 0 then r else (NO_ERROR, r.2)
  else (NO_ERROR, s)

/-! ### Vocabulary for statements about the file layer -/

/-- The directory entries in the order `find` visits them: the status, entry offset and state
after `k` advances from the entry at `off`. A failed advance ends the sequence: its status,
offset and state are kept from then on. -/
def scanPos (d : Driver) : Nat → Nat → State → Nat × Nat × State
  | 0, off, s => (0, off, s)
  | k + 1, off, s =>
    let n := scanNext d off s
    if n.1 ≠ 0 then n else scanPos d k n.2.1 n.2.2

/-- The entry at offset `off` of the buffer is one `find` passes over when looking for
`filename`: its first byte is not zero, and it is deleted or carries another name. -/
def PassedOver (filename : List Nat) (s : State) (off : Nat) : Prop :=
  u8 s.buf off ≠ 0 ∧ (file_deleted s off = true ∨ strcmp_eq filename (get_filename s.buf off) = false)

/-- The number of data-sector reads (`read_data_block` or `reload_buffer`) in a history. -/
def dataReads : List Event → Nat
  | [] => 0
  | Event.read_data_block _ :: l => dataReads l + 1
  | Event.reload_buffer _ _ :: l => dataReads l + 1
  | _ :: l => dataReads l

/-- The `k`-th FAT successor of the file's first cluster. -/
def chain (d : Driver) (s : State) (k : Nat) : Nat := (d.fat)^[k] s.firstTier2

/-- The metadata record `r` describes cluster number `s.m_curTier2` of the file: its cluster
is that cluster of the chain, with the FAT successor pre-fetched and the base address
computed. -/
def Consistent (d : Driver) (s : State) (r : MetaRef) : Prop :=
  (getMeta s r).curTier2 = chain d s s.m_curTier2 ∧
  (getMeta s r).nextTier2 = d.fat (getMeta s r).curTier2 ∧
  (getMeta s r).curTier2Addr = d.compute_tier1_from_tier2 (getMeta s r).curTier2

/-- What one round of the name loop of `get_filename` appends for the byte `b`. -/
def keptNameByte (b : Nat) : Option Nat :=
  if 0x05 = b then some 0xe5 else if 0x20 ≠ b then some b else none

/-- What one round of the extension loop of `get_filename` appends for the byte `b`. -/
def keptExtByte (b : Nat) : Option Nat := if 0x20 ≠ b then some b else none

/-- The bytes `buf[off + start .. off + start + len - 1]`. -/
def field (buf : Bytes) (off start len : Nat) : List Nat :=
  (List.range' start len).map (fun i => u8 buf (off + i))

/-- A field with only its trailing pad spaces removed, as the specification words the trimming
of the 8-byte name field. -/
def trailingTrimmed (l : List Nat) : List Nat :=
  (l.reverse.dropWhile (fun b => b = 0x20)).reverse

/-- Every driver call made after the history `t` returns status zero. -/
def Succeeds (d : Driver) (t : List Event) : Prop := ∀ h, d.status (t ++ h) = 0

/-- What a cluster walk leaves alone: the buffer and its binding, the file position, the first
cluster, the current sector number and the cluster shift; and it adds no data-sector read to
the history. -/
def Walked (s s' : State) : Prop :=
  s'.bufMeta = s.bufMeta ∧ s'.m_ptr = s.m_ptr ∧ s'.firstTier2 = s.firstTier2 ∧
  s'.m_curTier1 = s.m_curTier1 ∧ s'.m_tier1sPerTier2Shift = s.m_tier1sPerTier2Shift ∧
  s'.buf = s.buf ∧ ∃ l, s'.trace = s.trace ++ l ∧ dataReads l = 0

/-- The FAT lookups of a walk of `n` clusters onward from cluster number `k` of the chain. -/
def lookups (d : Driver) (s : State) : Nat → Nat → List Event
  | _, 0 => []
  | k, n + 1 => Event.get_fat_value (chain d s (k + 1)) :: lookups d s (k + 1) n

/-- The FAT lookups `load_sector_from_offset` makes to get from cluster number `s.m_curTier2`
to cluster number `requiredCluster`. -/
def seekLookups (d : Driver) (s : State) (requiredCluster : Nat) : List Event :=
  if s.m_curTier2 < requiredCluster then
    lookups d s s.m_curTier2 (requiredCluster - s.m_curTier2)
  else if s.m_curTier2 > requiredCluster then
    Event.get_fat_value s.firstTier2 :: lookups d s 0 requiredCluster
  else []

/-- The number of FAT lookups (`get_fat_value`) in a history. -/
def fatLookups : List Event → Nat
  | [] => 0
  | Event.get_fat_value _ :: l => fatLookups l + 1
  | _ :: l => fatLookups l

/-! ### Concrete inputs -/

/-- A driver on which every call succeeds and every read delivers the sector `sector`; cluster
`c` is followed by cluster `c + 1` and starts at sector `100 + 8 * c`. -/
def demoDriver (sector : Bytes) : Driver :=
  { status := fun _ => 0
    sector := fun _ => sector
    fat := fun c => c + 1
    compute_tier1_from_tier2 := fun c => 100 + 8 * c
    is_eoc := fun c => decide (0xFFF8 ≤ c)
    sectorSize := 512
    sectorSizeShift := 9
    EOC_END := 200
    READING_PAST_EOC := 201 }

/-- An open file on a FAT32 volume with 8 sectors per cluster: first cluster 2, positioned on
the first sector of its first cluster, the buffer bound to the directory metadata. -/
def demoState : State :=
  { m_filesystem := Variant.FAT_32
    m_rootAddr := 0
    m_rootDirSectors := 0
    m_tier1sPerTier2Shift := 3
    m_dir_firstCluster := 2
    m_dirMeta := ⟨2, 3, 116, 0⟩
    buf := fun _ => 0
    bufMeta := MetaRef.dirMeta
    m_contentMeta := ⟨2, 3, 116, 0⟩
    m_dirEntryMeta := ⟨2, 3, 116, 0⟩
    foreignMeta := fun _ => ⟨2, 3, 116, 0⟩
    m_fsBufMeta := MetaRef.dirMeta
    firstTier2 := 2
    m_curTier1 := 0
    m_curTier2 := 0
    m_dirTier1Addr := 0
    fileEntryOffset := 0
    m_length := 0
    m_ptr := 0
    trace := [] }

/-- The state `demoState` with the buffer bound to the content metadata, on the last sector of
the first cluster. -/
def demoStateLast : State :=
  { demoState with bufMeta := MetaRef.contentMeta, m_contentMeta := ⟨2, 3, 116, 7⟩ }

/-- The state `demoState` with the file position at byte 10000, in sector 19 of the file. -/
def demoStateSeek : State := { demoState with m_ptr := 10000 }

/-- The state `demoState` positioned on sector 19 of the file, in its third cluster (cluster
number 2 of the chain, cluster 4 of the volume), the buffer bound to the content metadata. -/
def demoStateMid : State :=
  { demoState with
    bufMeta := MetaRef.contentMeta, m_contentMeta := ⟨4, 5, 132, 3⟩, m_curTier1 := 19
    m_curTier2 := 2 }

/-- The bytes of `l` from index zero on, and zero after them. -/
def bytesOf (l : List Nat) : Bytes := fun i => l.getD i 0

/-- The raw entry "FILE    TXT". -/
def demoEntry : Bytes :=
  bytesOf [0x46, 0x49, 0x4C, 0x45, 0x20, 0x20, 0x20, 0x20, 0x54, 0x58, 0x54]

/-- The state `demoState` with an entry in the buffer whose attribute byte is 0x10. -/
def demoStateSubdir : State :=
  { demoState with buf := bytesOf [0x44, 0x49, 0x52, 0x20, 0x20, 0x20, 0x20, 0x20, 0x20, 0x20,
      0x20, 0x10] }

/-- A directory sector: the deleted entry E5 "ILE    TXT", the entry "OTHER   BIN", then the
end-of-directory entry. -/
def demoDir : Bytes := fun i =>
  if i < 32 then
    [0xE5, 0x49, 0x4C, 0x45, 0x20, 0x20, 0x20, 0x20, 0x54, 0x58, 0x54].getD i 0
  else if i < 64 then
    [0x4F, 0x54, 0x48, 0x45, 0x52, 0x20, 0x20, 0x20, 0x42, 0x49, 0x4E].getD (i - 32) 0
  else 0

/-- The name that the deleted entry of `demoDir` reconstructs to. -/
def demoName : List Nat := [0xE5, 0x49, 0x4C, 0x45, 0x2E, 0x54, 0x58, 0x54]

/-- The name "FILE.TXT". -/
def demoFile : List Nat := [0x46, 0x49, 0x4C, 0x45, 0x2E, 0x54, 0x58, 0x54]

/-- The raw entry "A B        ": a name field with a space between two letters and a blank
extension field. -/
def spacedEntry : Bytes :=
  bytesOf [0x41, 0x20, 0x42, 0x20, 0x20, 0x20, 0x20, 0x20, 0x20, 0x20, 0x20]

/-- The raw entry whose name field starts with 0x05: 0x05 "ILE    TXT". -/
def kanjiEntry : Bytes :=
  bytesOf [0x05, 0x49, 0x4C, 0x45, 0x20, 0x20, 0x20, 0x20, 0x54, 0x58, 0x54]

/-- The state `demoState` with the entry "FILE    TXT" of a file at offset 0 of the buffer:
attribute byte 0x20, high cluster word 0x0001 at 0x14, low cluster word 0x0002 at 0x1A and
length 1000 (0x000003E8) at 0x1C. -/
def demoStateEntry : State :=
  { demoState with buf := bytesOf [0x46, 0x49, 0x4C, 0x45, 0x20, 0x20, 0x20, 0x20, 0x54, 0x58,
      0x54, 0x20, 0, 0, 0, 0, 0, 0, 0, 0, 0x01, 0x00, 0, 0, 0, 0, 0x02, 0x00, 0xE8, 0x03, 0, 0] }

/-- The state `demoState` after a walk off the end of the directory's chain: the cluster of the
buffer's metadata is the end-of-chain marker 0xFFFF. -/
def demoStateEnd : State := { demoState with m_dirMeta := ⟨0xFFFF, 3, 116, 0⟩ }

/-- A directory sector filled with sixteen entries "OTHER   BIN". -/
def fullDir : Bytes := fun i =>
  if i < 512 then
    [0x4F, 0x54, 0x48, 0x45, 0x52, 0x20, 0x20, 0x20, 0x42, 0x49, 0x4E].getD (i % 32) 0
  else 0

/-- A driver on which every call succeeds and every read delivers the sector `sector`, on a
volume where every cluster is the last of its chain: its FAT entry is the end-of-chain marker
0x0FFFFFFF. -/
def endDriver (sector : Bytes) : Driver :=
  { status := fun _ => 0
    sector := fun _ => sector
    fat := fun _ => 0x0FFFFFFF
    compute_tier1_from_tier2 := fun c => 100 + 8 * c
    is_eoc := fun c => decide (0x0FFFFFF8 ≤ c)
    sectorSize := 512
    sectorSizeShift := 9
    EOC_END := 200
    READING_PAST_EOC := 201 }

/-- The state `demoState` on a volume with one sector per cluster, the buffer bound to the
content metadata. -/
def demoStateOne : State :=
  { demoState with m_tier1sPerTier2Shift := 0, bufMeta := MetaRef.contentMeta }

/-- The driver `demoDriver sector` with a failing `flush`: every `flush` returns the status 7,
every other call succeeds. -/
def flushFailsDriver (sector : Bytes) : Driver :=
  { demoDriver sector with
    status := fun h =>
      match h.getLast? with
      | some (Event.flush _ _) => 7
      | _ => 0 }

/-- The state `demoState` on the last sector of a directory cluster that is the last of its
chain: the pre-fetched successor is the end-of-chain marker 0x0FFFFFFF. -/
def demoStateTail : State := { demoState with m_dirMeta := ⟨2, 0x0FFFFFFF, 116, 7⟩ }

/-- The sector `compute_tier1_from_tier2` of the demo drivers gives for the end-of-chain marker
0x0FFFFFFF. -/
def straySector : Nat := 100 + 8 * 0x0FFFFFFF

/-- The driver `endDriver fullDir` on a device whose sector `straySector` holds the entry
"FILE    TXT": a read of that sector delivers it, every other read delivers `fullDir`. -/
def strayDriver : Driver :=
  { endDriver fullDir with
    sector := fun h =>
      match h.getLast? with
      | some (Event.read_data_block a) => if a = straySector then demoEntry else fullDir
      | _ => fullDir }

/-- A FAT16 volume whose root directory starts at sector 161 and has 32 sectors, the buffer
bound to the directory metadata, on the sector at offset `offset` of the root directory. -/
def rootState (offset : Nat) : State :=
  { demoState with
    m_filesystem := Variant.FAT_16, m_rootAddr := 161, m_rootDirSectors := 32
    m_dirMeta := ⟨0, 0, 161, offset⟩ }

/-- A driver on which every call succeeds, over a device with the sector contents `disk`:
`read_data_block` delivers the sector it is given, `reload_buffer` the sector
`curTier2Addr + curTier1Offset` of the buffer's metadata. Cluster `c` starts at sector
`161 + 32 * c`, so that cluster 0 is a directory at sector 161, and is followed by cluster
`c + 1`. -/
def diskDriver (disk : Nat → Bytes) : Driver :=
  { status := fun _ => 0
    sector := fun h =>
      match h.getLast? with
      | some (Event.read_data_block a) => disk a
      | some (Event.reload_buffer _ m) => disk (m.curTier2Addr + m.curTier1Offset)
      | _ => fun _ => 0
    fat := fun c => c + 1
    compute_tier1_from_tier2 := fun c => 161 + 32 * c
    is_eoc := fun c => decide (0xFFF8 ≤ c)
    sectorSize := 512
    sectorSizeShift := 9
    EOC_END := 200
    READING_PAST_EOC := 201 }

/-- A device whose sector 161 is filled with sixteen entries "OTHER   BIN", whose sector 1
starts with the entry "FILE    TXT", and whose other sectors, sector 162 among them, are
zero. -/
def rootDisk (a : Nat) : Bytes :=
  if a = 161 then fullDir else if a = 1 then demoEntry else fun _ => 0

/-- A FAT16 volume whose root directory, the 32 sectors from sector 161 on, is the directory
of the file system object (first cluster 0), with the buffer bound to the content metadata. -/
def rootDirState : State :=
  { rootState 0 with
    m_dir_firstCluster := 0, m_tier1sPerTier2Shift := 5, bufMeta := MetaRef.contentMeta }

/-- The state `rootDirState` on a FAT32 volume: the directory at sector 161 is a cluster of 32
sectors. -/
def clusterDirState : State := { rootDirState with m_filesystem := Variant.FAT_32 }

end FatFile

/-! ## PropWare/gpio/pin.h -/

namespace Pin

/-- `Pin::set_pin_num(pinNum)` (pin.h lines 87-92): the value it leaves in `m_mask`. The
argument is a `uint8_t`. `NULL_PIN` is an enumerator of `Port::Mask`, whose declaration is not
among the sources, and is a parameter. -/
def set_pin_num (NULL_PIN : Nat) (pinNum : Nat) : Nat :=
  if 31 ≤ pinNum % 2 ^ 8 then NULL_PIN else (1 <<< (pinNum % 2 ^ 8)) % 2 ^ 32

end Pin

/-! # Properties

## sd.c -/

namespace SD

theorem advance_advance (p : Port) (i k i' k' : Nat) :
    advance (advance p i k) i' k' = advance p (i + i') (k + k') := by
  simp [advance, Nat.add_assoc]

theorem advance_nIn (p : Port) (i k : Nat) : (advance p i k).nIn = p.nIn + i := rfl

theorem advance_nCnt (p : Port) (i k : Nat) : (advance p i k).nCnt = p.nCnt + k := rfl

theorem timedOut_no (w : Wire) (strict : Bool) (T : Nat) (q : Port)
    (ht : ∀ j, q.nCnt ≤ j → j < q.nCnt + (if strict then 2 else 1) →
        SD_WIGGLE_ROOM ≤ sub32 T (w.cnt j % 2 ^ 32)) :
    timedOut w strict T q = (false, advance q 0 (if strict then 2 else 1)) := by
  cases strict
  · have t0 := ht q.nCnt (by omega) (by simp)
    have t0' : ¬ sub32 T (w.cnt q.nCnt % 2 ^ 32) < SD_WIGGLE_ROOM := Nat.not_lt.mpr t0
    simp only [timedOut, readCNT, advance, t0']
    simp
  · have t0 := ht q.nCnt (by omega) (by simp)
    have t1 := ht (q.nCnt + 1) (by omega) (by simp)
    have t1' : ¬ sub32 T (w.cnt (q.nCnt + 1) % 2 ^ 32) < SD_WIGGLE_ROOM := Nat.not_lt.mpr t1
    have t0' : 0 < sub32 T (w.cnt q.nCnt % 2 ^ 32) := by
      unfold SD_WIGGLE_ROOM at t0; omega
    simp only [timedOut, readCNT, advance, t0', t1']
    simp

theorem pollLoop_step (c : Codes) (w : Wire) (strict : Bool) (store : Nat → Port → Port)
    (T b fuel : Nat) (p : Port)
    (hcnt : ∀ b q, (store b q).nCnt = q.nCnt)
    (hb : b < 256) (hin : w.shiftIn p.nIn = (0, b))
    (ht : ∀ j, p.nCnt ≤ j → j < p.nCnt + (if strict then 2 else 1) →
        SD_WIGGLE_ROOM ≤ sub32 T (w.cnt j % 2 ^ 32)) :
    pollLoop c w strict store T (fuel + 1) p =
      if 0xff = b then
        pollLoop c w strict store T fuel
          (advance (store b (advance p 1 0)) 0 (if strict then 2 else 1))
      else some (.ok b, advance (store b (advance p 1 0)) 0 (if strict then 2 else 1)) := by
  have e : (SPIShiftIn w p) = (0, b, advance p 1 0) := by
    simp [SPIShiftIn, hin, Nat.mod_eq_of_lt hb, advance]
  rw [pollLoop]
  simp only [e]
  rw [timedOut_no w strict T _ (by simpa [hcnt, advance] using ht)]
  simp

theorem pollLoop_skip (c : Codes) (w : Wire) (strict : Bool) (store : Nat → Port → Port)
    (T x : Nat)
    (hcnt : ∀ b q, (store b q).nCnt = q.nCnt) (hnin : ∀ b q, (store b q).nIn = q.nIn)
    (hadv : ∀ b q i k, advance (store b q) i k = store b (advance q i k))
    (hidem : ∀ b b' q, store b (store b' q) = store b q)
    (hx : x < 256) (hx' : x ≠ 0xff) :
    ∀ (a fuel : Nat) (p : Port), a < fuel →
      Delivers w p.nIn (List.replicate a 0xff ++ [x]) →
      (∀ j, p.nCnt ≤ j → j < p.nCnt + (if strict then 2 else 1) * (a + 1) →
        SD_WIGGLE_ROOM ≤ sub32 T (w.cnt j % 2 ^ 32)) →
      pollLoop c w strict store T fuel p
        = some (.ok x, store x (advance p (a + 1) ((if strict then 2 else 1) * (a + 1)))) := by
  intro a
  induction a with
  | zero =>
    intro fuel p hf hd ht
    obtain ⟨fuel, rfl⟩ : ∃ f, fuel = f + 1 := ⟨fuel - 1, by omega⟩
    have h0 := hd 0 (by simp)
    simp at h0
    rw [pollLoop_step c w strict store T x fuel p hcnt hx h0 (by simpa using ht)]
    simp [hx'.symm, hadv, advance_advance]
  | succ a ih =>
    intro fuel p hf hd ht
    obtain ⟨fuel, rfl⟩ : ∃ f, fuel = f + 1 := ⟨fuel - 1, by omega⟩
    have h0 := hd 0 (by simp)
    simp [List.replicate_succ] at h0
    have hk : 0 < (if strict then 2 else 1) := by cases strict <;> simp
    rw [pollLoop_step c w strict store T 0xff fuel p hcnt (by norm_num) h0
      (fun j h1 h2 => ht j h1 (by
        have : (if strict then 2 else 1) * (a + 1 + 1)
            = (if strict then 2 else 1) * (a + 1) + (if strict then 2 else 1) := by ring
        omega))]
    simp only [if_true]
    rw [ih fuel _ (by omega)]
    · simp only [hadv, hidem, advance_advance]
      congr 4
      · omega
      · ring
    · intro k hk
      have := hd (k + 1) (by simp at hk ⊢; omega)
      simp only [hadv, hnin, advance_nIn, advance_advance]
      rw [show p.nIn + (1 + 0) + k = p.nIn + (k + 1) by omega, this]
      simp [List.replicate_succ]
    · intro j h1 h2
      simp only [hadv, hcnt, advance_nCnt, advance_advance] at h1 h2
      apply ht j (by omega)
      have : (if strict then 2 else 1) * (a + 1 + 1)
            = (if strict then 2 else 1) * (a + 1) + (if strict then 2 else 1) := by ring
      omega

theorem startTimeout_eq (w : Wire) (p : Port) :
    startTimeout w p = (deadline w p.nCnt, advance p 0 1) := rfl

theorem dat0_cnt (b : Nat) (q : Port) : (storeDat0 b q).nCnt = q.nCnt := rfl
theorem dat0_nIn (b : Nat) (q : Port) : (storeDat0 b q).nIn = q.nIn := rfl
theorem dat0_adv (b : Nat) (q : Port) (i k : Nat) :
    advance (storeDat0 b q) i k = storeDat0 b (advance q i k) := rfl
theorem dat0_idem (b b' : Nat) (q : Port) : storeDat0 b (storeDat0 b' q) = storeDat0 b q := by
  simp [storeDat0]
theorem sum_cnt (b : Nat) (q : Port) : (storeChecksum b q).nCnt = q.nCnt := rfl
theorem sum_nIn (b : Nat) (q : Port) : (storeChecksum b q).nIn = q.nIn := rfl
theorem sum_adv (b : Nat) (q : Port) (i k : Nat) :
    advance (storeChecksum b q) i k = storeChecksum b (advance q i k) := rfl
theorem sum_idem (b b' : Nat) (q : Port) :
    storeChecksum b (storeChecksum b' q) = storeChecksum b q := rfl

/-- C1: when every block read succeeds and the sectors-per-cluster byte of the boot sector is
non-zero, `SDMount` returns `SD_INVALID_FILESYSTEM` for a cluster count below 4085, returns 0
with `g_filesystem = SD_FAT_16` for a cluster count from 4085 up to 65524, and returns 0 with
`g_filesystem = SD_FAT_32` for a cluster count of 65525 or more. -/
theorem SDMount_classifies (c : Codes) (rd : BlockReads) (g : Globals)
    (hrd : ∀ k a, (rd k a).1 = 0)
    (hspc : u8 (bootBuffer rd) SD_CLUSTER_SIZE_ADDR ≠ 0) :
    (clusterCount rd < 4085 → ∃ g', SDMount c rd g = some (c.SD_INVALID_FILESYSTEM, g')) ∧
    (4085 ≤ clusterCount rd → clusterCount rd < 65525 →
        ∃ g', SDMount c rd g = some (0, g') ∧ g'.g_filesystem = SD_FAT_16) ∧
    (65525 ≤ clusterCount rd →
        ∃ g', SDMount c rd g = some (0, g') ∧ g'.g_filesystem = SD_FAT_32) := by
  have hparse : ∃ k bs, SDMount c rd g = SDMount_parse c rd k bs (bootBuffer rd) g := by
    unfold SDMount SDMount_boot bootBuffer
    by_cases hsig : SD_BOOT_SECTOR_ID ≠ u8 (rd 0 0).2 SD_BOOT_SECTOR_ID_ADDR
    · exact ⟨2, SDConvertDat32 (rd 0 0).2 SD_BOOT_SECTOR_BACKUP, by simp [hrd, hsig]⟩
    · exact ⟨1, 0, by simp [hrd, hsig]⟩
  obtain ⟨k, bs, hk⟩ := hparse
  have hspc' : (bootFields (bootBuffer rd)).sectorsPerCluster ≠ 0 := hspc
  have hcc : clusterCountOf (bootFields (bootBuffer rd)) = some (clusterCount rd) := by
    unfold clusterCountOf clusterCount
    simp [hspc']
  rw [hk]
  unfold SDMount_parse
  simp only [hcc, hrd]
  refine ⟨?_, ?_, ?_⟩
  · intro h
    have a0 : SD_FAT12_CLSTR_CNT > clusterCount rd := h
    simp [a0]
  · intro h1 h2
    have a1 : ¬ SD_FAT12_CLSTR_CNT > clusterCount rd := by unfold SD_FAT12_CLSTR_CNT; omega
    have a2 : SD_FAT16_CLSTR_CNT > clusterCount rd := h2
    simp [a1, a2]
  · intro h1
    have a1 : ¬ SD_FAT12_CLSTR_CNT > clusterCount rd := by unfold SD_FAT12_CLSTR_CNT; omega
    have a2 : ¬ SD_FAT16_CLSTR_CNT > clusterCount rd := by unfold SD_FAT16_CLSTR_CNT; omega
    simp [a1, a2, SD_FAT_16, SD_FAT_32]

/-- The run of C1 on a boot sector with 5000 clusters: mounted as FAT16. -/
theorem SDMount_classifies_witness :
    clusterCount demoReads = 5000 ∧
      ∃ g', SDMount demoCodes demoReads demoGlobals = some (0, g') ∧ g'.g_filesystem = SD_FAT_16 :=
  ⟨by decide, (SDMount_classifies demoCodes demoReads demoGlobals (fun _ _ => rfl) (by decide)).2.1
    (by decide) (by decide)⟩

theorem frameBytes_8 (v : Nat) : frameBytes 8 v = [v % 256] := by
  simp [frameBytes, List.range_succ]

theorem frameBytes_16 (v : Nat) : frameBytes 16 v = [v / 256 % 256, v % 256] := by
  simp [frameBytes, List.range_succ, Nat.shiftRight_eq_div_pow]

theorem wireBytes_append (l₁ l₂ : List (Nat × Nat)) :
    wireBytes (l₁ ++ l₂) = wireBytes l₁ ++ wireBytes l₂ := by
  simp [wireBytes]

/-- C12: for every command byte `cmd`, argument `arg` and CRC byte `crc`, when the four
`SPIShiftOut` calls of `SDSendCommand` succeed it returns 0 and has put exactly the six bytes
`cmd`, `arg[31:24]`, `arg[23:16]`, `arg[15:8]`, `arg[7:0]`, `crc` on the wire, in that order; when
the call number `j` is the first to return a non-zero status, `SDSendCommand` returns that
status and that call is the last `SPIShiftOut` call it makes. -/
theorem SDSendCommand_frame (w : Wire) (cmd arg crc : Nat) (p : Port) :
    ((∀ k, k < 4 → w.shiftOut (p.nOut + k) % 256 = 0) →
      (SDSendCommand w cmd arg crc p).1 = 0 ∧
      (SDSendCommand w cmd arg crc p).2.nOut = p.nOut + 4 ∧
      wireBytes (SDSendCommand w cmd arg crc p).2.sent = wireBytes p.sent ++
        [cmd % 256, arg / 2 ^ 24 % 256, arg / 2 ^ 16 % 256, arg / 2 ^ 8 % 256, arg % 256,
          crc % 256]) ∧
    (∀ j, j < 4 → (∀ k, k < j → w.shiftOut (p.nOut + k) % 256 = 0) →
        w.shiftOut (p.nOut + j) % 256 ≠ 0 →
      (SDSendCommand w cmd arg crc p).1 = w.shiftOut (p.nOut + j) % 256 ∧
      (SDSendCommand w cmd arg crc p).2.nOut = p.nOut + (j + 1) ∧
      (SDSendCommand w cmd arg crc p).2.sent = p.sent ++
        [(8, cmd), (16, arg >>> 16), (16, arg &&& WORD_0), (8, crc)].take (j + 1)) := by
  have hmask : arg &&& WORD_0 = arg % 2 ^ 16 := by
    have := Nat.and_pow_two_sub_one_eq_mod arg 16
    simpa [WORD_0] using this
  constructor
  · intro h
    have h0 := h 0 (by omega)
    have h1 := h 1 (by omega)
    have h2 := h 2 (by omega)
    have h3 := h 3 (by omega)
    simp only [Nat.add_zero] at h0
    simp only [SDSendCommand, SPIShiftOut, h0, h1, h2, h3, ne_eq, not_true_eq_false, if_false,
      Nat.add_assoc]
    refine ⟨trivial, by norm_num, ?_⟩
    simp only [wireBytes_append, List.append_assoc]
    simp only [wireBytes, List.flatMap_cons, List.flatMap_nil, frameBytes_8, frameBytes_16,
      hmask, Nat.shiftRight_eq_div_pow, List.append_nil, List.cons_append, List.nil_append,
      List.singleton_append]
    congr 1
    have e1 : arg / 2 ^ 16 / 256 = arg / 2 ^ 24 := by
      rw [Nat.div_div_eq_div_mul]; norm_num
    have e2 : arg % 2 ^ 16 / 256 % 256 = arg / 2 ^ 8 % 256 := by omega
    have e3 : arg % 2 ^ 16 % 256 = arg % 256 := by omega
    rw [e1, e2, e3]
  · intro j hj hk hjne
    have k0 : 0 < j → w.shiftOut p.nOut % 256 = 0 := fun h => by simpa using hk 0 h
    have k1 : 1 < j → w.shiftOut (p.nOut + 1) % 256 = 0 := fun h => hk 1 h
    have k2 : 2 < j → w.shiftOut (p.nOut + 2) % 256 = 0 := fun h => hk 2 h
    interval_cases j
    · simp only [Nat.add_zero] at hjne
      simp [SDSendCommand, SPIShiftOut, hjne]
    · have a0 := k0 (by omega)
      simp [SDSendCommand, SPIShiftOut, hjne, a0]
    · have a0 := k0 (by omega)
      have a1 := k1 (by omega)
      simp [SDSendCommand, SPIShiftOut, hjne, a0, a1, Nat.add_assoc]
    · have a0 := k0 (by omega)
      have a1 := k1 (by omega)
      have a2 := k2 (by omega)
      simp [SDSendCommand, SPIShiftOut, hjne, a0, a1, a2, Nat.add_assoc]

/-- The run of C12 on command 0x51 with argument 0x12345678: the frame on a transport without
errors, and the return after the third call on a transport on which that call fails. -/
theorem SDSendCommand_frame_witness :
    wireBytes (SDSendCommand (demoWire []) 0x51 0x12345678 0xff demoPort).2.sent =
        [0x51, 0x12, 0x34, 0x56, 0x78, 0xff] ∧
      (SDSendCommand failingWire 0x51 0x12345678 0xff demoPort).1 = 5 ∧
      (SDSendCommand failingWire 0x51 0x12345678 0xff demoPort).2.nOut = 3 :=
  ⟨by simpa [wireBytes, demoPort] using
      ((SDSendCommand_frame (demoWire []) 0x51 0x12345678 0xff demoPort).1
        (fun _ _ => rfl)).2.2,
    ((SDSendCommand_frame failingWire 0x51 0x12345678 0xff demoPort).2 2 (by decide)
      (by decide) (by decide)).1,
    ((SDSendCommand_frame failingWire 0x51 0x12345678 0xff demoPort).2 2 (by decide)
      (by decide) (by decide)).2.1⟩

theorem SDConvertDat16_le (buf : Bytes) (off : Nat) :
    SDConvertDat16 buf off = u8 buf off + 256 * u8 buf (off + 1) := by
  have h0 : u8 buf off < 256 := Nat.mod_lt _ (by norm_num)
  have h1 : u8 buf (off + 1) < 256 := Nat.mod_lt _ (by norm_num)
  simp only [SDConvertDat16, Nat.shiftLeft_eq]
  omega

theorem SDConvertDat32_le (buf : Bytes) (off : Nat) :
    SDConvertDat32 buf off =
      u8 buf off + 256 * u8 buf (off + 1) + 65536 * u8 buf (off + 2)
        + 16777216 * u8 buf (off + 3) := by
  have h0 : u8 buf off < 256 := Nat.mod_lt _ (by norm_num)
  have h1 : u8 buf (off + 1) < 256 := Nat.mod_lt _ (by norm_num)
  have h2 : u8 buf (off + 2) < 256 := Nat.mod_lt _ (by norm_num)
  have h3 : u8 buf (off + 3) < 256 := Nat.mod_lt _ (by norm_num)
  simp only [SDConvertDat32, Nat.shiftLeft_eq]
  omega

theorem status_zero {α : Type} (a : Nat) (G g' : α)
    (h : (if a ≠ 0 then some (a, G) else some (0, G)) = some (0, g')) : G = g' := by
  split at h
  · simp only [Option.some.injEq, Prod.mk.injEq] at h
    exact absurd h.1 ‹_›
  · simpa using h

/-- What a successful run of the layout computation leaves in the globals. -/
theorem SDMount_parse_success (c : Codes) (rd : BlockReads) (k bs : Nat) (buf : Bytes)
    (g g' : Globals) (hne : c.SD_INVALID_FILESYSTEM ≠ 0)
    (h : SDMount_parse c rd k bs buf g = some (0, g')) :
    (bootFields buf).sectorsPerCluster ≠ 0 ∧
    SD_FAT12_CLSTR_CNT ≤ dataSectorsOf (bootFields buf) / (bootFields buf).sectorsPerCluster ∧
    g'.g_rootDirSectors = rootDirSectorsOf (bootFields buf) ∧
    g'.g_dataSectors = dataSectorsOf (bootFields buf) ∧
    g'.g_fatStart = add32 bs (bootFields buf).rsvdSectorCount ∧
    (dataSectorsOf (bootFields buf) / (bootFields buf).sectorsPerCluster < SD_FAT16_CLSTR_CNT →
      g'.g_filesystem = SD_FAT_16 ∧
      g'.g_rootAddr = add32 (mul32 (bootFields buf).FATSize (bootFields buf).numFATs)
        g'.g_fatStart ∧
      g'.g_firstData = add32 g'.g_rootAddr (bootFields buf).rootEntryCount) ∧
    (SD_FAT16_CLSTR_CNT ≤ dataSectorsOf (bootFields buf) / (bootFields buf).sectorsPerCluster →
      g'.g_filesystem = SD_FAT_32 ∧
      g'.g_rootAddr = add32 g'.g_fatStart (SDConvertDat32 buf SD_ROOT_CLUSTER_ADDR) ∧
      g'.g_firstData = g'.g_rootAddr) := by
  unfold SDMount_parse at h
  by_cases hspc : (bootFields buf).sectorsPerCluster = 0
  · simp [clusterCountOf, hspc] at h
  · simp only [clusterCountOf, hspc, if_false] at h
    by_cases h12 : SD_FAT12_CLSTR_CNT >
        dataSectorsOf (bootFields buf) / (bootFields buf).sectorsPerCluster
    · simp only [h12, if_true, Option.some.injEq, Prod.mk.injEq] at h
      exact absurd h.1 hne
    · simp only [h12, if_false] at h
      refine ⟨hspc, Nat.le_of_not_lt h12, ?_⟩
      by_cases h16 : SD_FAT16_CLSTR_CNT >
          dataSectorsOf (bootFields buf) / (bootFields buf).sectorsPerCluster
      · simp only [h16, if_true] at h
        have hG := status_zero _ _ _ h
        subst hG
        simp [SD_FAT_16, Nat.not_le.mpr h16]
      · simp only [h16, if_false] at h
        simp only [SD_FAT_16, SD_FAT_32, Nat.reduceEqDiff, if_false, if_true] at h
        have hG := status_zero _ _ _ h
        subst hG
        have : ¬ dataSectorsOf (bootFields buf) / (bootFields buf).sectorsPerCluster
            < SD_FAT16_CLSTR_CNT := h16
        simp [SD_FAT_32, this, Nat.le_of_not_lt h16]

/-- What a successful `SDMount` leaves in the globals. -/
theorem SDMount_success (c : Codes) (rd : BlockReads) (g g' : Globals)
    (hne : c.SD_INVALID_FILESYSTEM ≠ 0) (h : SDMount c rd g = some (0, g')) :
    (bootFields (bootBuffer rd)).sectorsPerCluster ≠ 0 ∧
    SD_FAT12_CLSTR_CNT ≤ clusterCount rd ∧
    g'.g_rootDirSectors = rootDirSectorsOf (bootFields (bootBuffer rd)) ∧
    g'.g_dataSectors = dataSectorsOf (bootFields (bootBuffer rd)) ∧
    g'.g_fatStart = add32 (bootIndex rd) (bootFields (bootBuffer rd)).rsvdSectorCount ∧
    (clusterCount rd < SD_FAT16_CLSTR_CNT →
      g'.g_filesystem = SD_FAT_16 ∧
      g'.g_rootAddr = add32 (mul32 (bootFields (bootBuffer rd)).FATSize
        (bootFields (bootBuffer rd)).numFATs) g'.g_fatStart ∧
      g'.g_firstData = add32 g'.g_rootAddr (bootFields (bootBuffer rd)).rootEntryCount) ∧
    (SD_FAT16_CLSTR_CNT ≤ clusterCount rd →
      g'.g_filesystem = SD_FAT_32 ∧
      g'.g_rootAddr = add32 g'.g_fatStart (SDConvertDat32 (bootBuffer rd) SD_ROOT_CLUSTER_ADDR) ∧
      g'.g_firstData = g'.g_rootAddr) := by
  have hp : SDMount_parse c rd (if SD_BOOT_SECTOR_ID ≠ u8 (rd 0 0).2 SD_BOOT_SECTOR_ID_ADDR
      then 2 else 1) (bootIndex rd) (bootBuffer rd) g = some (0, g') := by
    unfold SDMount SDMount_boot at h
    unfold bootIndex bootBuffer
    by_cases h0 : (rd 0 0).1 ≠ 0
    · rw [if_pos h0] at h
      simp only [Option.some.injEq, Prod.mk.injEq] at h
      exact absurd h.1 h0
    · rw [if_neg h0] at h
      by_cases hsig : SD_BOOT_SECTOR_ID ≠ u8 (rd 0 0).2 SD_BOOT_SECTOR_ID_ADDR
      · rw [if_pos hsig] at h
        rw [if_pos hsig, if_pos hsig, if_pos hsig]
        by_cases h1 : (rd 1 (SDConvertDat32 (rd 0 0).2 SD_BOOT_SECTOR_BACKUP)).1 ≠ 0
        · rw [if_pos h1] at h
          simp only [Option.some.injEq, Prod.mk.injEq] at h
          exact absurd h.1 h1
        · rw [if_neg h1] at h
          exact h
      · rw [if_neg hsig] at h
        rw [if_neg hsig, if_neg hsig, if_neg hsig]
        exact h
  exact SDMount_parse_success c rd _ _ _ g g' hne hp

theorem sub32_int (a b : Nat) : ((sub32 a b : Nat) : Int) = ((a : Int) - b) % 2 ^ 32 := by
  unfold sub32
  omega

theorem dataSectorsOf_int (f : BootFields) :
    ((dataSectorsOf f : Nat) : Int) =
      ((f.totalSectors : Int) - (f.rsvdSectorCount + f.numFATs * f.FATSize + f.rootEntryCount))
        % 2 ^ 32 := by
  have key : ∀ x : Nat, ((sub32 f.totalSectors
      (((f.rsvdSectorCount + x % 2 ^ 32) % 2 ^ 32 + f.rootEntryCount) % 2 ^ 32) : Nat) : Int) =
      ((f.totalSectors : Int) - (f.rsvdSectorCount + (x : Int) + f.rootEntryCount)) % 2 ^ 32 := by
    intro x
    rw [sub32_int]
    omega
  have h := key (f.numFATs * f.FATSize)
  rw [Nat.cast_mul] at h
  exact h

/-- C14: the FAT size `SDMount` uses is the 16-bit field when that is non-zero, but when it is
zero it is the single byte at offset 0x24, the low byte of the 32-bit field, not its value. On
`fat32Boot` the 32-bit field holds 2000 and `SDMount` computes with 208. -/
theorem bootFields_FATSize_one_byte :
    (∀ buf, (bootFields buf).FATSize =
      if SDConvertDat16 buf SD_FAT_SIZE_ADDR = 0 then SDConvertDat32 buf SD_FAT_SIZE_32_ADDR % 256
      else SDConvertDat16 buf SD_FAT_SIZE_ADDR) ∧
    SDConvertDat16 fat32Boot SD_FAT_SIZE_ADDR = 0 ∧
    SDConvertDat32 fat32Boot SD_FAT_SIZE_32_ADDR = 2000 ∧
    (bootFields fat32Boot).FATSize = 208 ∧
    ∃ g', SDMount demoCodes fat32Reads demoGlobals = some (0, g') ∧
      g'.g_dataSectors = 2000000 - (32 + 2 * 208) := by
  refine ⟨fun buf => ?_, by decide, by decide, by decide, ⟨_, rfl, by decide⟩⟩
  have h0 : u8 buf SD_FAT_SIZE_32_ADDR < 256 := Nat.mod_lt _ (by norm_num)
  rw [SDConvertDat32_le]
  simp only [bootFields]
  split
  · omega
  · rfl

/-- For a non-zero sectors-per-cluster byte, the cluster count `SDMount` classifies on is
`(total - (reserved + copies * FATSize + rootEntries)) mod 2^32`, divided with integer division
by the sectors-per-cluster byte, where `total` is the 16-bit field at 0x13 or, when that is
zero, the 32-bit field at 0x20, and `FATSize` is the value `bootFields` extracts: the 16-bit
field at 0x16 or, when that is zero, the single byte at 0x24. -/
theorem clusterCount_formula (rd : BlockReads)
    (hspc : u8 (bootBuffer rd) SD_CLUSTER_SIZE_ADDR ≠ 0) :
    clusterCountOf (bootFields (bootBuffer rd)) = some (clusterCount rd) ∧
    ∃ total reserved copies rootEntries : Nat,
      (total = if u8 (bootBuffer rd) 0x13 + 256 * u8 (bootBuffer rd) 0x14 = 0 then
          u8 (bootBuffer rd) 0x20 + 256 * u8 (bootBuffer rd) 0x21
            + 65536 * u8 (bootBuffer rd) 0x22 + 16777216 * u8 (bootBuffer rd) 0x23
        else u8 (bootBuffer rd) 0x13 + 256 * u8 (bootBuffer rd) 0x14) ∧
      reserved = u8 (bootBuffer rd) 0x0e + 256 * u8 (bootBuffer rd) 0x0f ∧
      copies = u8 (bootBuffer rd) 0x10 ∧
      rootEntries = u8 (bootBuffer rd) 0x11 + 256 * u8 (bootBuffer rd) 0x12 ∧
      (clusterCount rd : Int) =
        ((total : Int) -
            (reserved + copies * (bootFields (bootBuffer rd)).FATSize + rootEntries)) % 2 ^ 32
          / (u8 (bootBuffer rd) 0x0d : Nat) := by
  have hspc' : (bootFields (bootBuffer rd)).sectorsPerCluster ≠ 0 := hspc
  refine ⟨by unfold clusterCountOf clusterCount; simp [hspc'], _, _, _, _, rfl, rfl, rfl, rfl, ?_⟩
  have hd := dataSectorsOf_int (bootFields (bootBuffer rd))
  have ht : (bootFields (bootBuffer rd)).totalSectors =
      if u8 (bootBuffer rd) 0x13 + 256 * u8 (bootBuffer rd) 0x14 = 0 then
          u8 (bootBuffer rd) 0x20 + 256 * u8 (bootBuffer rd) 0x21
            + 65536 * u8 (bootBuffer rd) 0x22 + 16777216 * u8 (bootBuffer rd) 0x23
        else u8 (bootBuffer rd) 0x13 + 256 * u8 (bootBuffer rd) 0x14 := by
    simp only [bootFields, SDConvertDat16_le, SDConvertDat32_le, SD_TOT_SCTR_16_ADDR,
      SD_TOT_SCTR_32_ADDR]
  have hr : (bootFields (bootBuffer rd)).rsvdSectorCount =
      u8 (bootBuffer rd) 0x0e + 256 * u8 (bootBuffer rd) 0x0f := by
    simp only [bootFields, SDConvertDat16_le, SD_RSVD_SCTR_CNT_ADDR]
  have hn : (bootFields (bootBuffer rd)).numFATs = u8 (bootBuffer rd) 0x10 := rfl
  have he : (bootFields (bootBuffer rd)).rootEntryCount =
      u8 (bootBuffer rd) 0x11 + 256 * u8 (bootBuffer rd) 0x12 := by
    simp only [bootFields, SDConvertDat16_le, SD_ROOT_ENTRY_CNT_ADDR]
  rw [← ht, ← hr, ← hn, ← he, ← hd]
  unfold clusterCount
  rw [Int.natCast_div]
  rfl

/-- The cluster count of `fat16Boot`: 20000 - (1 + 2 * 80 + 512) = 19327 clusters. -/
theorem clusterCount_formula_witness :
    clusterCountOf (bootFields (bootBuffer fat16Reads)) = some (clusterCount fat16Reads) ∧
    clusterCount fat16Reads = 19327 :=
  ⟨(clusterCount_formula fat16Reads (by decide)).1, by decide⟩

/-- After a successful `SDMount`, `g_fatStart` is the boot-sector index plus the
reserved-sector count, and on FAT16 `g_rootAddr` is `g_fatStart` plus the number of FAT copies
times the value `bootFields` extracts as FAT size (the 16-bit field at 0x16 or, when that is
zero, the single byte at 0x24), both in 32-bit arithmetic. -/
theorem SDMount_fat_start (c : Codes) (rd : BlockReads) (g g' : Globals)
    (hne : c.SD_INVALID_FILESYSTEM ≠ 0) (h : SDMount c rd g = some (0, g')) :
    g'.g_fatStart = (bootIndex rd + (bootFields (bootBuffer rd)).rsvdSectorCount) % 2 ^ 32 ∧
    (g'.g_filesystem = SD_FAT_16 →
      g'.g_rootAddr = (g'.g_fatStart +
        (bootFields (bootBuffer rd)).numFATs * (bootFields (bootBuffer rd)).FATSize) % 2 ^ 32) := by
  obtain ⟨-, -, -, -, hf, h16, h32⟩ := SDMount_success c rd g g' hne h
  refine ⟨hf, fun hfs => ?_⟩
  by_cases hc : clusterCount rd < SD_FAT16_CLSTR_CNT
  · rw [(h16 hc).2.1]
    unfold add32 mul32
    rw [Nat.mul_comm]
    omega
  · rw [(h32 (Nat.le_of_not_lt hc)).1] at hfs
    exact absurd hfs (by decide)

/-- The mount of a partitioned FAT16 volume whose boot sector is sector 63. -/
theorem SDMount_fat_start_witness :
    ∃ g', SDMount demoCodes partitionReads demoGlobals = some (0, g') ∧
      g'.g_fatStart = 64 ∧ g'.g_rootAddr = 224 :=
  ⟨_, rfl,
    (SDMount_fat_start demoCodes partitionReads demoGlobals _ (by decide) rfl).1.trans
      (by decide),
    ((SDMount_fat_start demoCodes partitionReads demoGlobals _ (by decide) rfl).2
      (by decide)).trans (by decide)⟩

/-- C17: on the FAT16 volume `fat16Boot` with 512 root entries, a root directory of 32
sectors, `SDMount` succeeds with `g_rootAddr = 161` and sets `g_firstData` to
`g_rootAddr` plus the root-entry count, 673, not to `g_rootAddr + 32 = 193`. -/
theorem SDMount_firstData_fat16 :
    ∃ g', SDMount demoCodes fat16Reads demoGlobals = some (0, g') ∧
      g'.g_filesystem = SD_FAT_16 ∧ g'.g_rootAddr = 161 ∧ g'.g_rootDirSectors = 32 ∧
      (bootFields (bootBuffer fat16Reads)).rootEntryCount = 512 ∧
      g'.g_firstData = 161 + 512 :=
  ⟨_, rfl, by decide, by decide, by decide, by decide, by decide⟩

/-- C18: when the read of sector 0 succeeds and its byte 0 is 0xEB, `SDMount` computes the
layout from sector 0 with boot-sector index 0; otherwise it takes the index from the 32-bit
little-endian value at offset 0x1C6 of sector 0, reads that sector (returning the status of
that read when it fails), and computes the layout, the FAT start included, from the sector
read and that index. -/
theorem SDMount_boot_sector (c : Codes) (rd : BlockReads) (g : Globals)
    (h0 : (rd 0 0).1 = 0) (hne : c.SD_INVALID_FILESYSTEM ≠ 0) :
    (u8 (rd 0 0).2 0 = 0xeb →
      SDMount c rd g = SDMount_parse c rd 1 0 (rd 0 0).2 g ∧
      ∀ g', SDMount c rd g = some (0, g') →
        g'.g_dataSectors = dataSectorsOf (bootFields (rd 0 0).2) ∧
        g'.g_rootDirSectors = rootDirSectorsOf (bootFields (rd 0 0).2) ∧
        g'.g_fatStart = (0 + (bootFields (rd 0 0).2).rsvdSectorCount) % 2 ^ 32) ∧
    (u8 (rd 0 0).2 0 ≠ 0xeb →
      ∀ bs, bs = u8 (rd 0 0).2 0x1c6 + 256 * u8 (rd 0 0).2 0x1c7 + 65536 * u8 (rd 0 0).2 0x1c8
          + 16777216 * u8 (rd 0 0).2 0x1c9 →
        ((rd 1 bs).1 ≠ 0 → SDMount c rd g = some ((rd 1 bs).1, g)) ∧
        ((rd 1 bs).1 = 0 →
          SDMount c rd g = SDMount_parse c rd 2 bs (rd 1 bs).2 g ∧
          ∀ g', SDMount c rd g = some (0, g') →
            g'.g_dataSectors = dataSectorsOf (bootFields (rd 1 bs).2) ∧
            g'.g_rootDirSectors = rootDirSectorsOf (bootFields (rd 1 bs).2) ∧
            g'.g_fatStart = (bs + (bootFields (rd 1 bs).2).rsvdSectorCount) % 2 ^ 32)) := by
  have h0' : ¬ (rd 0 0).1 ≠ 0 := fun h => h h0
  constructor
  · intro hsig
    have hsig' : ¬ SD_BOOT_SECTOR_ID ≠ u8 (rd 0 0).2 SD_BOOT_SECTOR_ID_ADDR :=
      fun h => h hsig.symm
    have hp : SDMount c rd g = SDMount_parse c rd 1 0 (rd 0 0).2 g := by
      unfold SDMount SDMount_boot
      rw [if_neg h0', if_neg hsig']
    refine ⟨hp, fun g' hg => ?_⟩
    rw [hp] at hg
    obtain ⟨-, -, a, b, d, -, -⟩ := SDMount_parse_success c rd _ _ _ g g' hne hg
    exact ⟨b, a, d⟩
  · intro hsig bs hbs
    have hsig' : SD_BOOT_SECTOR_ID ≠ u8 (rd 0 0).2 SD_BOOT_SECTOR_ID_ADDR :=
      fun h => hsig h.symm
    have hbs' : bs = SDConvertDat32 (rd 0 0).2 SD_BOOT_SECTOR_BACKUP := by
      rw [hbs, SDConvertDat32_le]
      rfl
    subst hbs'
    constructor
    · intro h1
      unfold SDMount SDMount_boot
      rw [if_neg h0', if_pos hsig', if_pos h1]
    · intro h1
      have h1' : ¬ (rd 1 (SDConvertDat32 (rd 0 0).2 SD_BOOT_SECTOR_BACKUP)).1 ≠ 0 :=
        fun h => h h1
      have hp : SDMount c rd g = SDMount_parse c rd 2
          (SDConvertDat32 (rd 0 0).2 SD_BOOT_SECTOR_BACKUP)
          (rd 1 (SDConvertDat32 (rd 0 0).2 SD_BOOT_SECTOR_BACKUP)).2 g := by
        unfold SDMount SDMount_boot
        rw [if_neg h0', if_pos hsig', if_neg h1']
      refine ⟨hp, fun g' hg => ?_⟩
      rw [hp] at hg
      obtain ⟨-, -, a, b, d, -, -⟩ := SDMount_parse_success c rd _ _ _ g g' hne hg
      exact ⟨b, a, d⟩

/-- The run of C18 on a partition table that points to a boot sector in sector 63. -/
theorem SDMount_boot_sector_witness :
    u8 (partitionReads 0 0).2 0 ≠ 0xeb ∧
    ∃ g', SDMount demoCodes partitionReads demoGlobals = some (0, g') ∧
      g'.g_dataSectors = 19327 ∧ g'.g_fatStart = 64 :=
  ⟨by decide, _, rfl,
    ((((SDMount_boot_sector demoCodes partitionReads demoGlobals rfl (by decide)).2
      (by decide) 63 (by decide)).2 rfl).2 _ rfl).1.trans (by decide),
    ((((SDMount_boot_sector demoCodes partitionReads demoGlobals rfl (by decide)).2
      (by decide) 63 (by decide)).2 rfl).2 _ rfl).2.2.trans (by decide)⟩

theorem sub32_deadline (clk c0 c : Nat) (hclk : clk < 2 ^ 32) (h0 : c0 ≤ c)
    (h1 : c ≤ c0 + clk) :
    sub32 (add32 clk (c0 % 2 ^ 32)) (c % 2 ^ 32) = c0 + clk - c := by
  unfold sub32 add32
  omega

theorem slowWire_far (j : Nat) :
    SD_WIGGLE_ROOM ≤ sub32 (deadline slowWire 0) (slowWire.cnt j % 2 ^ 32) := by
  simp only [deadline, slowWire, SD_WIGGLE_ROOM, sub32, add32]
  omega

theorem pollLoop_slowWire (store : Nat → Port → Port) (hcnt : ∀ b q, (store b q).nCnt = q.nCnt) :
    ∀ (fuel : Nat) (p : Port),
      pollLoop demoCodes slowWire true store (deadline slowWire 0) fuel p = none := by
  intro fuel
  induction fuel with
  | zero => intro p; rfl
  | succ fuel ih =>
    intro p
    rw [pollLoop_step demoCodes slowWire true store _ 0xff fuel p hcnt (by norm_num) rfl
      (fun j _ _ => slowWire_far j)]
    simp [ih]

theorem timedOut_yes (w : Wire) (T : Nat) (q : Port)
    (h0 : 0 < sub32 T (w.cnt q.nCnt % 2 ^ 32))
    (h1 : sub32 T (w.cnt (q.nCnt + 1) % 2 ^ 32) < SD_WIGGLE_ROOM) :
    (timedOut w true T q).1 = true := by
  simp only [timedOut, readCNT, h0, h1]
  simp

theorem cnt_mono (w : Wire) (n0 : Nat) (hmono : ∀ k, n0 ≤ k → w.cnt k ≤ w.cnt (k + 1)) :
    ∀ j, n0 ≤ j → w.cnt n0 ≤ w.cnt j := by
  intro j hj
  induction j with
  | zero =>
    have : n0 = 0 := by omega
    subst this; exact Nat.le_refl _
  | succ j ih =>
    by_cases h : n0 = j + 1
    · subst h; exact Nat.le_refl _
    · exact Nat.le_trans (ih (by omega)) (hmono j (by omega))

theorem pollLoop_once (c : Codes) (w : Wire) (store : Nat → Port → Port) (n0 : Nat)
    (hcnt : ∀ b q, (store b q).nCnt = q.nCnt)
    (hdev : ∀ k, w.shiftIn k = (0, 0xff))
    (hmono : ∀ k, n0 ≤ k → w.cnt k ≤ w.cnt (k + 1))
    (hstep : ∀ k, n0 ≤ k → w.cnt k < w.cnt (k + 2) ∧ w.cnt (k + 2) < w.cnt k + SD_WIGGLE_ROOM)
    (fuel : Nat) (p : Port) (j : Nat) (hp : p.nCnt = j + 1) (hj : n0 ≤ j)
    (hlo : w.cnt j + SD_WIGGLE_ROOM ≤ w.cnt n0 + w.clkfreq % 2 ^ 32 / 10) :
    (∃ p', pollLoop c w true store (deadline w n0) (fuel + 1) p
        = some (.error c.SD_READ_TIMEOUT, p')) ∨
    (w.cnt (j + 2) + SD_WIGGLE_ROOM ≤ w.cnt n0 + w.clkfreq % 2 ^ 32 / 10 ∧
      ∃ q, q.nCnt = j + 3 ∧
        pollLoop c w true store (deadline w n0) (fuel + 1) p
          = pollLoop c w true store (deadline w n0) fuel q) := by
  have hclk : w.clkfreq % 2 ^ 32 / 10 < 2 ^ 32 := by omega
  have c0 := cnt_mono w n0 hmono j hj
  have c1 := cnt_mono w n0 hmono (j + 1) (by omega)
  have c2 := cnt_mono w n0 hmono (j + 2) (by omega)
  have m0 : w.cnt j ≤ w.cnt (j + 1) := hmono j hj
  have m1 : w.cnt (j + 1) ≤ w.cnt (j + 2) := hmono (j + 1) (by omega)
  have s := hstep j hj
  have xa : sub32 (deadline w n0) (w.cnt (j + 1) % 2 ^ 32)
      = w.cnt n0 + w.clkfreq % 2 ^ 32 / 10 - w.cnt (j + 1) :=
    sub32_deadline _ _ _ hclk c1 (by omega)
  have xb : sub32 (deadline w n0) (w.cnt (j + 2) % 2 ^ 32)
      = w.cnt n0 + w.clkfreq % 2 ^ 32 / 10 - w.cnt (j + 2) :=
    sub32_deadline _ _ _ hclk c2 (by omega)
  have e : SPIShiftIn w p = (0, 0xff, advance p 1 0) := by
    simp [SPIShiftIn, hdev, advance]
  by_cases hfire : w.cnt n0 + w.clkfreq % 2 ^ 32 / 10 - w.cnt (j + 2) < SD_WIGGLE_ROOM
  · left
    have ht : (timedOut w true (deadline w n0) (store 0xff (advance p 1 0))).1 = true := by
      apply timedOut_yes
      · rw [hcnt, advance_nCnt, hp, Nat.add_zero, xa]; omega
      · rw [hcnt, advance_nCnt, hp, Nat.add_zero, xb]; exact hfire
    rw [pollLoop]
    simp only [e]
    simp [ht]
  · right
    refine ⟨by omega, advance (store 0xff (advance p 1 0)) 0 2, ?_, ?_⟩
    · rw [advance_nCnt, hcnt, advance_nCnt, hp]
    · rw [pollLoop_step c w true store _ 0xff fuel p hcnt (by norm_num) (hdev _)]
      · simp
      · intro i h1 h2
        simp only [if_true] at h2
        have : i = j + 1 ∨ i = j + 2 := by omega
        rcases this with rfl | rfl
        · rw [xa]; omega
        · rw [xb]; omega

theorem pollLoop_expires (c : Codes) (w : Wire) (store : Nat → Port → Port) (n0 : Nat)
    (hcnt : ∀ b q, (store b q).nCnt = q.nCnt)
    (hdev : ∀ k, w.shiftIn k = (0, 0xff))
    (hmono : ∀ k, n0 ≤ k → w.cnt k ≤ w.cnt (k + 1))
    (hstep : ∀ k, n0 ≤ k → w.cnt k < w.cnt (k + 2) ∧ w.cnt (k + 2) < w.cnt k + SD_WIGGLE_ROOM) :
    ∀ (m fuel : Nat) (p : Port) (j : Nat), p.nCnt = j + 1 → n0 ≤ j →
      w.cnt j + SD_WIGGLE_ROOM ≤ w.cnt n0 + w.clkfreq % 2 ^ 32 / 10 →
      w.cnt n0 + w.clkfreq % 2 ^ 32 / 10 ≤ w.cnt j + SD_WIGGLE_ROOM + m → m < fuel →
      ∃ p', pollLoop c w true store (deadline w n0) fuel p
        = some (.error c.SD_READ_TIMEOUT, p') := by
  intro m
  induction m with
  | zero =>
    intro fuel p j hp hj hlo hhi hf
    obtain ⟨fuel, rfl⟩ : ∃ f, fuel = f + 1 := ⟨fuel - 1, by omega⟩
    rcases pollLoop_once c w store n0 hcnt hdev hmono hstep fuel p j hp hj hlo with h | ⟨h, -⟩
    · exact h
    · have := (hstep j hj).1
      omega
  | succ m ih =>
    intro fuel p j hp hj hlo hhi hf
    obtain ⟨fuel, rfl⟩ : ∃ f, fuel = f + 1 := ⟨fuel - 1, by omega⟩
    rcases pollLoop_once c w store n0 hcnt hdev hmono hstep fuel p j hp hj hlo with
      h | ⟨h, q, hq, e⟩
    · exact h
    · rw [e]
      have := (hstep j hj).1
      exact ih fuel q (j + 2) hq (by omega) h (by omega) (by omega)

theorem wait_expires (c : Codes) (w : Wire) (fuel : Nat) (p : Port)
    (hdev : ∀ k, w.shiftIn k = (0, 0xff))
    (hmono : ∀ k, p.nCnt ≤ k → w.cnt k ≤ w.cnt (k + 1))
    (hstep : ∀ k, p.nCnt ≤ k →
      w.cnt k < w.cnt (k + 2) ∧ w.cnt (k + 2) < w.cnt k + SD_WIGGLE_ROOM)
    (hclk : SD_WIGGLE_ROOM ≤ w.clkfreq % 2 ^ 32 / 10)
    (hfuel : w.clkfreq % 2 ^ 32 / 10 < fuel) :
    ∃ p', pollLoop c w true storeDat0 (startTimeout w p).1 fuel (startTimeout w p).2
      = some (.error c.SD_READ_TIMEOUT, p') := by
  rw [startTimeout_eq]
  exact pollLoop_expires c w storeDat0 p.nCnt dat0_cnt hdev hmono hstep
    (w.clkfreq % 2 ^ 32 / 10 - SD_WIGGLE_ROOM) fuel _ p.nCnt rfl (Nat.le_refl _)
    (by omega) (by omega) (by omega)

/-- C11: for a device that answers every shift-in with 0xFF, a counter that never runs
backwards and is, from any read to the second read after it (one poll of the wait reads it
twice), at least one and fewer than `SD_WIGGLE_ROOM` cycles further, and
`CLKFREQ/10 ≥ SD_WIGGLE_ROOM`, the response wait of `SDGetResponse` and of `SDReadBlock`
(for a byte count that is non-zero as a `uint16`) ends within `CLKFREQ/10` polls and the
function returns `SD_READ_TIMEOUT`. -/
theorem response_wait_expires (c : Codes) (w : Wire) (fuel bytes : Nat) (p : Port)
    (hdev : ∀ k, w.shiftIn k = (0, 0xff))
    (hmono : ∀ k, p.nCnt ≤ k → w.cnt k ≤ w.cnt (k + 1))
    (hstep : ∀ k, p.nCnt ≤ k →
      w.cnt k < w.cnt (k + 2) ∧ w.cnt (k + 2) < w.cnt k + SD_WIGGLE_ROOM)
    (hclk : SD_WIGGLE_ROOM ≤ w.clkfreq % 2 ^ 32 / 10)
    (hfuel : w.clkfreq % 2 ^ 32 / 10 < fuel) :
    (∃ p', SDGetResponse c w fuel bytes p = some (c.SD_READ_TIMEOUT, p')) ∧
    (bytes % 2 ^ 16 ≠ 0 →
      ∃ p', SDReadBlock c w fuel bytes p = some (c.SD_READ_TIMEOUT, p')) := by
  obtain ⟨p', hp'⟩ := wait_expires c w fuel p hdev hmono hstep hclk hfuel
  constructor
  · exact ⟨p', by simp only [SDGetResponse, hp']⟩
  · intro hb
    exact ⟨p', by simp only [SDReadBlock, hb, if_false, hp']⟩

/-- The run of C11 on a counter that advances 100 cycles per read at 80 MHz. -/
theorem response_wait_expires_witness :
    (∃ p', SDGetResponse demoCodes (demoWire []) 8000001 1 demoPort
        = some (demoCodes.SD_READ_TIMEOUT, p')) ∧
    (∃ p', SDReadBlock demoCodes (demoWire []) 8000001 512 demoPort
        = some (demoCodes.SD_READ_TIMEOUT, p')) :=
  ⟨(response_wait_expires demoCodes (demoWire []) 8000001 1 demoPort (fun _ => rfl)
      (fun k _ => by simp [demoWire]) (fun k _ => by simp [demoWire, SD_WIGGLE_ROOM]; omega)
      (by decide) (by decide)).1,
    (response_wait_expires demoCodes (demoWire []) 8000001 512 demoPort (fun _ => rfl)
      (fun k _ => by simp [demoWire]) (fun k _ => by simp [demoWire, SD_WIGGLE_ROOM]; omega)
      (by decide) (by decide)).2 (by decide)⟩

/-- C11, as stated, fails: the device of `slowWire` answers every shift-in with 0xFF and its
counter increases at every read, by 65536 cycles, yet no read falls within `SD_WIGGLE_ROOM`
cycles before the deadline, and the response wait of `SDGetResponse` and of `SDReadBlock`
is still running after any number of polls. -/
theorem response_wait_never_expires :
    (∀ k, slowWire.shiftIn k = (0, 0xff)) ∧
    (∀ k, slowWire.cnt k < slowWire.cnt (k + 1)) ∧
    ∀ fuel, SDGetResponse demoCodes slowWire fuel 1 demoPort = none ∧
      SDReadBlock demoCodes slowWire fuel 1 demoPort = none := by
  refine ⟨fun _ => rfl, fun k => by simp [slowWire], fun fuel => ?_⟩
  have h := pollLoop_slowWire storeDat0 dat0_cnt fuel (startTimeout slowWire demoPort).2
  have hs : (startTimeout slowWire demoPort).1 = deadline slowWire 0 := rfl
  constructor
  · simp only [SDGetResponse, hs, h]
  · simp only [SDReadBlock, hs, h]
    simp

theorem stuckWire_far (i j : Nat) (h1 : i ≤ j) (h2 : j ≤ i + 2) :
    SD_WIGGLE_ROOM ≤ sub32 (deadline stuckWire i) (stuckWire.cnt j % 2 ^ 32) := by
  have h := sub32_deadline (stuckWire.clkfreq % 2 ^ 32 / 10) (stuckWire.cnt i) (stuckWire.cnt j)
    (by decide) (by simp only [stuckWire]; omega) (by simp only [stuckWire]; omega)
  unfold deadline
  rw [h]
  simp only [stuckWire, SD_WIGGLE_ROOM]
  omega

theorem stuckWire_response (fuel : Nat) (p : Port) :
    ∃ q, SDGetResponse demoCodes stuckWire (fuel + 1) SD_RESPONSE_LEN_R1 p = some (0, q) ∧
      u8 q.dat 0 = 0 := by
  unfold SDGetResponse
  rw [startTimeout_eq]
  simp only []
  rw [pollLoop_step demoCodes stuckWire true storeDat0 _ 0 fuel _ dat0_cnt (by norm_num) rfl
    (fun j h1 h2 => stuckWire_far _ _ (by rw [advance_nCnt] at h1; omega)
      (by rw [advance_nCnt] at h2; simp only [if_true] at h2; omega))]
  refine ⟨_, rfl, ?_⟩
  simp [SPIShiftOut, readRemaining, storeDat0, advance, u8, SD_RESPONSE_LEN_R1]

theorem stuckWire_send (cmd arg crc : Nat) (p : Port) :
    (SDSendCommand stuckWire cmd arg crc p).1 = 0 := by
  simp [SDSendCommand, SPIShiftOut, stuckWire]

theorem stuckWire_round (fuel : Nat) (p : Port) :
    ∃ q, idleRound demoCodes stuckWire (fuel + 1) p = some (.ok 5, q) := by
  unfold idleRound
  simp only []
  rw [if_neg (fun h => h (stuckWire_send _ _ _ _))]
  obtain ⟨q, hq, hd⟩ := stuckWire_response fuel
    (SDSendCommand stuckWire SD_CMD_IDLE 0 SD_CRC_IDLE
      { sendClocks stuckWire 5 { (readCNT stuckWire p).2 with cs := true } with cs := false }).2
  rw [hq]
  refine ⟨q, ?_⟩
  simp only [hd, SD_RESPONSE_IDLE]
  rfl

theorem stuckWire_idleLoop (fuel : Nat) :
    ∀ (rounds i : Nat) (p : Port), i < 10 →
      idleLoop demoCodes stuckWire fuel rounds i p = none := by
  intro rounds
  induction rounds with
  | zero => intro i p _; rfl
  | succ rounds ih =>
    intro i p hi
    rw [idleLoop, if_pos hi]
    cases fuel with
    | zero =>
      have : idleRound demoCodes stuckWire 0 p = none := by
        unfold idleRound
        simp only []
        rw [if_neg (fun h => h (stuckWire_send _ _ _ _))]
        rfl
      rw [this]
    | succ fuel =>
      obtain ⟨q, hq⟩ := stuckWire_round fuel p
      rw [hq]
      exact ih _ q (by decide)

/-- C27: on a transport that never fails whose device answers every shift-in with 0x00, never
with the idle token 0x01, every round of the idle loop of `SDStart` completes and leaves 5 in
the loop counter `i` (the inner loop over the same `i` has set it), so the test `i < 10` holds
again after the increment: the idle command is issued again and again and `SDStart` has not
returned after any number of rounds. -/
theorem SDStart_idle_retries_unbounded :
    (∀ k, stuckWire.shiftIn k = (0, 0x00)) ∧ (∀ k, stuckWire.shiftOut k = 0) ∧
    (∀ fuel p, ∃ q, idleRound demoCodes stuckWire (fuel + 1) p = some (.ok 5, q)) ∧
    (∀ fuel, SDStart demoCodes stuckWire 0 fuel demoPort = none) := by
  refine ⟨fun _ => rfl, fun _ => rfl, stuckWire_round, fun fuel => ?_⟩
  unfold SDStart SDStart_init
  simp only []
  rw [if_neg (by decide), stuckWire_idleLoop fuel fuel 0 _ (by decide)]

theorem activateRound_inv (c : Codes) (w : Wire) (fuel : Nat) (p q : Port) (r : Except Nat Bool)
    (h : activateRound c w fuel p = some (r, q)) :
    (∀ e, r = .error e → e ≠ 0) ∧
    (∀ b, r = .ok b → b = decide (SD_RESPONSE_ACTIVE = u8 q.dat 0)) := by
  unfold activateRound at h
  simp only [] at h
  split_ifs at h with h1
  · simp only [Option.some.injEq, Prod.mk.injEq] at h
    obtain ⟨rfl, -⟩ := h
    exact ⟨fun e he => (by cases he; exact h1), fun b hb => (by cases hb)⟩
  · cases hg : SDGetResponse c w fuel 1 (SDSendCommand w SD_CMD_APP 0 SD_CRC_OTHER p).2 with
    | none => rw [hg] at h; simp at h
    | some v =>
      obtain ⟨err, p2⟩ := v
      rw [hg] at h
      simp only [] at h
      split_ifs at h with h2 h3
      · simp only [Option.some.injEq, Prod.mk.injEq] at h
        obtain ⟨rfl, -⟩ := h
        exact ⟨fun e he => (by cases he; exact h2), fun b hb => (by cases hb)⟩
      · simp only [Option.some.injEq, Prod.mk.injEq] at h
        obtain ⟨rfl, -⟩ := h
        exact ⟨fun e he => (by cases he; exact h3), fun b hb => (by cases hb)⟩
      · cases hg2 : SDGetResponse c w fuel 1
            (SDSendCommand w SD_CMD_WR_OP BIT_30 SD_CRC_OTHER p2).2 with
        | none => rw [hg2] at h; simp at h
        | some v2 =>
          obtain ⟨err2, p4⟩ := v2
          rw [hg2] at h
          simp only [Option.some.injEq, Prod.mk.injEq] at h
          obtain ⟨rfl, rfl⟩ := h
          exact ⟨fun e he => (by cases he), fun b hb => (by cases hb; rfl)⟩

theorem activateLoop_inv (c : Codes) (w : Wire) (fuel : Nat) :
    ∀ (n : Nat) (p q : Port) (r : Except Nat Unit),
      activateLoop c w fuel n p = some (r, q) →
      (∀ e, r = .error e → e ≠ 0) ∧
      (r = .ok () → (n = 0 ∧ q = p) ∨
        ∃ p0 b, activateRound c w fuel p0 = some (.ok b, q)) := by
  intro n
  induction n with
  | zero =>
    intro p q r h
    simp only [activateLoop, Option.some.injEq, Prod.mk.injEq] at h
    obtain ⟨rfl, rfl⟩ := h
    exact ⟨fun e he => (by cases he), fun _ => Or.inl ⟨rfl, rfl⟩⟩
  | succ n ih =>
    intro p q r h
    rw [activateLoop] at h
    cases hr : activateRound c w fuel p with
    | none => rw [hr] at h; simp at h
    | some v =>
      obtain ⟨res, q1⟩ := v
      rw [hr] at h
      cases res with
      | error e =>
        simp only [Option.some.injEq, Prod.mk.injEq] at h
        obtain ⟨rfl, rfl⟩ := h
        exact ⟨fun e' he => (by cases he; exact (activateRound_inv c w fuel p _ _ hr).1 e rfl),
          fun hb => (by cases hb)⟩
      | ok b =>
        cases b with
        | true =>
          simp only [Option.some.injEq, Prod.mk.injEq] at h
          obtain ⟨rfl, rfl⟩ := h
          exact ⟨fun e he => (by cases he), fun _ => Or.inr ⟨p, true, hr⟩⟩
        | false =>
          simp only [] at h
          obtain ⟨a1, a2⟩ := ih q1 q r h
          refine ⟨a1, fun hok => ?_⟩
          rcases a2 hok with ⟨-, rfl⟩ | hx
          · exact Or.inr ⟨p, false, hr⟩
          · exact Or.inr hx

theorem idleRound_inv (c : Codes) (w : Wire) (fuel : Nat) (p q : Port) (e : Nat)
    (h : idleRound c w fuel p = some (.error e, q)) : e ≠ 0 := by
  unfold idleRound at h
  simp only [] at h
  split_ifs at h with h1
  · simp only [Option.some.injEq, Prod.mk.injEq, Except.error.injEq] at h
    obtain ⟨rfl, -⟩ := h
    exact h1
  · split at h
    · simp at h
    · simp at h

theorem idleLoop_inv (c : Codes) (w : Wire) (fuel : Nat) :
    ∀ (rounds i : Nat) (p q : Port) (e : Nat),
      idleLoop c w fuel rounds i p = some (.error e, q) → e ≠ 0 := by
  intro rounds
  induction rounds with
  | zero => intro i p q e h; simp [idleLoop] at h
  | succ rounds ih =>
    intro i p q e h
    rw [idleLoop] at h
    split_ifs at h with hi
    · cases hr : idleRound c w fuel p with
      | none => rw [hr] at h; simp at h
      | some v =>
        obtain ⟨res, q1⟩ := v
        rw [hr] at h
        cases res with
        | error e1 =>
          simp only [Option.some.injEq, Prod.mk.injEq, Except.error.injEq] at h
          obtain ⟨rfl, rfl⟩ := h
          exact idleRound_inv c w fuel p _ _ hr
        | ok i1 =>
          simp only [] at h
          exact ih _ _ _ _ h
    · simp at h

theorem SDStart_init_inv (c : Codes) (w : Wire) (startStatus fuel : Nat) (p q : Port) (e : Nat)
    (hc : c.SD_INVALID_INIT ≠ 0)
    (h : SDStart_init c w startStatus fuel p = some (.error e, q)) : e ≠ 0 := by
  unfold SDStart_init at h
  simp only [] at h
  split_ifs at h with h1
  · simp only [Option.some.injEq, Prod.mk.injEq, Except.error.injEq] at h
    obtain ⟨rfl, -⟩ := h
    exact h1
  · cases hl : idleLoop c w fuel fuel 0 { p with cs := true } with
    | none => rw [hl] at h; simp at h
    | some v =>
      obtain ⟨res, q1⟩ := v
      rw [hl] at h
      cases res with
      | error e1 =>
        simp only [Option.some.injEq, Prod.mk.injEq, Except.error.injEq] at h
        obtain ⟨rfl, rfl⟩ := h
        exact idleLoop_inv c w fuel _ _ _ _ _ hl
      | ok u =>
        simp only [] at h
        split_ifs at h with h2 h3
        · simp only [Option.some.injEq, Prod.mk.injEq, Except.error.injEq] at h
          obtain ⟨rfl, -⟩ := h
          exact hc
        · simp only [Option.some.injEq, Prod.mk.injEq, Except.error.injEq] at h
          obtain ⟨rfl, -⟩ := h
          exact h3
        · cases hg : SDGetResponse c w fuel SD_RESPONSE_LEN_R7
              (SDSendCommand w SD_CMD_SDHC SD_CMD_VOLT_ARG SD_CRC_SDHC q1).2 with
          | none => rw [hg] at h; simp at h
          | some v2 =>
            obtain ⟨err, q2⟩ := v2
            rw [hg] at h
            simp only [] at h
            split_ifs at h with h4 h5 h6
            · simp only [Option.some.injEq, Prod.mk.injEq, Except.error.injEq] at h
              obtain ⟨rfl, -⟩ := h
              exact h4
            · simp only [Option.some.injEq, Prod.mk.injEq, Except.error.injEq] at h
              obtain ⟨rfl, -⟩ := h
              exact hc
            · simp only [Option.some.injEq, Prod.mk.injEq, Except.error.injEq] at h
              obtain ⟨rfl, -⟩ := h
              exact h6
            · cases hg3 : SDGetResponse c w fuel SD_RESPONSE_LEN_R3
                  (SDSendCommand w SD_CMD_READ_OCR 0 SD_CRC_OTHER q2).2 with
              | none => rw [hg3] at h; simp at h
              | some v3 =>
                obtain ⟨err3, q3⟩ := v3
                rw [hg3] at h
                simp only [] at h
                split_ifs at h with h7 h8
                · simp only [Option.some.injEq, Prod.mk.injEq, Except.error.injEq] at h
                  obtain ⟨rfl, -⟩ := h
                  exact h7
                · simp only [Option.some.injEq, Prod.mk.injEq, Except.error.injEq] at h
                  obtain ⟨rfl, -⟩ := h
                  exact hc
                · simp at h

theorem activateLoop_exhausted (c : Codes) (w : Wire) (fuel : Nat) :
    ∀ (n : Nat) (p : Port),
      (∀ k, k < n → ∃ q, activateRound c w fuel (afterRounds c w fuel k p) = some (.ok false, q)) →
      activateLoop c w fuel n p = some (.ok (), afterRounds c w fuel n p) ∧
      (0 < n → SD_RESPONSE_ACTIVE ≠ u8 (afterRounds c w fuel n p).dat 0) := by
  intro n
  induction n with
  | zero => intro p _; exact ⟨rfl, fun h => absurd h (Nat.lt_irrefl 0)⟩
  | succ n ih =>
    intro p h
    obtain ⟨q, hq⟩ := h 0 (Nat.succ_pos n)
    have hq' : activateRound c w fuel p = some (.ok false, q) := hq
    have hstep : ∀ k, afterRounds c w fuel (k + 1) p = afterRounds c w fuel k q := by
      intro k
      rw [afterRounds, hq']
    obtain ⟨a1, a2⟩ := ih q (fun k hk => by rw [← hstep]; exact h (k + 1) (by omega))
    rw [activateLoop, hq', hstep]
    refine ⟨a1, fun _ => ?_⟩
    by_cases hn : 0 < n
    · exact a2 hn
    · have : n = 0 := by omega
      subst this
      have := (activateRound_inv c w fuel p q _ hq').2 false rfl
      simpa [afterRounds] using this.symm

/-- C28: when the idle loop, the interface-condition command and the read of the
operating-conditions register succeed and each of the 8 rounds of the activation loop ends
with `response[0]` other than the active response 0x00, `SDStart` returns
`SD_INVALID_RESPONSE` after the eighth round, without a call of `SPISetClock`. -/
theorem SDStart_activation_exhausted (c : Codes) (w : Wire) (startStatus fuel : Nat)
    (p q0 : Port)
    (hinit : SDStart_init c w startStatus fuel p = some (.ok (), q0))
    (hround : ∀ k, k < 8 →
      ∃ q, activateRound c w fuel (afterRounds c w fuel k q0) = some (.ok false, q)) :
    SDStart c w startStatus fuel p
      = some (c.SD_INVALID_RESPONSE, afterRounds c w fuel 8 q0, []) := by
  obtain ⟨a1, a2⟩ := activateLoop_exhausted c w fuel 8 q0 hround
  unfold SDStart
  rw [hinit]
  simp only []
  rw [a1]
  simp only []
  rw [if_pos (a2 (by decide))]

/-- The run of C28 on a card that answers the operating-conditions command with the idle
response in all eight rounds. -/
theorem SDStart_activation_exhausted_witness :
    ∃ q0, SDStart_init demoCodes (demoWire idleStream) 0 2 demoPort = some (.ok (), q0) ∧
      SDStart demoCodes (demoWire idleStream) 0 2 demoPort
        = some (demoCodes.SD_INVALID_RESPONSE,
          afterRounds demoCodes (demoWire idleStream) 2 8 q0, []) :=
  ⟨_, rfl, SDStart_activation_exhausted demoCodes (demoWire idleStream) 0 2 demoPort _ rfl
    (fun k hk => by interval_cases k <;> exact ⟨_, rfl⟩)⟩

/-- C28, as stated, fails: on a card that goes idle, passes the interface-condition and
operating-conditions checks and answers 0x01 in all eight activation rounds, `SDStart` returns
`SD_INVALID_RESPONSE`, which is not `SD_INVALID_INIT`. -/
theorem SDStart_activation_code :
    (∃ p', SDStart demoCodes (demoWire idleStream) 0 2 demoPort
      = some (demoCodes.SD_INVALID_RESPONSE, p', [])) ∧
    demoCodes.SD_INVALID_RESPONSE ≠ demoCodes.SD_INVALID_INIT :=
  ⟨⟨_, rfl⟩, by decide⟩

/-- C29: with `SD_INVALID_INIT` and `SD_INVALID_RESPONSE` non-zero codes, in every run of
`SDStart` that returns: a non-zero status comes with no `SPISetClock` call, the status 0 comes
with exactly the call `SPISetClock(SD_SPI_FINAL_FREQ)`, and when that call is made a round of
the activation loop has just ended with the test `SD_RESPONSE_ACTIVE == response[0]` true after
the response to its operating-conditions command, `response[0]` still being 0x00 at the
return. -/
theorem SDStart_clock (c : Codes) (w : Wire) (startStatus fuel : Nat) (p p' : Port)
    (st : Nat) (calls : List Nat)
    (h1 : c.SD_INVALID_INIT ≠ 0) (h2 : c.SD_INVALID_RESPONSE ≠ 0)
    (h : SDStart c w startStatus fuel p = some (st, p', calls)) :
    (st ≠ 0 → calls = []) ∧
    (st = 0 → calls = [SD_SPI_FINAL_FREQ]) ∧
    (calls ≠ [] → calls = [SD_SPI_FINAL_FREQ] ∧ u8 p'.dat 0 = SD_RESPONSE_ACTIVE ∧
      ∃ q q', activateRound c w fuel q = some (.ok true, q') ∧ p' = { q' with cs := true }) := by
  unfold SDStart at h
  cases hi : SDStart_init c w startStatus fuel p with
  | none => rw [hi] at h; simp at h
  | some v =>
    obtain ⟨res, q⟩ := v
    rw [hi] at h
    cases res with
    | error e =>
      simp only [Option.some.injEq, Prod.mk.injEq] at h
      obtain ⟨rfl, rfl, rfl⟩ := h
      have := SDStart_init_inv c w startStatus fuel p _ _ h1 hi
      exact ⟨fun _ => rfl, fun h0 => absurd h0 this, fun hne => absurd rfl hne⟩
    | ok u =>
      simp only [] at h
      cases hl : activateLoop c w fuel 8 q with
      | none => rw [hl] at h; simp at h
      | some v2 =>
        obtain ⟨res2, q2⟩ := v2
        rw [hl] at h
        obtain ⟨b1, b2⟩ := activateLoop_inv c w fuel 8 q q2 res2 hl
        cases res2 with
        | error e =>
          simp only [Option.some.injEq, Prod.mk.injEq] at h
          obtain ⟨rfl, rfl, rfl⟩ := h
          exact ⟨fun _ => rfl, fun h0 => absurd h0 (b1 _ rfl), fun hne => absurd rfl hne⟩
        | ok u2 =>
          simp only [] at h
          split_ifs at h with ha
          · simp only [Option.some.injEq, Prod.mk.injEq] at h
            obtain ⟨rfl, rfl, rfl⟩ := h
            exact ⟨fun _ => rfl, fun h0 => absurd h0 h2, fun hne => absurd rfl hne⟩
          · simp only [Option.some.injEq, Prod.mk.injEq] at h
            obtain ⟨rfl, rfl, rfl⟩ := h
            have hact : u8 q2.dat 0 = SD_RESPONSE_ACTIVE := (not_not.mp ha).symm
            refine ⟨fun h0 => absurd rfl h0, fun _ => rfl, fun _ => ⟨rfl, hact, ?_⟩⟩
            rcases b2 rfl with ⟨h8, -⟩ | ⟨p0, b, hb⟩
            · exact absurd h8 (by decide)
            · have hb' := (activateRound_inv c w fuel p0 q2 _ hb).2 b rfl
              have : b = true := by rw [hb']; simpa using hact.symm
              subst this
              exact ⟨p0, q2, hb, rfl⟩

/-- The run of C29 on a card that reports the active response in the first activation round. -/
theorem SDStart_clock_witness :
    ∃ p', SDStart demoCodes (demoWire activeStream) 0 2 demoPort
        = some (0, p', [SD_SPI_FINAL_FREQ]) ∧ u8 p'.dat 0 = SD_RESPONSE_ACTIVE :=
  ⟨_, rfl, ((SDStart_clock demoCodes (demoWire activeStream) 0 2 demoPort _ 0
    [SD_SPI_FINAL_FREQ] (by decide) (by decide) rfl).2.2 (by decide)).2.1⟩

theorem ExpiredAt.mono {w : Wire} {lo lo' : Nat} {p' : Port} (h : ExpiredAt w lo p')
    (hl : lo' ≤ lo) : ExpiredAt w lo' p' := by
  obtain ⟨i, h1, h2, h3⟩ := h
  exact ⟨i, Nat.le_trans hl h1, h2, h3⟩

theorem timedOut_inv (w : Wire) (strict : Bool) (T : Nat) (q : Port) :
    q.nCnt < (timedOut w strict T q).2.nCnt ∧
    ((timedOut w strict T q).1 = true →
      sub32 T (w.cnt ((timedOut w strict T q).2.nCnt - 1) % 2 ^ 32) < SD_WIGGLE_ROOM) := by
  unfold timedOut
  cases strict
  · simp only [Bool.false_eq_true, if_false, readCNT, decide_eq_true_eq, Nat.add_sub_cancel]
    exact ⟨Nat.lt_succ_self _, fun h => h⟩
  · simp only [if_true]
    split
    · simp only [readCNT, decide_eq_true_eq, Nat.add_sub_cancel]
      exact ⟨by omega, fun h => h⟩
    · simp only [readCNT]
      exact ⟨Nat.lt_succ_self _, fun h => absurd h (by decide)⟩

theorem pollLoop_inv (c : Codes) (w : Wire) (strict : Bool) (store : Nat → Port → Port)
    (T : Nat) (hcnt : ∀ b q, (store b q).nCnt = q.nCnt)
    (hin : ∀ k, (w.shiftIn k).1 % 256 = 0) :
    ∀ (fuel : Nat) (q p' : Port) (r : Except Nat Nat),
      pollLoop c w strict store T fuel q = some (r, p') →
      q.nCnt < p'.nCnt ∧
      (∀ s, r = .error s → s = c.SD_READ_TIMEOUT ∧
        sub32 T (w.cnt (p'.nCnt - 1) % 2 ^ 32) < SD_WIGGLE_ROOM) := by
  intro fuel
  induction fuel with
  | zero => intro q p' r h; simp [pollLoop] at h
  | succ fuel ih =>
    intro q p' r h
    rw [pollLoop] at h
    have hs : (SPIShiftIn w q).1 = 0 := hin q.nIn
    rw [if_neg (fun hn => hn hs)] at h
    simp only [] at h
    have hq : (store (SPIShiftIn w q).2.1 (SPIShiftIn w q).2.2).nCnt = q.nCnt := by
      rw [hcnt]; rfl
    obtain ⟨t1, t2⟩ := timedOut_inv w strict T (store (SPIShiftIn w q).2.1 (SPIShiftIn w q).2.2)
    rw [hq] at t1
    split_ifs at h with ht hb
    · simp only [Option.some.injEq, Prod.mk.injEq] at h
      obtain ⟨rfl, rfl⟩ := h
      exact ⟨t1, fun s hs => by cases hs; exact ⟨rfl, t2 ht⟩⟩
    · obtain ⟨a1, a2⟩ := ih _ _ _ h
      exact ⟨Nat.lt_trans t1 a1, a2⟩
    · simp only [Option.some.injEq, Prod.mk.injEq] at h
      obtain ⟨rfl, rfl⟩ := h
      exact ⟨t1, fun s hs => by cases hs⟩

theorem wait_inv (c : Codes) (w : Wire) (strict : Bool) (store : Nat → Port → Port)
    (hcnt : ∀ b q, (store b q).nCnt = q.nCnt)
    (hin : ∀ k, (w.shiftIn k).1 % 256 = 0) (fuel : Nat) (q p' : Port) (r : Except Nat Nat)
    (h : pollLoop c w strict store (startTimeout w q).1 fuel (startTimeout w q).2 = some (r, p')) :
    q.nCnt < p'.nCnt ∧ (∀ s, r = .error s → s = c.SD_READ_TIMEOUT ∧ ExpiredAt w q.nCnt p') := by
  rw [startTimeout_eq] at h
  obtain ⟨a1, a2⟩ := pollLoop_inv c w strict store _ hcnt hin fuel _ _ _ h
  rw [advance_nCnt] at a1
  refine ⟨by omega, fun s hs => ?_⟩
  obtain ⟨b1, b2⟩ := a2 s hs
  exact ⟨b1, q.nCnt, Nat.le_refl _, a1, b2⟩

theorem readRemaining_status (w : Wire) (hin : ∀ k, (w.shiftIn k).1 % 256 = 0) :
    ∀ (n i : Nat) (p : Port), (readRemaining w n i p).1 = 0 := by
  intro n
  induction n with
  | zero => intro i p; rfl
  | succ n ih =>
    intro i p
    rw [readRemaining]
    have hs : (SPIShiftIn w p).1 = 0 := hin p.nIn
    simp only []
    rw [if_neg (fun hn => hn hs)]
    exact ih _ _

theorem readData_nCnt (w : Wire) :
    ∀ (n i : Nat) (p : Port), (readData w n i p).nCnt = p.nCnt := by
  intro n
  induction n with
  | zero => intro i p; rfl
  | succ n ih =>
    intro i p
    rw [readData]
    simp only []
    rw [ih]
    split <;> rfl

theorem readChecksum_inv (c : Codes) (w : Wire) (fuel : Nat)
    (hin : ∀ k, (w.shiftIn k).1 % 256 = 0) :
    ∀ (n : Nat) (q p' : Port) (r : Except Nat Unit),
      readChecksum c w fuel n q = some (r, p') →
      ∀ s, r = .error s → s = c.SD_READ_TIMEOUT ∧ ExpiredAt w q.nCnt p' := by
  intro n
  induction n with
  | zero =>
    intro q p' r h s hs
    simp only [readChecksum, Option.some.injEq, Prod.mk.injEq] at h
    obtain ⟨rfl, -⟩ := h
    cases hs
  | succ n ih =>
    intro q p' r h s hs
    rw [readChecksum] at h
    cases hp : pollLoop c w false storeChecksum (startTimeout w q).1 fuel (startTimeout w q).2 with
    | none => rw [hp] at h; simp at h
    | some v =>
      obtain ⟨res, q1⟩ := v
      rw [hp] at h
      obtain ⟨a1, a2⟩ := wait_inv c w false storeChecksum sum_cnt hin fuel q q1 res hp
      cases res with
      | error e =>
        simp only [Option.some.injEq, Prod.mk.injEq] at h
        obtain ⟨rfl, rfl⟩ := h
        cases hs
        exact a2 _ rfl
      | ok b =>
        simp only [] at h
        obtain ⟨b1, b2⟩ := ih q1 p' r h s hs
        exact ⟨b1, b2.mono (Nat.le_of_lt a1)⟩

theorem wait_expired (c : Codes) (w : Wire) (strict : Bool) (store : Nat → Port → Port)
    (hcnt : ∀ b q, (store b q).nCnt = q.nCnt)
    (hin : ∀ k, (w.shiftIn k).1 % 256 = 0) (fuel : Nat) (q p' : Port) (e : Nat)
    (h : pollLoop c w strict store (startTimeout w q).1 fuel (startTimeout w q).2
      = some (.error e, p')) :
    e = c.SD_READ_TIMEOUT ∧ ExpiredWait c w fuel strict store q p' := by
  have h' := h
  rw [startTimeout_eq] at h'
  obtain ⟨-, a2⟩ := pollLoop_inv c w strict store _ hcnt hin fuel _ _ _ h'
  obtain ⟨b1, b2⟩ := a2 e rfl
  subst b1
  exact ⟨rfl, h, b2⟩

/-- C30: on a transport that does not fail, with `SD_READ_TIMEOUT` distinct from 0 and from the
other codes the two functions return, `SDGetResponse` and `SDReadBlock` return
`SD_READ_TIMEOUT` only from a wait whose timeout test fired, and on a read of `CNT` that lies
fewer than `SD_WIGGLE_ROOM` cycles before the deadline of that very wait, or on it (32-bit
difference `timeout - CNT`, the deadline being the one computed when that wait began): in
`SDGetResponse` the response wait; in `SDReadBlock` the response wait, or the wait for the
data-start token after the response wait ended on the ready token, or the first checksum wait
after the token wait ended on the data-start token and the data bytes were read, or the second
checksum wait after the first ended. So the code is never returned on a poll at which the
counter is `SD_WIGGLE_ROOM` cycles or more before the deadline of the wait in progress. -/
theorem timeout_within_wiggle_room (c : Codes) (w : Wire) (fuel bytes : Nat) (p p' : Port)
    (hin : ∀ k, (w.shiftIn k).1 % 256 = 0) (hout : ∀ k, w.shiftOut k % 256 = 0)
    (h0 : c.SD_READ_TIMEOUT ≠ 0) (h1 : c.SD_READ_TIMEOUT ≠ c.SD_INVALID_NUM_BYTES)
    (h2 : c.SD_READ_TIMEOUT ≠ c.SD_INVALID_RESPONSE)
    (h3 : c.SD_READ_TIMEOUT ≠ c.SD_INVALID_DAT_STRT_ID) :
    (SDGetResponse c w fuel bytes p = some (c.SD_READ_TIMEOUT, p') →
      ExpiredWait c w fuel true storeDat0 p p') ∧
    (SDReadBlock c w fuel bytes p = some (c.SD_READ_TIMEOUT, p') →
      ExpiredWait c w fuel true storeDat0 p p' ∨
      ∃ q1, pollLoop c w true storeDat0 (startTimeout w p).1 fuel (startTimeout w p).2
          = some (.ok SD_RESPONSE_ACTIVE, q1) ∧
        (ExpiredWait c w fuel false storeDat0 q1 p' ∨
          ∃ q2, pollLoop c w false storeDat0 (startTimeout w q1).1 fuel (startTimeout w q1).2
              = some (.ok SD_DATA_START_ID, q2) ∧
            (ExpiredWait c w fuel false storeChecksum (readData w (bytes % 2 ^ 16) 0 q2) p' ∨
              ∃ q3 b, pollLoop c w false storeChecksum
                  (startTimeout w (readData w (bytes % 2 ^ 16) 0 q2)).1 fuel
                  (startTimeout w (readData w (bytes % 2 ^ 16) 0 q2)).2 = some (.ok b, q3) ∧
                ExpiredWait c w fuel false storeChecksum q3 p'))) := by
  constructor
  · intro h
    unfold SDGetResponse at h
    cases hp : pollLoop c w true storeDat0 (startTimeout w p).1 fuel (startTimeout w p).2 with
    | none => rw [hp] at h; simp at h
    | some v =>
      obtain ⟨res, q1⟩ := v
      rw [hp] at h
      cases res with
      | error e =>
        simp only [Option.some.injEq, Prod.mk.injEq] at h
        obtain ⟨rfl, rfl⟩ := h
        exact (wait_expired c w true storeDat0 dat0_cnt hin fuel p _ _ hp).2
      | ok b =>
        simp only [] at h
        split_ifs at h with hv hr
        · exact absurd (readRemaining_status w hin _ _ _) hr
        · simp only [Option.some.injEq, Prod.mk.injEq] at h
          exact absurd h.1.symm h0
        · simp only [Option.some.injEq, Prod.mk.injEq] at h
          exact absurd h.1.symm h2
  · intro h
    unfold SDReadBlock at h
    split_ifs at h with hb
    · simp only [Option.some.injEq, Prod.mk.injEq] at h
      exact absurd h.1.symm h1
    · cases hp : pollLoop c w true storeDat0 (startTimeout w p).1 fuel (startTimeout w p).2 with
      | none => rw [hp] at h; simp at h
      | some v =>
        obtain ⟨res, q1⟩ := v
        rw [hp] at h
        cases res with
        | error e =>
          simp only [Option.some.injEq, Prod.mk.injEq] at h
          obtain ⟨rfl, rfl⟩ := h
          exact Or.inl (wait_expired c w true storeDat0 dat0_cnt hin fuel p _ _ hp).2
        | ok b =>
          simp only [] at h
          split_ifs at h with hv
          · subst hv
            refine Or.inr ⟨q1, rfl, ?_⟩
            cases hp2 : pollLoop c w false storeDat0 (startTimeout w q1).1 fuel
                (startTimeout w q1).2 with
            | none => rw [hp2] at h; simp at h
            | some v2 =>
              obtain ⟨res2, q2⟩ := v2
              rw [hp2] at h
              cases res2 with
              | error e =>
                simp only [Option.some.injEq, Prod.mk.injEq] at h
                obtain ⟨rfl, rfl⟩ := h
                exact Or.inl (wait_expired c w false storeDat0 dat0_cnt hin fuel q1 _ _ hp2).2
              | ok tok =>
                simp only [] at h
                split_ifs at h with htok
                · subst htok
                  refine Or.inr ⟨q2, rfl, ?_⟩
                  rw [readChecksum] at h
                  cases hc1 : pollLoop c w false storeChecksum
                      (startTimeout w (readData w (bytes % 2 ^ 16) 0 q2)).1 fuel
                      (startTimeout w (readData w (bytes % 2 ^ 16) 0 q2)).2 with
                  | none => rw [hc1] at h; simp at h
                  | some v3 =>
                    obtain ⟨res3, q3⟩ := v3
                    rw [hc1] at h
                    cases res3 with
                    | error e =>
                      simp only [Option.some.injEq, Prod.mk.injEq] at h
                      obtain ⟨rfl, rfl⟩ := h
                      exact Or.inl
                        (wait_expired c w false storeChecksum sum_cnt hin fuel _ _ _ hc1).2
                    | ok b3 =>
                      refine Or.inr ⟨q3, b3, rfl, ?_⟩
                      simp only [] at h
                      rw [readChecksum] at h
                      cases hc2 : pollLoop c w false storeChecksum (startTimeout w q3).1 fuel
                          (startTimeout w q3).2 with
                      | none => rw [hc2] at h; simp at h
                      | some v4 =>
                        obtain ⟨res4, q4⟩ := v4
                        rw [hc2] at h
                        cases res4 with
                        | error e =>
                          simp only [Option.some.injEq, Prod.mk.injEq] at h
                          obtain ⟨rfl, rfl⟩ := h
                          exact (wait_expired c w false storeChecksum sum_cnt hin fuel _ _ _
                            hc2).2
                        | ok b4 =>
                          simp only [readChecksum] at h
                          have ho : (SPIShiftOut w 8 0xff q4).1 = 0 := hout q4.nOut
                          rw [if_neg (fun hn => hn ho)] at h
                          simp only [Option.some.injEq, Prod.mk.injEq] at h
                          exact absurd h.1.symm h0
                · simp only [Option.some.injEq, Prod.mk.injEq] at h
                  exact absurd h.1.symm h3
          · simp only [Option.some.injEq, Prod.mk.injEq] at h
            exact absurd h.1.symm h2

/-- The run of C30 on a transport whose first poll samples the counter 9800 cycles before the
deadline of the response wait, 8000000. -/
theorem timeout_within_wiggle_room_witness :
    (∃ p', SDGetResponse demoCodes lateWire 1 1 demoPort
        = some (demoCodes.SD_READ_TIMEOUT, p') ∧
      ExpiredWait demoCodes lateWire 1 true storeDat0 demoPort p') ∧
    deadline lateWire demoPort.nCnt = 8000000 :=
  ⟨⟨_, rfl, (timeout_within_wiggle_room demoCodes lateWire 1 1 demoPort _ (fun _ => rfl)
    (fun _ => rfl) (by decide) (by decide) (by decide) (by decide)).1 rfl⟩, by decide⟩

/-- C30, as stated, fails: the deadline is 8000000 and the first poll reads the counter at
7990100 and 7990200, strictly before it, yet `SDGetResponse` and `SDReadBlock` return
`SD_READ_TIMEOUT` on that poll. -/
theorem timeout_before_deadline :
    (∃ p', SDGetResponse demoCodes lateWire 1 1 demoPort
      = some (demoCodes.SD_READ_TIMEOUT, p') ∧ p'.nCnt = 3) ∧
    (∃ p', SDReadBlock demoCodes lateWire 1 512 demoPort
      = some (demoCodes.SD_READ_TIMEOUT, p') ∧ p'.nCnt = 3) ∧
    deadline lateWire 0 = 8000000 ∧ lateWire.cnt 1 = 7990100 ∧ lateWire.cnt 2 = 7990200 :=
  ⟨⟨_, rfl, rfl⟩, ⟨_, rfl, rfl⟩, by decide, by decide, by decide⟩

theorem SDMount_of_bootRead (c : Codes) (rd : BlockReads) (g : Globals) (h : BootRead rd) :
    SDMount c rd g = SDMount_parse c rd
      (if SD_BOOT_SECTOR_ID ≠ u8 (rd 0 0).2 SD_BOOT_SECTOR_ID_ADDR then 2 else 1)
      (bootIndex rd) (bootBuffer rd) g := by
  obtain ⟨h0, h1⟩ := h
  unfold SDMount SDMount_boot bootBuffer
  unfold bootIndex at h1 ⊢
  by_cases hsig : SD_BOOT_SECTOR_ID ≠ u8 (rd 0 0).2 SD_BOOT_SECTOR_ID_ADDR
  · have h1' := h1 hsig
    rw [if_pos hsig] at h1'
    simp [h0, hsig, h1']
  · simp [h0, hsig]

/-- C40: `SDMount` divides by the sectors-per-cluster byte without testing it. When the reads
that bring in the boot sector succeed, `SDMount` goes on to the layout computation, whose first
step is the cluster-count division; the divisor is the byte at offset 0x0D of the boot sector,
the division is undefined exactly when that byte is zero, and that is the only case in which
`SDMount` has no result. -/
theorem SDMount_divides_unchecked (c : Codes) (rd : BlockReads) (g : Globals)
    (h : BootRead rd) :
    (∃ k, SDMount c rd g = SDMount_parse c rd k (bootIndex rd) (bootBuffer rd) g) ∧
    (bootFields (bootBuffer rd)).sectorsPerCluster = u8 (bootBuffer rd) 0x0D ∧
    (clusterCountOf (bootFields (bootBuffer rd)) = none ↔ u8 (bootBuffer rd) 0x0D = 0) ∧
    (SDMount c rd g = none ↔ u8 (bootBuffer rd) 0x0D = 0) := by
  have hm := SDMount_of_bootRead c rd g h
  have hcc : clusterCountOf (bootFields (bootBuffer rd)) = none ↔ u8 (bootBuffer rd) 0x0D = 0 := by
    unfold clusterCountOf
    constructor
    · intro hn
      by_cases hz : (bootFields (bootBuffer rd)).sectorsPerCluster = 0
      · exact hz
      · rw [if_neg hz] at hn
        cases hn
    · intro hz
      have hz' : (bootFields (bootBuffer rd)).sectorsPerCluster = 0 := hz
      rw [if_pos hz']
  have hp : SDMount c rd g = none ↔ clusterCountOf (bootFields (bootBuffer rd)) = none := by
    rw [hm]
    unfold SDMount_parse
    simp only []
    cases hq : clusterCountOf (bootFields (bootBuffer rd)) with
    | none => simp
    | some n =>
      simp only []
      split_ifs <;> simp
  exact ⟨⟨_, hm⟩, rfl, hcc, hp.trans hcc⟩

/-- The mount of C40 on `demoBoot`, one sector per cluster: the division is defined. -/
theorem SDMount_divides_unchecked_witness :
    BootRead demoReads ∧ u8 (bootBuffer demoReads) 0x0D ≠ 0 ∧
      SDMount demoCodes demoReads demoGlobals ≠ none :=
  ⟨⟨rfl, fun _ => rfl⟩, by decide,
    fun hn => absurd ((SDMount_divides_unchecked demoCodes demoReads demoGlobals
      ⟨rfl, fun _ => rfl⟩).2.2.2.mp hn) (by decide)⟩

/-- C39: when the reads that bring in the boot sector succeed, the sectors-per-cluster byte
is non-zero and the cluster count is 65525 or more, `SDMount` sets `g_filesystem` to FAT32,
`g_fatStart` to the boot-sector index plus the 16-bit little-endian reserved-sector count at
0x0E, and both `g_rootAddr` and `g_firstData` to `g_fatStart` plus the 32-bit little-endian
root cluster number at 0x2C (32-bit arithmetic), whatever the status of the closing read of
the root directory. The FAT-copy count, the FAT size and the sectors-per-cluster byte do not
enter these values. -/
theorem SDMount_fat32_root (c : Codes) (rd : BlockReads) (g : Globals)
    (h : BootRead rd) (hspc : u8 (bootBuffer rd) SD_CLUSTER_SIZE_ADDR ≠ 0)
    (h32 : 65525 ≤ clusterCount rd) :
    ∃ st g', SDMount c rd g = some (st, g') ∧ g'.g_filesystem = SD_FAT_32 ∧
      g'.g_fatStart = (bootIndex rd + (u8 (bootBuffer rd) 0x0E + 256 * u8 (bootBuffer rd) 0x0F))
        % 2 ^ 32 ∧
      g'.g_rootAddr = (g'.g_fatStart + (u8 (bootBuffer rd) 0x2C + 256 * u8 (bootBuffer rd) 0x2D
        + 65536 * u8 (bootBuffer rd) 0x2E + 16777216 * u8 (bootBuffer rd) 0x2F)) % 2 ^ 32 ∧
      g'.g_firstData = g'.g_rootAddr := by
  have hm := SDMount_of_bootRead c rd g h
  have hspc' : (bootFields (bootBuffer rd)).sectorsPerCluster ≠ 0 := hspc
  have hcc : clusterCountOf (bootFields (bootBuffer rd)) = some (clusterCount rd) := by
    unfold clusterCountOf clusterCount
    simp [hspc']
  have a1 : ¬ SD_FAT12_CLSTR_CNT > clusterCount rd := by unfold SD_FAT12_CLSTR_CNT; omega
  have a2 : ¬ SD_FAT16_CLSTR_CNT > clusterCount rd := by unfold SD_FAT16_CLSTR_CNT; omega
  have e16 : (bootFields (bootBuffer rd)).rsvdSectorCount
      = u8 (bootBuffer rd) 0x0E + 256 * u8 (bootBuffer rd) 0x0F :=
    SDConvertDat16_le (bootBuffer rd) 0x0E
  have e32 : SDConvertDat32 (bootBuffer rd) SD_ROOT_CLUSTER_ADDR
      = u8 (bootBuffer rd) 0x2C + 256 * u8 (bootBuffer rd) 0x2D
        + 65536 * u8 (bootBuffer rd) 0x2E + 16777216 * u8 (bootBuffer rd) 0x2F :=
    SDConvertDat32_le (bootBuffer rd) 0x2C
  rw [hm]
  generalize (if SD_BOOT_SECTOR_ID ≠ u8 (rd 0 0).2 SD_BOOT_SECTOR_ID_ADDR then 2 else 1) = k
  unfold SDMount_parse
  simp only [hcc, a1, a2, if_false]
  have hne : ¬ SD_FAT_32 = SD_FAT_16 := by decide
  simp only [hne, if_false, if_true]
  split_ifs
  · exact ⟨_, _, rfl, rfl, by simp only [add32, e16], by simp only [add32, e16, e32], rfl⟩
  · exact ⟨_, _, rfl, rfl, by simp only [add32, e16], by simp only [add32, e16, e32], rfl⟩

/-- The mount of C39 on `fat32Boot`: 32 reserved sectors and root cluster 2. -/
theorem SDMount_fat32_root_witness :
    ∃ st g', SDMount demoCodes fat32Reads demoGlobals = some (st, g') ∧
      g'.g_filesystem = SD_FAT_32 ∧ g'.g_rootAddr = 34 ∧ g'.g_firstData = 34 := by
  obtain ⟨st, g', h1, h2, h3, h4, h5⟩ := SDMount_fat32_root demoCodes fat32Reads demoGlobals
    ⟨rfl, fun _ => rfl⟩ (by decide) (by decide)
  have e3 : g'.g_fatStart = 32 := by rw [h3]; decide
  have e4 : g'.g_rootAddr = 34 := by rw [h4, e3]; decide
  exact ⟨st, g', h1, h2, e4, by rw [h5, e4]⟩

theorem pollLoop_idle (c : Codes) (w : Wire) (store : Nat → Port → Port) (T : Nat)
    (hcnt : ∀ b q, (store b q).nCnt = q.nCnt) (hnin : ∀ b q, (store b q).nIn = q.nIn) :
    ∀ (n fuel : Nat) (p : Port), n < fuel →
      (∀ k, k ≤ n → w.shiftIn (p.nIn + k) = (0, 0xff)) →
      (∀ j, j < n → SD_WIGGLE_ROOM ≤ sub32 T (w.cnt (p.nCnt + j) % 2 ^ 32)) →
      sub32 T (w.cnt (p.nCnt + n) % 2 ^ 32) < SD_WIGGLE_ROOM →
      ∃ p', pollLoop c w false store T fuel p = some (.error c.SD_READ_TIMEOUT, p') ∧
        p'.nIn = p.nIn + (n + 1) ∧ p'.nCnt = p.nCnt + (n + 1) := by
  intro n
  induction n with
  | zero =>
    intro fuel p hf hd _ hx
    obtain ⟨fuel, rfl⟩ : ∃ f, fuel = f + 1 := ⟨fuel - 1, by omega⟩
    have e : (SPIShiftIn w p) = (0, 0xff, advance p 1 0) := by
      have := hd 0 (Nat.le_refl _)
      simp only [Nat.add_zero] at this
      simp [SPIShiftIn, this, advance]
    have hx' : sub32 T (w.cnt (store 0xff (advance p 1 0)).nCnt % 2 ^ 32) < SD_WIGGLE_ROOM := by
      rw [hcnt]
      simpa [advance] using hx
    rw [pollLoop]
    simp only [e]
    simp only [timedOut, readCNT, hx']
    refine ⟨(readCNT w (store 0xff (advance p 1 0))).2, by simp [readCNT], ?_, ?_⟩
    · simp [readCNT, hnin, advance]
    · simp [readCNT, hcnt, advance]
  | succ n ih =>
    intro fuel p hf hd hlo hx
    obtain ⟨fuel, rfl⟩ : ∃ f, fuel = f + 1 := ⟨fuel - 1, by omega⟩
    rw [pollLoop_step c w false store T 0xff fuel p hcnt (by norm_num)
      (by simpa using hd 0 (Nat.zero_le _))
      (fun j h1 h2 => by
        have hj : j = p.nCnt + 0 := by simp at h2; omega
        rw [hj]
        exact hlo 0 (Nat.succ_pos _))]
    rw [if_pos rfl]
    obtain ⟨p', h1, h2, h3⟩ := ih fuel (advance (store 0xff (advance p 1 0)) 0 1) (by omega)
      (fun k hk => by
        have := hd (k + 1) (by omega)
        simpa [advance, hnin, Nat.add_assoc, Nat.add_comm 1 k] using this)
      (fun j hj => by
        have := hlo (j + 1) (by omega)
        simpa [advance, hcnt, Nat.add_assoc, Nat.add_comm 1 j] using this)
      (by
        simpa [advance, hcnt, Nat.add_assoc, Nat.add_comm 1 n] using hx)
    refine ⟨p', by simpa using h1, ?_, ?_⟩
    · rw [h2]; simp [advance, hnin]; omega
    · rw [h3]; simp [advance, hcnt]; omega

theorem crcWire_sub (c1 c2 i j : Nat) (h : i ≤ j) (h2 : 5000 * (j - i) ≤ 8000000) :
    sub32 (deadline (crcWire c1 c2) i) ((crcWire c1 c2).cnt j % 2 ^ 32)
      = 8000000 - 5000 * (j - i) := by
  simp only [deadline, add32, sub32, crcWire]
  omega


theorem readChecksum_succ (c : Codes) (w : Wire) (fuel n : Nat) (p : Port) :
    readChecksum c w fuel (n + 1) p =
      match pollLoop c w false storeChecksum (deadline w p.nCnt) fuel (advance p 0 1) with
      | none => none
      | some (.error s, p1) => some (.error s, p1)
      | some (.ok _, p1) => readChecksum c w fuel n p1 := rfl

theorem readChecksum_stalls (c : Codes) (w : Wire) (fuel c2 n : Nat) (q : Port)
    (hf : n < fuel) (hf1 : 1 < fuel) (h2 : c2 < 256) (h2' : c2 ≠ 0xff)
    (hd : Delivers w q.nIn [0xff, c2])
    (hidle : ∀ k, k ≤ n → w.shiftIn (q.nIn + 2 + k) = (0, 0xff))
    (hnt : NoExpiry w q.nCnt 3)
    (hlo : ∀ j, j < n →
      SD_WIGGLE_ROOM ≤ sub32 (deadline w (q.nCnt + 3)) (w.cnt (q.nCnt + 4 + j) % 2 ^ 32))
    (hx : sub32 (deadline w (q.nCnt + 3)) (w.cnt (q.nCnt + 4 + n) % 2 ^ 32) < SD_WIGGLE_ROOM) :
    ∃ p', readChecksum c w fuel 2 q = some (.error c.SD_READ_TIMEOUT, p') ∧
      p'.nIn = q.nIn + (n + 3) := by
  have e1 : pollLoop c w false storeChecksum (deadline w q.nCnt) fuel (advance q 0 1)
      = some (.ok c2, storeChecksum c2 (advance q 2 3)) := by
    have := pollLoop_skip c w false storeChecksum (deadline w q.nCnt) c2 sum_cnt sum_nIn sum_adv
      sum_idem h2 h2' 1 fuel (advance q 0 1) hf1
      (by simpa [advance_nIn] using hd)
      (fun j ha hb => hnt q.nCnt j (Nat.le_refl _) (by simp [advance_nCnt] at ha; omega)
        (by simp [advance_nCnt] at hb; omega))
    simpa [advance_advance] using this
  obtain ⟨p', e2, e3, -⟩ := pollLoop_idle c w storeChecksum (deadline w (q.nCnt + 3)) sum_cnt
    sum_nIn n fuel (advance (storeChecksum c2 (advance q 2 3)) 0 1) hf
    (fun k hk => by simpa [advance, storeChecksum] using hidle k hk)
    (fun j hj => by simpa [advance, storeChecksum] using hlo j hj)
    (by simpa [advance, storeChecksum] using hx)
  refine ⟨p', ?_, ?_⟩
  · rw [readChecksum_succ, e1]
    simp only []
    rw [readChecksum_succ]
    have hc : (storeChecksum c2 (advance q 2 3)).nCnt = q.nCnt + 3 := rfl
    rw [hc, e2]
  · rw [e3]
    simp [advance, storeChecksum]
    omega

theorem crcWire_stalls (fuel : Nat) (hf : 1598 < fuel) :
    ∃ p', SDReadBlock demoCodes (crcWire 0xff 0x12) fuel 1 demoPort
        = some (demoCodes.SD_READ_TIMEOUT, p') ∧ p'.nIn = 1604 := by
  have hne : ∀ i j, i ≤ j → j ≤ i + 2 →
      SD_WIGGLE_ROOM ≤ sub32 (deadline (crcWire 0xff 0x12) i)
        ((crcWire 0xff 0x12).cnt j % 2 ^ 32) := by
    intro i j h1 h2
    rw [crcWire_sub 0xff 0x12 i j h1 (by omega)]
    unfold SD_WIGGLE_ROOM
    omega
  rw [SDReadBlock, Nat.mod_eq_of_lt (by norm_num : 1 < 2 ^ 16)]
  simp only [Nat.one_ne_zero, if_false, startTimeout_eq]
  rw [pollLoop_skip demoCodes _ true storeDat0 _ 0 dat0_cnt dat0_nIn dat0_adv dat0_idem
    (by norm_num) (by norm_num) 0 fuel _ (by omega)
    (by intro k hk; simp at hk; subst hk; rfl)
    (fun j ha hb => hne _ j (by simp [advance_nCnt] at ha; omega)
      (by simp [advance_nCnt] at hb ⊢; omega))]
  simp only [SD_RESPONSE_ACTIVE, if_true]
  rw [pollLoop_skip demoCodes _ false storeDat0 _ 0xfe dat0_cnt dat0_nIn dat0_adv dat0_idem
    (by norm_num) (by norm_num) 0 fuel _ (by omega)
    (by intro k hk; simp at hk; subst hk; rfl)
    (fun j ha hb => hne _ j (by simp [advance_nCnt, dat0_cnt, advance_advance] at ha ⊢; omega)
      (by simp [advance_nCnt, dat0_cnt, advance_advance] at hb ⊢; omega))]
  simp only [SD_DATA_START_ID, if_true]
  obtain ⟨p', e, hin⟩ := readChecksum_stalls demoCodes (crcWire 0xff 0x12) fuel 0x12 1598
    (readData (crcWire 0xff 0x12) 1 0
      (storeDat0 254
        (advance (advance (storeDat0 0 (advance (advance demoPort 0 1) (0 + 1) (2 * (0 + 1)))) 0 1)
          (0 + 1) ((if false = true then 2 else 1) * (0 + 1)))))
    hf (by omega) (by norm_num) (by norm_num)
    (by intro k hk; simp at hk; interval_cases k <;> rfl)
    (fun k _ => by
      show (0, [0x00, 0xfe, 0x55, 0xff, 0x12].getD (3 + 2 + k) 0xff) = (0, 0xff)
      rw [List.getD_eq_default _ _ (by simp)])
    (fun i j h1 h2 h3 => hne i j (by omega) (by
      have : (5 : Nat) ≤ i := h1
      have : j < 5 + 3 := h3
      omega))
    (fun j hj => by
      show SD_WIGGLE_ROOM ≤ sub32 (deadline (crcWire 0xff 0x12) (5 + 3))
        ((crcWire 0xff 0x12).cnt (5 + 4 + j) % 2 ^ 32)
      rw [crcWire_sub 0xff 0x12 _ _ (by omega) (by omega)]
      unfold SD_WIGGLE_ROOM
      omega)
    (by
      show sub32 (deadline (crcWire 0xff 0x12) (5 + 3))
        ((crcWire 0xff 0x12).cnt (5 + 4 + 1598) % 2 ^ 32) < SD_WIGGLE_ROOM
      rw [crcWire_sub 0xff 0x12 _ _ (by omega) (by omega)]
      unfold SD_WIGGLE_ROOM
      omega)
  rw [e]
  exact ⟨p', rfl, by rw [hin]; rfl⟩

/-- C31: each of the two checksum loops of `SDReadBlock` is left only on a byte other than
0xFF. With the checksum bytes 34 12 the read of one data byte returns 0 after five bytes from
the device (ready token, start token, data byte, two checksum bytes). With the checksum bytes
FF 12 and an idle line (0xFF) after them, the first loop passes over the byte 0xFF and takes
0x12, the second loop polls the idle line until its timeout, and the read returns
`SD_READ_TIMEOUT` after 1604 bytes from the device. -/
theorem SDReadBlock_checksum_skips :
    (∃ p', SDReadBlock demoCodes (crcWire 0x34 0x12) 2000 1 demoPort = some (0, p') ∧
      p'.nIn = 5 ∧ p'.dat 0 = 0x55) ∧
    (∃ p', SDReadBlock demoCodes (crcWire 0xff 0x12) 2000 1 demoPort
      = some (demoCodes.SD_READ_TIMEOUT, p') ∧ p'.nIn = 1604) ∧
    demoCodes.SD_READ_TIMEOUT ≠ 0 :=
  ⟨⟨_, rfl, rfl, rfl⟩, crcWire_stalls 2000 (by norm_num), by decide⟩

/-- C15: on `fat32Boot` the 16-bit FAT-size field is zero and the FAT size, the 32-bit field
at 0x24, is 2000 sectors, so the formula gives `(2000000 - (32 + 2 * 2000 + 0)) / 8 = 249496`
clusters; `SDMount` takes the single byte at 0x24, 208, as FAT size and classifies on
`(2000000 - (32 + 2 * 208 + 0)) / 8 = 249944`. -/
theorem clusterCount_fat_size :
    SDConvertDat16 fat32Boot SD_FAT_SIZE_ADDR = 0 ∧
    SDConvertDat32 fat32Boot SD_FAT_SIZE_32_ADDR = 2000 ∧
    (bootFields (bootBuffer fat32Reads)).FATSize = 208 ∧
    clusterCountOf (bootFields (bootBuffer fat32Reads)) = some 249944 ∧
    clusterCount fat32Reads = (2000000 - (32 + 2 * 208 + 0)) / 8 ∧
    (2000000 - (32 + 2 * SDConvertDat32 fat32Boot SD_FAT_SIZE_32_ADDR + 0)) / 8 = 249496 := by
  refine ⟨by decide, by decide, by decide, by decide, by decide, by decide⟩

/-- C16: on `smallFat32Boot` the 16-bit FAT-size field is zero and the FAT size, the 32-bit
field at 0x24, is 256 sectors; `SDMount` returns 0 with `g_filesystem = SD_FAT_16` (33278
clusters) and `g_fatStart = 32`, and sets `g_rootAddr` to 32, the FAT start plus 2 times the
single byte at 0x24, which is 0, not to `32 + 2 * 256 = 544`. -/
theorem SDMount_root_fat_size :
    SDConvertDat16 smallFat32Boot SD_FAT_SIZE_ADDR = 0 ∧
    SDConvertDat32 smallFat32Boot SD_FAT_SIZE_32_ADDR = 256 ∧
    (bootFields (bootBuffer smallFat32Reads)).numFATs = 2 ∧
    clusterCount smallFat32Reads = 33278 ∧
    ∃ g', SDMount demoCodes smallFat32Reads demoGlobals = some (0, g') ∧
      g'.g_filesystem = SD_FAT_16 ∧ g'.g_fatStart = 32 ∧ g'.g_rootAddr = 32 :=
  ⟨by decide, by decide, by decide, by decide, ⟨_, rfl, by decide, by decide, by decide⟩⟩

end SD

/-! ## fatfile.h -/

namespace FatFile

theorem Succeeds.append {d : Driver} {t : List Event} (h : Succeeds d t) (l : List Event) :
    Succeeds d (t ++ l) := by
  intro k
  rw [List.append_assoc]
  exact h _

theorem dataReads_append (l₁ l₂ : List Event) :
    dataReads (l₁ ++ l₂) = dataReads l₁ + dataReads l₂ := by
  induction l₁ with
  | nil => simp [dataReads]
  | cons e l ih =>
    cases e <;> simp [dataReads, ih] <;> omega

theorem chain_succ (d : Driver) (s : State) (k : Nat) :
    chain d s (k + 1) = d.fat (chain d s k) := by
  simp [chain, Function.iterate_succ_apply']

theorem chain_congr (d : Driver) (s s' : State) (h : s'.firstTier2 = s.firstTier2) (k : Nat) :
    chain d s' k = chain d s k := by
  simp [chain, h]

theorem getMeta_setMeta (s : State) (r : MetaRef) (m : MetaData) :
    getMeta (setMeta s r m) r = m := by
  cases r <;> simp [getMeta, setMeta]

theorem Walked.refl (s : State) : Walked s s :=
  ⟨rfl, rfl, rfl, rfl, rfl, rfl, [], by simp, rfl⟩

theorem Walked.trans {a b c : State} (h1 : Walked a b) (h2 : Walked b c) : Walked a c := by
  obtain ⟨a1, a2, a3, a4, a5, a6, l1, a7, a8⟩ := h1
  obtain ⟨b1, b2, b3, b4, b5, b6, l2, b7, b8⟩ := h2
  refine ⟨b1.trans a1, b2.trans a2, b3.trans a3, b4.trans a4, b5.trans a5, b6.trans a6,
    l1 ++ l2, ?_, ?_⟩
  · rw [b7, a7, List.append_assoc]
  · rw [dataReads_append, a8, b8]

theorem setMeta_trace (s : State) (r : MetaRef) (m : MetaData) :
    (setMeta s r m).trace = s.trace := by
  cases r <;> rfl

theorem setMeta_m_curTier2 (s : State) (r : MetaRef) (m : MetaData) :
    (setMeta s r m).m_curTier2 = s.m_curTier2 := by
  cases r <;> rfl

theorem setMeta_walked (s : State) (r : MetaRef) (m : MetaData) : Walked s (setMeta s r m) := by
  cases r <;> exact ⟨rfl, rfl, rfl, rfl, rfl, rfl, [], by simp [setMeta], rfl⟩

theorem incTier2_walked (s : State) : Walked s (incTier2 s) :=
  ⟨rfl, rfl, rfl, rfl, rfl, rfl, [], by simp [incTier2], rfl⟩

theorem getMeta_incTier2 (s : State) (r : MetaRef) : getMeta (incTier2 s) r = getMeta s r := by
  cases r <;> rfl

theorem flush_walked (d : Driver) (s : State) : Walked s (flush d s).2 :=
  ⟨rfl, rfl, rfl, rfl, rfl, rfl, [Event.flush s.bufMeta (getMeta s s.bufMeta)], rfl, rfl⟩

theorem flush_m_curTier2 (d : Driver) (s : State) : (flush d s).2.m_curTier2 = s.m_curTier2 := rfl

theorem getMeta_flush (d : Driver) (s : State) (r : MetaRef) :
    getMeta (flush d s).2 r = getMeta s r := by
  cases r <;> rfl

theorem get_fat_value_walked (d : Driver) (r : MetaRef) (s : State) :
    Walked s (get_fat_value d r s).2 := by
  unfold get_fat_value
  simp only []
  split
  · exact ⟨rfl, rfl, rfl, rfl, rfl, rfl, [Event.get_fat_value (getMeta s r).curTier2], rfl, rfl⟩
  · exact Walked.trans
      (⟨rfl, rfl, rfl, rfl, rfl, rfl, [Event.get_fat_value (getMeta s r).curTier2], rfl, rfl⟩ :
        Walked s { s with trace := s.trace ++ [Event.get_fat_value (getMeta s r).curTier2] })
      (setMeta_walked _ _ _)

theorem get_fat_value_m_curTier2 (d : Driver) (r : MetaRef) (s : State) :
    (get_fat_value d r s).2.m_curTier2 = s.m_curTier2 := by
  unfold get_fat_value
  simp only []
  split
  · rfl
  · rw [setMeta_m_curTier2]

theorem get_fat_value_ok (d : Driver) (r : MetaRef) (s : State) (hok : Succeeds d s.trace) :
    (get_fat_value d r s).1 = 0 ∧
      getMeta (get_fat_value d r s).2 r
        = { getMeta s r with nextTier2 := d.fat (getMeta s r).curTier2 } ∧
      (get_fat_value d r s).2.trace
        = s.trace ++ [Event.get_fat_value (getMeta s r).curTier2] := by
  have h0 := hok [Event.get_fat_value (getMeta s r).curTier2]
  have e : get_fat_value d r s = (0, setMeta
      { s with trace := s.trace ++ [Event.get_fat_value (getMeta s r).curTier2] } r
      { getMeta s r with nextTier2 := d.fat (getMeta s r).curTier2 }) := by
    simp [get_fat_value, h0]
  rw [e]
  exact ⟨rfl, getMeta_setMeta _ _ _, by rw [setMeta_trace]⟩

theorem nextCluster_walked (d : Driver) (r : MetaRef) (s : State) :
    Walked s (nextCluster d r s).2 :=
  Walked.trans (setMeta_walked _ _ _) (get_fat_value_walked _ _ _)

theorem nextCluster_m_curTier2 (d : Driver) (r : MetaRef) (s : State) :
    (nextCluster d r s).2.m_curTier2 = s.m_curTier2 := by
  unfold nextCluster
  rw [get_fat_value_m_curTier2, setMeta_m_curTier2]

theorem nextCluster_ok (d : Driver) (r : MetaRef) (s : State) (hok : Succeeds d s.trace) :
    (nextCluster d r s).1 = 0 ∧
      getMeta (nextCluster d r s).2 r
        = { getMeta s r with
            curTier2 := (getMeta s r).nextTier2
            nextTier2 := d.fat (getMeta s r).nextTier2 } ∧
      (nextCluster d r s).2.trace
        = s.trace ++ [Event.get_fat_value (getMeta s r).nextTier2] := by
  have g := get_fat_value_ok d r (setMeta s r
    { getMeta s r with curTier2 := (getMeta s r).nextTier2 }) (by rw [setMeta_trace]; exact hok)
  rw [getMeta_setMeta, setMeta_trace] at g
  exact g

theorem lookups_congr (d : Driver) (s s' : State) (h : s'.firstTier2 = s.firstTier2) :
    ∀ (n k : Nat), lookups d s' k n = lookups d s k n := by
  intro n
  induction n with
  | zero => intro k; rfl
  | succ n ih => intro k; simp [lookups, ih, chain_congr d s s' h]

theorem dataReads_lookups (d : Driver) (s : State) :
    ∀ (n k : Nat), dataReads (lookups d s k n) = 0 := by
  intro n
  induction n with
  | zero => intro k; rfl
  | succ n ih => intro k; simp [lookups, dataReads, ih]

theorem walkForward_walked (d : Driver) (r : MetaRef) (requiredCluster : Nat) :
    ∀ (fuel : Nat) (s : State), Walked s (walkForward d r requiredCluster fuel s).2 := by
  intro fuel
  induction fuel with
  | zero => intro s; exact Walked.refl s
  | succ fuel ih =>
    intro s
    rw [walkForward]
    split
    · exact nextCluster_walked d r s
    · split
      · exact Walked.trans (Walked.trans (nextCluster_walked d r s) (incTier2_walked _)) (ih _)
      · exact Walked.trans (nextCluster_walked d r s) (incTier2_walked _)

theorem walkFromStart_walked (d : Driver) (r : MetaRef) :
    ∀ (n : Nat) (s : State), Walked s (walkFromStart d r n s).2 := by
  intro n
  induction n with
  | zero => intro s; exact Walked.refl s
  | succ n ih =>
    intro s
    rw [walkFromStart]
    split
    · exact Walked.trans (incTier2_walked _) (nextCluster_walked d r _)
    · exact Walked.trans (Walked.trans (incTier2_walked _) (nextCluster_walked d r _)) (ih _)

theorem walkForward_ok (d : Driver) (r : MetaRef) (requiredCluster : Nat) :
    ∀ (n : Nat) (s : State), s.m_curTier2 + (n + 1) = requiredCluster →
      Succeeds d s.trace → (getMeta s r).curTier2 = chain d s s.m_curTier2 →
      (getMeta s r).nextTier2 = d.fat (getMeta s r).curTier2 →
      (walkForward d r requiredCluster (n + 1) s).1 = 0 ∧
        (walkForward d r requiredCluster (n + 1) s).2.m_curTier2 = requiredCluster ∧
        getMeta (walkForward d r requiredCluster (n + 1) s).2 r =
          { getMeta s r with
            curTier2 := chain d s requiredCluster
            nextTier2 := d.fat (chain d s requiredCluster) } ∧
        (walkForward d r requiredCluster (n + 1) s).2.trace
          = s.trace ++ lookups d s s.m_curTier2 (n + 1) := by
  intro n
  induction n with
  | zero =>
    intro s hn hok hc hnx
    obtain ⟨g1, g2, g3⟩ := nextCluster_ok d r s hok
    have g4 := nextCluster_m_curTier2 d r s
    have hlt : ¬ ((incTier2 (nextCluster d r s).2).m_curTier2 < requiredCluster) := by
      simp only [incTier2, g4]; omega
    rw [walkForward]
    simp only [g1, ne_eq, not_true_eq_false, if_false, hlt]
    refine ⟨trivial, ?_, ?_, ?_⟩
    · simp only [incTier2, g4]; omega
    · rw [getMeta_incTier2, g2, ← hn, chain_succ, ← hc, ← hnx]
    · simp only [incTier2, g3, lookups, chain_succ, ← hc, ← hnx]
  | succ n ih =>
    intro s hn hok hc hnx
    obtain ⟨g1, g2, g3⟩ := nextCluster_ok d r s hok
    have g4 := nextCluster_m_curTier2 d r s
    have g5 := nextCluster_walked d r s
    have hlt : (incTier2 (nextCluster d r s).2).m_curTier2 < requiredCluster := by
      simp only [incTier2, g4]; omega
    have hfirst : (incTier2 (nextCluster d r s).2).firstTier2 = s.firstTier2 := g5.2.2.1
    have hm : (incTier2 (nextCluster d r s).2).m_curTier2 = s.m_curTier2 + 1 := by
      simp only [incTier2, g4]
    have ih' := ih (incTier2 (nextCluster d r s).2) (by rw [hm]; omega)
      (by
        have : (incTier2 (nextCluster d r s).2).trace = (nextCluster d r s).2.trace := rfl
        rw [this, g3]
        exact hok.append _)
      (by rw [getMeta_incTier2, g2, hm, chain_congr d s _ hfirst, chain_succ, ← hc, ← hnx])
      (by rw [getMeta_incTier2, g2])
    obtain ⟨i1, i2, i3, i4⟩ := ih'
    rw [walkForward]
    simp only [g1, ne_eq, not_true_eq_false, if_false, hlt, if_true]
    refine ⟨i1, i2, ?_, ?_⟩
    · rw [i3, getMeta_incTier2, g2, chain_congr d s _ hfirst]
    · rw [i4, hm, lookups_congr d s _ hfirst]
      have : (incTier2 (nextCluster d r s).2).trace = (nextCluster d r s).2.trace := rfl
      rw [this, g3, List.append_assoc]
      simp only [lookups, List.singleton_append, chain_succ, ← hc, ← hnx]

theorem walkFromStart_ok (d : Driver) (r : MetaRef) :
    ∀ (n : Nat) (s : State), Succeeds d s.trace →
      (getMeta s r).curTier2 = chain d s s.m_curTier2 →
      (getMeta s r).nextTier2 = d.fat (getMeta s r).curTier2 →
      (walkFromStart d r n s).1 = 0 ∧
        (walkFromStart d r n s).2.m_curTier2 = s.m_curTier2 + n ∧
        getMeta (walkFromStart d r n s).2 r =
          { getMeta s r with
            curTier2 := chain d s (s.m_curTier2 + n)
            nextTier2 := d.fat (chain d s (s.m_curTier2 + n)) } ∧
        (walkFromStart d r n s).2.trace = s.trace ++ lookups d s s.m_curTier2 n := by
  intro n
  induction n with
  | zero =>
    intro s hok hc hnx
    refine ⟨rfl, rfl, ?_, by simp [walkFromStart, lookups]⟩
    simp only [walkFromStart, Nat.add_zero, ← hc, ← hnx]
  | succ n ih =>
    intro s hok hc hnx
    obtain ⟨g1, g2, g3⟩ := nextCluster_ok d r (incTier2 s) hok
    have g4 := nextCluster_m_curTier2 d r (incTier2 s)
    have g5 := Walked.trans (incTier2_walked s) (nextCluster_walked d r (incTier2 s))
    have hfirst : (nextCluster d r (incTier2 s)).2.firstTier2 = s.firstTier2 := g5.2.2.1
    have hm : (nextCluster d r (incTier2 s)).2.m_curTier2 = s.m_curTier2 + 1 := by
      rw [g4]; rfl
    rw [getMeta_incTier2] at g2 g3
    have ht : (incTier2 s).trace = s.trace := rfl
    rw [ht] at g3
    have ih' := ih (nextCluster d r (incTier2 s)).2 (by rw [g3]; exact hok.append _)
      (by rw [g2, hm, chain_congr d s _ hfirst, chain_succ, ← hc, ← hnx])
      (by rw [g2])
    obtain ⟨i1, i2, i3, i4⟩ := ih'
    rw [walkFromStart]
    simp only [g1, ne_eq, not_true_eq_false, if_false]
    refine ⟨i1, by rw [i2, hm]; omega, ?_, ?_⟩
    · rw [i3, g2, hm, chain_congr d s _ hfirst, show s.m_curTier2 + 1 + n = s.m_curTier2 + (n + 1)
        by omega]
    · rw [i4, hm, lookups_congr d s _ hfirst, g3, List.append_assoc]
      simp only [lookups, List.singleton_append, chain_succ, ← hc, ← hnx]

theorem resetTier2_walked (s : State) : Walked s (resetTier2 s) :=
  ⟨rfl, rfl, rfl, rfl, rfl, rfl, [], by simp [resetTier2], rfl⟩

theorem getMeta_resetTier2 (s : State) (r : MetaRef) : getMeta (resetTier2 s) r = getMeta s r := by
  cases r <;> rfl

theorem rewind_walked (d : Driver) (r : MetaRef) (s : State) : Walked s (rewind d r s).2 :=
  Walked.trans (Walked.trans (resetTier2_walked s) (setMeta_walked _ _ _))
    (get_fat_value_walked d r _)

theorem rewind_ok (d : Driver) (r : MetaRef) (s : State) (hok : Succeeds d s.trace) :
    (rewind d r s).1 = 0 ∧ (rewind d r s).2.m_curTier2 = 0 ∧
      getMeta (rewind d r s).2 r
        = { getMeta s r with curTier2 := s.firstTier2, nextTier2 := d.fat s.firstTier2 } ∧
      (rewind d r s).2.trace = s.trace ++ [Event.get_fat_value s.firstTier2] := by
  have g := get_fat_value_ok d r (setMeta (resetTier2 s) r
    { getMeta (resetTier2 s) r with curTier2 := (resetTier2 s).firstTier2 })
    (by rw [setMeta_trace]; exact hok)
  have g4 := get_fat_value_m_curTier2 d r (setMeta (resetTier2 s) r
    { getMeta (resetTier2 s) r with curTier2 := (resetTier2 s).firstTier2 })
  rw [getMeta_setMeta, setMeta_trace, getMeta_resetTier2] at g
  rw [setMeta_m_curTier2] at g4
  exact ⟨g.1, g4, g.2.1, g.2.2⟩

theorem seekCluster_walked (d : Driver) (requiredCluster : Nat) (r : MetaRef) (s : State) :
    Walked s (seekCluster d requiredCluster r s).2 := by
  unfold seekCluster
  split
  · simp only []
    split
    · exact walkForward_walked _ _ _ _ _
    · exact Walked.trans (walkForward_walked _ _ _ _ _) (setMeta_walked _ _ _)
  · split
    · simp only []
      split
      · exact rewind_walked d r s
      · split
        · exact Walked.trans (rewind_walked d r s) (walkFromStart_walked _ _ _ _)
        · exact Walked.trans (Walked.trans (rewind_walked d r s) (walkFromStart_walked _ _ _ _))
            (setMeta_walked _ _ _)
    · exact Walked.refl s

theorem seekCluster_ok (d : Driver) (requiredCluster : Nat) (r : MetaRef) (s : State)
    (hok : Succeeds d s.trace) (hc : Consistent d s r) :
    (seekCluster d requiredCluster r s).1 = 0 ∧
      (seekCluster d requiredCluster r s).2.m_curTier2 = requiredCluster ∧
      getMeta (seekCluster d requiredCluster r s).2 r =
        { curTier2 := chain d s requiredCluster
          nextTier2 := d.fat (chain d s requiredCluster)
          curTier2Addr := d.compute_tier1_from_tier2 (chain d s requiredCluster)
          curTier1Offset := (getMeta s r).curTier1Offset } ∧
      (seekCluster d requiredCluster r s).2.trace = s.trace ++ seekLookups d s requiredCluster := by
  obtain ⟨c1, c2, c3⟩ := hc
  unfold seekCluster seekLookups
  by_cases hlt : s.m_curTier2 < requiredCluster
  · obtain ⟨n, hn⟩ : ∃ n, requiredCluster - s.m_curTier2 = n + 1 :=
      ⟨requiredCluster - s.m_curTier2 - 1, by omega⟩
    obtain ⟨w1, w2, w3, w4⟩ := walkForward_ok d r requiredCluster n s (by omega) hok c1 c2
    simp only [hlt, if_true, hn, w1, ne_eq, not_true_eq_false, if_false]
    refine ⟨trivial, ?_, ?_, ?_⟩
    · rw [setMeta_m_curTier2, w2]
    · rw [getMeta_setMeta, w3]
    · rw [setMeta_trace, w4]
  · by_cases hgt : s.m_curTier2 > requiredCluster
    · simp only [hlt, if_false, hgt, if_true]
      obtain ⟨g1, g4, g2, g3⟩ := rewind_ok d r s hok
      have hfirst := (rewind_walked d r s).2.2.1
      obtain ⟨w1, w2, w3, w4⟩ := walkFromStart_ok d r requiredCluster _
        (by rw [g3]; exact hok.append _)
        (by rw [g2, g4]; simp [chain, hfirst])
        (by rw [g2])
      simp only [g1, ne_eq, not_true_eq_false, if_false, w1]
      refine ⟨trivial, ?_, ?_, ?_⟩
      · rw [setMeta_m_curTier2, w2, g4]; omega
      · rw [getMeta_setMeta, w3, g2, g4, chain_congr d s _ hfirst]
        simp
      · rw [setMeta_trace, w4, g3, g4, lookups_congr d s _ hfirst, List.append_assoc]
        rfl
    · have he : s.m_curTier2 = requiredCluster := by omega
      simp only [hlt, if_false, hgt]
      refine ⟨trivial, he, ?_, by simp⟩
      rw [← he, ← c1, ← c2, ← c3]

theorem flush_trace (d : Driver) (s : State) :
    (flush d s).2.trace = s.trace ++ [Event.flush s.bufMeta (getMeta s s.bufMeta)] := rfl

theorem flush_firstTier2 (d : Driver) (s : State) : (flush d s).2.firstTier2 = s.firstTier2 := rfl

theorem flush_ok (d : Driver) (s : State) (hok : Succeeds d s.trace) : (flush d s).1 = 0 :=
  hok _

theorem consistent_flush (d : Driver) (s : State) (r : MetaRef) (h : Consistent d s r) :
    Consistent d (flush d s).2 r := by
  unfold Consistent at h ⊢
  rw [getMeta_flush, flush_m_curTier2, chain_congr d s _ (flush_firstTier2 d s)]
  exact h

theorem read_data_block_ok (d : Driver) (a : Nat) (s : State) (hok : Succeeds d s.trace) :
    read_data_block d a s = (0, { s with
      trace := s.trace ++ [Event.read_data_block a]
      buf := d.sector (s.trace ++ [Event.read_data_block a]) }) := by
  have h0 := hok [Event.read_data_block a]
  simp [read_data_block, h0]

theorem getMeta_setTier1 (s : State) (v : Nat) (r : MetaRef) :
    getMeta (setTier1 s v) r = getMeta s r := by
  cases r <;> rfl

theorem readRequired_ok (d : Driver) (requiredSector shift : Nat) (r : MetaRef) (s : State)
    (hok : Succeeds d s.trace) (hshift : shift ≤ 8) :
    (readRequired d requiredSector shift r s).1 = 0 ∧
      (readRequired d requiredSector shift r s).2.m_curTier2 = s.m_curTier2 ∧
      getMeta (readRequired d requiredSector shift r s).2 r
        = { getMeta s r with curTier1Offset := requiredSector % 2 ^ shift } ∧
      (readRequired d requiredSector shift r s).2.m_curTier1 = requiredSector ∧
      (readRequired d requiredSector shift r s).2.trace = s.trace ++ [Event.read_data_block
        (add32 (getMeta s r).curTier2Addr (requiredSector % 2 ^ shift))] ∧
      (readRequired d requiredSector shift r s).2.buf
        = d.sector (readRequired d requiredSector shift r s).2.trace := by
  have hlt : requiredSector % 2 ^ shift < 2 ^ 8 :=
    lt_of_lt_of_le (Nat.mod_lt _ (by positivity)) (Nat.pow_le_pow_right (by norm_num) hshift)
  have hoff : requiredSector % (1 <<< shift) % 2 ^ 8 = requiredSector % 2 ^ shift := by
    rw [Nat.one_shiftLeft, Nat.mod_eq_of_lt hlt]
  unfold readRequired
  simp only [hoff, getMeta_setTier1, getMeta_setMeta]
  rw [read_data_block_ok d _ _ (by
    have : (setTier1 (setMeta s r { getMeta s r with
      curTier1Offset := requiredSector % 2 ^ shift }) requiredSector).trace = s.trace := by
      show (setMeta s r _).trace = s.trace
      rw [setMeta_trace]
    rw [this]; exact hok)]
  have ht : (setTier1 (setMeta s r { getMeta s r with
      curTier1Offset := requiredSector % 2 ^ shift }) requiredSector).trace = s.trace := by
    show (setMeta s r _).trace = s.trace
    rw [setMeta_trace]
  refine ⟨rfl, ?_, ?_, rfl, ?_, ?_⟩
  · show (setMeta s r _).m_curTier2 = s.m_curTier2
    rw [setMeta_m_curTier2]
  · have : ∀ (q : State) (t : List Event) (b : Bytes),
        getMeta { q with trace := t, buf := b } r = getMeta q r := by
      intro q t b; cases r <;> rfl
    rw [this, getMeta_setTier1, getMeta_setMeta]
  · simp only [ht]
  · simp only [ht]

theorem read_data_block_effect (d : Driver) (a : Nat) (s : State) :
    (read_data_block d a s).2.bufMeta = s.bufMeta ∧ (read_data_block d a s).2.m_ptr = s.m_ptr ∧
      (read_data_block d a s).2.m_curTier1 = s.m_curTier1 ∧
      (read_data_block d a s).2.trace = s.trace ++ [Event.read_data_block a] := by
  unfold read_data_block
  simp only []
  split <;> exact ⟨rfl, rfl, rfl, rfl⟩

theorem reload_buffer_effect (d : Driver) (s : State) :
    (reload_buffer d s).2.bufMeta = s.bufMeta ∧ (reload_buffer d s).2.m_ptr = s.m_ptr ∧
      (reload_buffer d s).2.m_curTier1 = s.m_curTier1 ∧
      (reload_buffer d s).2.trace
        = s.trace ++ [Event.reload_buffer s.bufMeta (getMeta s s.bufMeta)] := by
  unfold reload_buffer
  simp only []
  split <;> exact ⟨rfl, rfl, rfl, rfl⟩

theorem readRequired_effect (d : Driver) (requiredSector shift : Nat) (r : MetaRef) (s : State) :
    (readRequired d requiredSector shift r s).2.bufMeta = s.bufMeta ∧
      (readRequired d requiredSector shift r s).2.m_ptr = s.m_ptr ∧
      (readRequired d requiredSector shift r s).2.m_curTier1 = requiredSector ∧
      ∃ a, (readRequired d requiredSector shift r s).2.trace
        = s.trace ++ [Event.read_data_block a] := by
  have w := setMeta_walked s r { getMeta s r with
      curTier1Offset := requiredSector % (1 <<< shift) % 2 ^ 8 }
  have ht : ∀ m, (setTier1 (setMeta s r m) requiredSector).trace = s.trace := by
    intro m
    show (setMeta s r m).trace = s.trace
    rw [setMeta_trace]
  unfold readRequired
  simp only []
  generalize hA : add32 _ _ = a
  obtain ⟨e1, e2, e3, e4⟩ := read_data_block_effect d a
    (setTier1 (setMeta s r { getMeta s r with
      curTier1Offset := requiredSector % (1 <<< shift) % 2 ^ 8 }) requiredSector)
  exact ⟨e1.trans w.1, e2.trans w.2.1, e3, a, by rw [e4, ht]⟩

theorem load_sector_from_offset_effect (d : Driver) (requiredSector : Nat) (r : MetaRef)
    (s : State) :
    (load_sector_from_offset d requiredSector r s).2.bufMeta = s.bufMeta ∧
      (load_sector_from_offset d requiredSector r s).2.m_ptr = s.m_ptr ∧
      ∃ l, (load_sector_from_offset d requiredSector r s).2.trace
          = s.trace ++ Event.flush s.bufMeta (getMeta s s.bufMeta) :: l ∧
        dataReads l ≤ 1 ∧
        ((load_sector_from_offset d requiredSector r s).1 = 0 →
          dataReads l = 1 ∧
          (load_sector_from_offset d requiredSector r s).2.m_curTier1 = requiredSector) := by
  have hw := seekCluster_walked d (requiredSector >>> s.m_tier1sPerTier2Shift) r (flush d s).2
  obtain ⟨w1, w2, -, -, -, -, l, w3, w4⟩ := hw
  obtain ⟨q1, q2, q3, a, q4⟩ := readRequired_effect d requiredSector s.m_tier1sPerTier2Shift r
    (seekCluster d (requiredSector >>> s.m_tier1sPerTier2Shift) r (flush d s).2).2
  unfold load_sector_from_offset
  simp only []
  by_cases hf : (flush d s).1 = 0
  · by_cases hs : (seekCluster d (requiredSector >>> s.m_tier1sPerTier2Shift) r (flush d s).2).1 = 0
    · have hfin : ((if (readRequired d requiredSector s.m_tier1sPerTier2Shift r
            (seekCluster d (requiredSector >>> s.m_tier1sPerTier2Shift) r (flush d s).2).2).1 ≠ 0
          then readRequired d requiredSector s.m_tier1sPerTier2Shift r
            (seekCluster d (requiredSector >>> s.m_tier1sPerTier2Shift) r (flush d s).2).2
          else (0, (readRequired d requiredSector s.m_tier1sPerTier2Shift r
            (seekCluster d (requiredSector >>> s.m_tier1sPerTier2Shift) r (flush d s).2).2).2)) :
            Nat × State).2 = (readRequired d requiredSector s.m_tier1sPerTier2Shift r
            (seekCluster d (requiredSector >>> s.m_tier1sPerTier2Shift) r (flush d s).2).2).2 := by
        split <;> rfl
      simp only [hf, hs, ne_eq, not_true_eq_false, if_false, hfin]
      refine ⟨q1.trans w1, q2.trans w2, l ++ [Event.read_data_block a], ?_, ?_, ?_⟩
      · rw [q4, w3, flush_trace]; simp
      · rw [dataReads_append, w4]; simp [dataReads]
      · intro _
        exact ⟨by rw [dataReads_append, w4]; simp [dataReads], q3⟩
    · simp only [hf, hs, ne_eq, not_true_eq_false, if_false, not_false_eq_true, if_true]
      refine ⟨w1, w2, l, ?_, by omega, fun h => h.elim⟩
      rw [w3, flush_trace]; simp
  · simp only [hf, ne_eq, not_false_eq_true, if_true]
    exact ⟨rfl, rfl, [], rfl, by simp [dataReads], fun h => h.elim⟩

theorem status_norm (r : Nat × State) : (if r.1 ≠ 0 then r else (0, r.2)) = r := by
  by_cases h : r.1 = 0
  · simp only [h, ne_eq, not_true_eq_false, if_false]
    exact Prod.ext h.symm rfl
  · simp only [h, ne_eq, not_false_eq_true, if_true]

theorem load_sector_under_ptr_eq (d : Driver) (s : State) :
    load_sector_under_ptr d s =
      if s.bufMeta = MetaRef.contentMeta then
        if requiredSectorOf d s = s.m_curTier1 then (0, s)
        else load_sector_from_offset d (requiredSectorOf d s) MetaRef.contentMeta s
      else if (flush d s).1 ≠ 0 then flush d s
      else if requiredSectorOf d s = s.m_curTier1 then
        reload_buffer d (rebind (flush d s).2 MetaRef.contentMeta)
      else
        load_sector_from_offset d (requiredSectorOf d s) MetaRef.contentMeta
          (rebind (flush d s).2 MetaRef.contentMeta) := by
  unfold load_sector_under_ptr
  by_cases hb : s.bufMeta = MetaRef.contentMeta
  · by_cases hr : requiredSectorOf d s = s.m_curTier1
    · simp [hb, hr, NO_ERROR]
    · simp only [hb, hr, ne_eq, not_true_eq_false, if_false, if_true, not_false_eq_true, NO_ERROR]
      by_cases hl : (load_sector_from_offset d (requiredSectorOf d s)
          MetaRef.contentMeta s).1 = 0
      · simp only [hl, if_true, Bool.false_eq_true, if_false]
        exact Prod.ext hl.symm rfl
      · simp only [hl, if_false, not_false_eq_true, if_true]
  · by_cases hf : (flush d s).1 = 0
    · have hm : (rebind (flush d s).2 MetaRef.contentMeta).m_curTier1 = s.m_curTier1 := rfl
      have hbm : (rebind (flush d s).2 MetaRef.contentMeta).bufMeta = MetaRef.contentMeta := rfl
      by_cases hr : requiredSectorOf d s = s.m_curTier1
      · simp only [hb, hf, hr, hm, ne_eq, not_true_eq_false, if_false, if_true,
          not_false_eq_true, NO_ERROR]
        exact status_norm _
      · simp only [hb, hf, hr, hm, hbm, ne_eq, not_true_eq_false, if_false, if_true,
          not_false_eq_true, NO_ERROR]
        by_cases hl : (load_sector_from_offset d (requiredSectorOf d s)
            MetaRef.contentMeta (rebind (flush d s).2 MetaRef.contentMeta)).1 = 0
        · simp only [hl, if_true, Bool.false_eq_true, if_false]
          exact Prod.ext hl.symm rfl
        · simp only [hl, if_false, not_false_eq_true, if_true]
    · simp only [hb, hf, ne_eq, not_false_eq_true, if_true, if_false]

/-- What `load_sector_under_ptr` does to the binding, the position and the history, in each of
its outcomes: the position is kept; on success the buffer is bound to the content metadata and
holds the required sector; the calls added to the history are listed with their number of
data-sector reads. -/
theorem load_sector_under_ptr_effect (d : Driver) (s : State) :
    (load_sector_under_ptr d s).2.m_ptr = s.m_ptr ∧
    ((load_sector_under_ptr d s).1 = 0 →
      (load_sector_under_ptr d s).2.bufMeta = MetaRef.contentMeta ∧
      (load_sector_under_ptr d s).2.m_curTier1 = requiredSectorOf d s) ∧
    (s.bufMeta = MetaRef.contentMeta → requiredSectorOf d s = s.m_curTier1 →
      load_sector_under_ptr d s = (0, s)) ∧
    (s.bufMeta = MetaRef.contentMeta → ∃ l, (load_sector_under_ptr d s).2.trace = s.trace ++ l ∧
      dataReads l ≤ 1 ∧
      ((load_sector_under_ptr d s).1 = 0 → requiredSectorOf d s ≠ s.m_curTier1 →
        dataReads l = 1)) ∧
    (s.bufMeta ≠ MetaRef.contentMeta → ∃ l, (load_sector_under_ptr d s).2.trace
        = s.trace ++ Event.flush s.bufMeta (getMeta s s.bufMeta) :: l ∧
      dataReads l ≤ 1 ∧ ((load_sector_under_ptr d s).1 = 0 → dataReads l = 1)) := by
  rw [load_sector_under_ptr_eq]
  by_cases hb : s.bufMeta = MetaRef.contentMeta
  · by_cases hr : requiredSectorOf d s = s.m_curTier1
    · rw [if_pos hb, if_pos hr]
      exact ⟨rfl, fun _ => ⟨hb, hr.symm⟩, fun _ _ => rfl,
        fun _ => ⟨[], by simp, by simp [dataReads], fun _ h => (h hr).elim⟩,
        fun h => (h hb).elim⟩
    · obtain ⟨e1, e2, l, e3, e4, e5⟩ :=
        load_sector_from_offset_effect d (requiredSectorOf d s) MetaRef.contentMeta s
      rw [if_pos hb, if_neg hr]
      refine ⟨e2, fun h => ⟨e1.trans hb, (e5 h).2⟩, fun _ h => (hr h).elim, fun _ => ?_,
        fun h => (h hb).elim⟩
      refine ⟨Event.flush s.bufMeta (getMeta s s.bufMeta) :: l, e3, ?_, fun h _ => ?_⟩
      · simpa [dataReads] using e4
      · simpa [dataReads] using (e5 h).1
  · by_cases hf : (flush d s).1 = 0
    · have hf' : ¬ (flush d s).1 ≠ 0 := fun h => h hf
      by_cases hr : requiredSectorOf d s = s.m_curTier1
      · obtain ⟨e1, e2, e3, e4⟩ := reload_buffer_effect d (rebind (flush d s).2 MetaRef.contentMeta)
        rw [if_neg hb, if_neg hf', if_pos hr]
        refine ⟨e2, fun _ => ⟨e1, e3.trans hr.symm⟩, fun h => (hb h).elim, fun h => (hb h).elim,
          fun _ => ?_⟩
        refine ⟨[Event.reload_buffer MetaRef.contentMeta
          (getMeta (rebind (flush d s).2 MetaRef.contentMeta) MetaRef.contentMeta)], ?_,
          by simp [dataReads], fun _ => by simp [dataReads]⟩
        rw [e4]
        show s.trace ++ [_] ++ [_] = _
        simp
        exact ⟨rfl, rfl⟩
      · obtain ⟨e1, e2, l, e3, e4, e5⟩ := load_sector_from_offset_effect d (requiredSectorOf d s)
          MetaRef.contentMeta (rebind (flush d s).2 MetaRef.contentMeta)
        rw [if_neg hb, if_neg hf', if_neg hr]
        refine ⟨e2, fun h => ⟨e1, (e5 h).2⟩, fun h => (hb h).elim, fun h => (hb h).elim,
          fun _ => ?_⟩
        refine ⟨Event.flush MetaRef.contentMeta
          (getMeta (rebind (flush d s).2 MetaRef.contentMeta) MetaRef.contentMeta) :: l,
          ?_, ?_, fun h => ?_⟩
        · rw [e3]
          show s.trace ++ [_] ++ _ = _
          simp
          exact ⟨rfl, rfl⟩
        · simpa [dataReads] using e4
        · simpa [dataReads] using (e5 h).1
    · have hf' : (flush d s).1 ≠ 0 := hf
      rw [if_neg hb, if_pos hf']
      exact ⟨rfl, fun h => (hf h).elim, fun h => (hb h).elim, fun h => (hb h).elim,
        fun _ => ⟨[], rfl, by simp [dataReads], fun h => (hf h).elim⟩⟩

theorem setMeta_bufMeta (s : State) (r : MetaRef) (m : MetaData) :
    (setMeta s r m).bufMeta = s.bufMeta := by
  cases r <;> rfl

theorem lookAhead_eq (d : Driver) (s : State)
    (hS : d.is_eoc (getMeta s s.bufMeta).nextTier2 = false) :
    lookAhead d s = nextCluster d s.bufMeta s := by
  unfold lookAhead nextCluster
  simp only [setMeta_bufMeta, getMeta_setMeta, hS]
  simp

theorem read_data_block_getMeta (d : Driver) (a : Nat) (s : State) (r : MetaRef) :
    getMeta (read_data_block d a s).2 r = getMeta s r := by
  unfold read_data_block
  simp only []
  split <;> cases r <;> rfl

theorem enterCluster_ok (d : Driver) (s : State) (hok : Succeeds d s.trace) :
    (enterCluster d s).1 = 0 ∧
    getMeta (enterCluster d s).2 s.bufMeta =
      { getMeta s s.bufMeta with
        curTier2Addr := d.compute_tier1_from_tier2 (getMeta s s.bufMeta).curTier2
        curTier1Offset := 0 } ∧
    (enterCluster d s).2.trace = s.trace ++
      [Event.read_data_block (d.compute_tier1_from_tier2 (getMeta s s.bufMeta).curTier2)] ∧
    (enterCluster d s).2.buf = d.sector (enterCluster d s).2.trace := by
  unfold enterCluster
  simp only [setMeta_bufMeta, getMeta_setMeta]
  refine ⟨?_, ?_, ?_, ?_⟩
  · rw [read_data_block_ok d _ _ (by rw [setMeta_trace]; exact hok)]
  · rw [read_data_block_getMeta, getMeta_setMeta]
  · rw [(read_data_block_effect d _ _).2.2.2, setMeta_trace]
  · rw [read_data_block_ok d _ _ (by rw [setMeta_trace]; exact hok)]

theorem inc_cluster_ok (d : Driver) (s : State)
    (hC : d.is_eoc (getMeta s s.bufMeta).curTier2 = false)
    (hS : d.is_eoc (getMeta s s.bufMeta).nextTier2 = false)
    (hok : Succeeds d s.trace) :
    (inc_cluster d s).1 = 0 ∧
    getMeta (inc_cluster d s).2 s.bufMeta =
      { curTier2 := (getMeta s s.bufMeta).nextTier2
        nextTier2 := d.fat (getMeta s s.bufMeta).nextTier2
        curTier2Addr := d.compute_tier1_from_tier2 (getMeta s s.bufMeta).nextTier2
        curTier1Offset := 0 } ∧
    (inc_cluster d s).2.trace = s.trace ++
      [Event.flush s.bufMeta (getMeta s s.bufMeta),
       Event.get_fat_value (getMeta s s.bufMeta).nextTier2,
       Event.read_data_block (d.compute_tier1_from_tier2 (getMeta s s.bufMeta).nextTier2)] ∧
    (inc_cluster d s).2.buf = d.sector (inc_cluster d s).2.trace := by
  have f1 := flush_ok d s hok
  have fb : (flush d s).2.bufMeta = s.bufMeta := rfl
  have hok1 : Succeeds d (flush d s).2.trace := by rw [flush_trace]; exact hok.append _
  have hla : lookAhead d (flush d s).2 = nextCluster d s.bufMeta (flush d s).2 := by
    rw [lookAhead_eq d _ (by rw [fb, getMeta_flush]; exact hS), fb]
  obtain ⟨g1, g2, g3⟩ := nextCluster_ok d s.bufMeta (flush d s).2 hok1
  have gb : (nextCluster d s.bufMeta (flush d s).2).2.bufMeta = s.bufMeta :=
    (nextCluster_walked d s.bufMeta (flush d s).2).1
  rw [getMeta_flush] at g2 g3
  have hok2 : Succeeds d (nextCluster d s.bufMeta (flush d s).2).2.trace := by
    rw [g3]; exact hok1.append _
  obtain ⟨n1, n2, n3, n4⟩ := enterCluster_ok d _ hok2
  rw [gb, g2] at n2 n3
  rw [g3, flush_trace] at n3
  unfold inc_cluster
  rw [if_neg (by rw [hC]; simp)]
  simp only []
  rw [if_neg (fun h => h f1), hla, if_neg (fun h => h g1)]
  refine ⟨n1, n2, ?_, n4⟩
  rw [n3]
  simp

theorem bumpOffset_bufMeta (s : State) : (bumpOffset s).bufMeta = s.bufMeta :=
  setMeta_bufMeta _ _ _

theorem bumpOffset_trace (s : State) : (bumpOffset s).trace = s.trace :=
  setMeta_trace _ _ _

theorem getMeta_bumpOffset (s : State) :
    getMeta (bumpOffset s) s.bufMeta =
      { getMeta s s.bufMeta with
        curTier1Offset := ((getMeta s s.bufMeta).curTier1Offset + 1) % 2 ^ 8 } :=
  getMeta_setMeta _ _ _

theorem subdir_bit (a : Nat) (h : a.testBit 4 = true) : (SUB_DIR &&& a) ≠ 0 := by
  unfold SUB_DIR
  intro h0
  have : (16 &&& a).testBit 4 = true := by
    rw [Nat.testBit_and, h]
    decide
  rw [h0] at this
  simp at this

theorem foldl_nameStep (buf : Bytes) (off : Nat) :
    ∀ (n start : Nat) (acc : List Nat),
      (List.range' start n).foldl (nameStep buf off) acc
        = acc ++ (field buf off start n).filterMap keptNameByte := by
  intro n
  induction n with
  | zero => intro start acc; simp [field]
  | succ n ih =>
    intro start acc
    rw [List.range'_succ, List.foldl_cons, ih]
    simp only [field, List.range'_succ, List.map_cons, List.filterMap_cons]
    unfold nameStep keptNameByte
    split_ifs <;> simp

theorem foldl_extStep (buf : Bytes) (off : Nat) :
    ∀ (n start : Nat) (acc : List Nat),
      (List.range' start n).foldl (extStep buf off) acc
        = acc ++ (field buf off start n).filterMap keptExtByte := by
  intro n
  induction n with
  | zero => intro start acc; simp [field]
  | succ n ih =>
    intro start acc
    rw [List.range'_succ, List.foldl_cons, ih]
    simp only [field, List.range'_succ, List.map_cons, List.filterMap_cons]
    unfold extStep keptExtByte
    split_ifs <;> simp

theorem get_filename_eq (buf : Bytes) (off : Nat) :
    get_filename buf off =
      if 0x20 ≠ u8 buf (off + 8) then
        (field buf off 0 8).filterMap keptNameByte ++ [0x2e]
          ++ (field buf off 8 3).filterMap keptExtByte
      else (field buf off 0 8).filterMap keptNameByte := by
  unfold get_filename
  simp only [List.range_eq_range', foldl_nameStep, foldl_extStep, FILE_NAME_LEN,
    FILE_EXTENSION_LEN, List.nil_append]

theorem filterMap_kept (f : Nat → Option Nat) (l : List Nat) (h : ∀ x ∈ l, f x = some x) :
    l.filterMap f = l := by
  induction l with
  | nil => rfl
  | cons a l ih =>
    rw [List.filterMap_cons, h a (by simp), ih (fun x hx => h x (by simp [hx]))]

theorem filterMap_dropped (f : Nat → Option Nat) (b k : Nat) (h : f b = none) :
    (List.replicate k b).filterMap f = [] := by
  induction k with
  | zero => rfl
  | succ k ih => rw [List.replicate_succ, List.filterMap_cons, h, ih]

theorem findLoop_success (d : Driver) (filename : List Nat) :
    ∀ (fuel off : Nat) (s : State) (off' : Nat) (s' : State),
      findLoop d filename fuel off s = some (0, off', s') →
      u8 s'.buf off' ≠ 0 ∧ file_deleted s' off' = false ∧
        strcmp_eq filename (get_filename s'.buf off') = true := by
  intro fuel
  induction fuel with
  | zero => intro off s off' s' h; simp [findLoop] at h
  | succ fuel ih =>
    intro off s off' s' h
    rw [findLoop] at h
    by_cases h0 : u8 s.buf off = 0
    · rw [if_pos h0] at h
      simp [FILENAME_NOT_FOUND, ENTRY_NOT_FILE, BEG_ERROR, Filesystem.END_ERROR,
        Filesystem.FILESYSTEM_ALREADY_MOUNTED, Filesystem.BEG_ERROR,
        Filesystem.HD44780_MAX_ERROR] at h
    · rw [if_neg h0] at h
      by_cases hm : ((! file_deleted s off) && strcmp_eq filename (get_filename s.buf off)) = true
      · rw [if_pos hm] at h
        simp only [Option.some.injEq, Prod.mk.injEq, true_and] at h
        obtain ⟨rfl, rfl⟩ := h
        simp only [Bool.and_eq_true, Bool.not_eq_true'] at hm
        exact ⟨h0, hm.1, hm.2⟩
      · rw [if_neg hm] at h
        simp only [] at h
        by_cases hn : (scanNext d off s).1 = 0
        · rw [if_neg (fun h => h hn)] at h
          exact ih _ _ _ _ h
        · rw [if_pos hn] at h
          simp only [Option.some.injEq, Prod.mk.injEq] at h
          exact (hn h.1).elim

theorem findLoop_passes (d : Driver) (filename : List Nat) (fuel off : Nat) (s : State)
    (hp : PassedOver filename s off) :
    findLoop d filename (fuel + 1) off s =
      if (scanNext d off s).1 ≠ 0 then some (scanNext d off s)
      else findLoop d filename fuel (scanNext d off s).2.1 (scanNext d off s).2.2 := by
  obtain ⟨h0, hm⟩ := hp
  have hm' : ¬ ((! file_deleted s off) && strcmp_eq filename (get_filename s.buf off)) = true := by
    rcases hm with h | h <;> simp [h]
  rw [findLoop, if_neg h0, if_neg hm']

theorem findLoop_reaches_zero (d : Driver) (filename : List Nat) :
    ∀ (k fuel off : Nat) (s : State), k < fuel →
      (∀ i, i < k → PassedOver filename (scanPos d i off s).2.2 (scanPos d i off s).2.1) →
      (scanPos d k off s).1 = 0 →
      u8 (scanPos d k off s).2.2.buf (scanPos d k off s).2.1 = 0 →
      findLoop d filename fuel off s
        = some (FILENAME_NOT_FOUND, (scanPos d k off s).2.1, (scanPos d k off s).2.2) := by
  intro k
  induction k with
  | zero =>
    intro fuel off s hf _ _ hz
    obtain ⟨fuel, rfl⟩ : ∃ f, fuel = f + 1 := ⟨fuel - 1, by omega⟩
    simp only [scanPos] at hz ⊢
    rw [findLoop, if_pos hz]
  | succ k ih =>
    intro fuel off s hf hp hs hz
    obtain ⟨fuel, rfl⟩ : ∃ f, fuel = f + 1 := ⟨fuel - 1, by omega⟩
    have hn : (scanNext d off s).1 = 0 := by
      by_contra hne
      rw [scanPos, if_pos hne] at hs
      exact hne hs
    have hstep : ∀ j, scanPos d (j + 1) off s
        = scanPos d j (scanNext d off s).2.1 (scanNext d off s).2.2 := by
      intro j
      rw [scanPos, if_neg (fun h => h hn)]
    rw [findLoop_passes d filename fuel off s (hp 0 (by omega)), if_neg (fun h => h hn)]
    rw [hstep] at hs hz ⊢
    exact ih fuel _ _ (by omega) (fun i hi => by rw [← hstep]; exact hp (i + 1) (by omega)) hs hz

/-- C2: from a state in which the metadata record `r` is consistent (its cluster is cluster
number `m_curTier2` of the file's chain, its successor is pre-fetched and its base address
computed), with every driver and FAT call succeeding and a cluster shift of at most 8 (it is
the logarithm of a one-byte sectors-per-cluster field, so at most 7 on any volume),
`load_sector_from_offset(s)` returns 0 and ends with `m_curTier2 = s >> shift`, the record
holding the cluster `chain (s >> shift)`, its FAT successor, its base address and the offset
`s mod 2^shift`, with `m_curTier1 = s`; after its flush and its FAT lookups it makes exactly
one read, of sector `curTier2Addr + curTier1Offset` (32-bit sum). No case split on forward,
backward or same cluster is needed. -/
theorem load_sector_from_offset_seeks (d : Driver) (requiredSector : Nat) (r : MetaRef) (s : State)
    (hshift : s.m_tier1sPerTier2Shift ≤ 8) (hc : Consistent d s r) (hok : Succeeds d s.trace) :
    (load_sector_from_offset d requiredSector r s).1 = 0 ∧
    (load_sector_from_offset d requiredSector r s).2.m_curTier2
      = requiredSector >>> s.m_tier1sPerTier2Shift ∧
    getMeta (load_sector_from_offset d requiredSector r s).2 r =
      { curTier2 := chain d s (requiredSector >>> s.m_tier1sPerTier2Shift)
        nextTier2 := d.fat (chain d s (requiredSector >>> s.m_tier1sPerTier2Shift))
        curTier2Addr := d.compute_tier1_from_tier2
          (chain d s (requiredSector >>> s.m_tier1sPerTier2Shift))
        curTier1Offset := requiredSector % 2 ^ s.m_tier1sPerTier2Shift } ∧
    (load_sector_from_offset d requiredSector r s).2.m_curTier1 = requiredSector ∧
    (load_sector_from_offset d requiredSector r s).2.trace =
      s.trace ++ [Event.flush s.bufMeta (getMeta s s.bufMeta)]
        ++ seekLookups d s (requiredSector >>> s.m_tier1sPerTier2Shift)
        ++ [Event.read_data_block (add32
            (d.compute_tier1_from_tier2 (chain d s (requiredSector >>> s.m_tier1sPerTier2Shift)))
            (requiredSector % 2 ^ s.m_tier1sPerTier2Shift))] ∧
    (load_sector_from_offset d requiredSector r s).2.buf
      = d.sector (load_sector_from_offset d requiredSector r s).2.trace := by
  have f1 := flush_ok d s hok
  have hok1 : Succeeds d (flush d s).2.trace := by rw [flush_trace]; exact hok.append _
  obtain ⟨k1, k2, k3, k4⟩ := seekCluster_ok d (requiredSector >>> s.m_tier1sPerTier2Shift) r
    (flush d s).2 hok1 (consistent_flush d s r hc)
  have hok2 : Succeeds d (seekCluster d (requiredSector >>> s.m_tier1sPerTier2Shift) r
      (flush d s).2).2.trace := by rw [k4]; exact hok1.append _
  obtain ⟨q1, q2, q3, q4, q5, q6⟩ := readRequired_ok d requiredSector s.m_tier1sPerTier2Shift r
    _ hok2 hshift
  have hch : ∀ k, chain d (flush d s).2 k = chain d s k :=
    fun k => chain_congr d s _ (flush_firstTier2 d s) k
  have hsl : seekLookups d (flush d s).2 (requiredSector >>> s.m_tier1sPerTier2Shift)
      = seekLookups d s (requiredSector >>> s.m_tier1sPerTier2Shift) := by
    unfold seekLookups
    rw [flush_m_curTier2, flush_firstTier2, lookups_congr d s _ (flush_firstTier2 d s),
      lookups_congr d s _ (flush_firstTier2 d s)]
  unfold load_sector_from_offset
  simp only [f1, k1, q1, ne_eq, not_true_eq_false, if_false]
  refine ⟨trivial, ?_, ?_, q4, ?_, q6⟩
  · rw [q2, k2]
  · rw [q3, k3, hch]
  · rw [q5, k4, k3, flush_trace, hch, hsl]

/-- The run of C2 for sector 19 of the demo file: a forward walk of two clusters. -/
theorem load_sector_from_offset_seeks_witness :
    (load_sector_from_offset (demoDriver demoDir) 19 MetaRef.contentMeta demoState).1 = 0 ∧
    (load_sector_from_offset (demoDriver demoDir) 19 MetaRef.contentMeta demoState).2.m_curTier2
      = 19 >>> demoState.m_tier1sPerTier2Shift :=
  ⟨(load_sector_from_offset_seeks (demoDriver demoDir) 19 MetaRef.contentMeta demoState
      (by decide) ⟨rfl, rfl, rfl⟩ (fun _ => rfl)).1,
    (load_sector_from_offset_seeks (demoDriver demoDir) 19 MetaRef.contentMeta demoState
      (by decide) ⟨rfl, rfl, rfl⟩ (fun _ => rfl)).2.1⟩

/-- C3: outside the FAT16 root directory, when the current cluster `C` is not end-of-chain, the
metadata holds the pre-fetched successor `S = FAT[C]`, `S` is not end-of-chain and the sector
offset is that of the last sector of the cluster (`2^shift - 1`, shift at most 7), a
`load_next_sector` on which the driver calls succeed returns 0, reads exactly the sector
`compute_tier1_from_tier2 (FAT[C])` after one flush and one FAT lookup (of `S`), and leaves
`curTier2 = S`, `curTier2Addr = compute_tier1_from_tier2 S`, `curTier1Offset = 0` and
`nextTier2 = FAT[S]`. -/
theorem load_next_sector_crosses_cluster (d : Driver) (s : State)
    (hshift : s.m_tier1sPerTier2Shift ≤ 7)
    (hC : d.is_eoc (getMeta s s.bufMeta).curTier2 = false)
    (hnext : (getMeta s s.bufMeta).nextTier2 = d.fat (getMeta s s.bufMeta).curTier2)
    (hS : d.is_eoc (d.fat (getMeta s s.bufMeta).curTier2) = false)
    (hroot : ¬ (Variant.FAT_16 = s.m_filesystem ∧
      s.m_rootAddr = (getMeta s s.bufMeta).curTier2Addr))
    (hlast : (getMeta s s.bufMeta).curTier1Offset = 2 ^ s.m_tier1sPerTier2Shift - 1)
    (hok : Succeeds d s.trace) :
    (load_next_sector d s).1 = 0 ∧
    getMeta (load_next_sector d s).2 s.bufMeta =
      { curTier2 := d.fat (getMeta s s.bufMeta).curTier2
        nextTier2 := d.fat (d.fat (getMeta s s.bufMeta).curTier2)
        curTier2Addr := d.compute_tier1_from_tier2 (d.fat (getMeta s s.bufMeta).curTier2)
        curTier1Offset := 0 } ∧
    (∃ m, (load_next_sector d s).2.trace = s.trace ++
      [Event.flush s.bufMeta m,
       Event.get_fat_value (d.fat (getMeta s s.bufMeta).curTier2),
       Event.read_data_block
        (d.compute_tier1_from_tier2 (d.fat (getMeta s s.bufMeta).curTier2))]) ∧
    (load_next_sector d s).2.buf = d.sector (load_next_sector d s).2.trace := by
  have hpow : 2 ^ s.m_tier1sPerTier2Shift ≤ 2 ^ 7 := Nat.pow_le_pow_right (by norm_num) hshift
  have hpos : 0 < 2 ^ s.m_tier1sPerTier2Shift := by positivity
  have hoff : ((getMeta s s.bufMeta).curTier1Offset + 1) % 2 ^ 8 = 2 ^ s.m_tier1sPerTier2Shift := by
    rw [hlast, Nat.sub_add_cancel hpos]
    exact Nat.mod_eq_of_lt (by omega)
  have hper : (1 <<< s.m_tier1sPerTier2Shift) % 2 ^ 32 = 2 ^ s.m_tier1sPerTier2Shift := by
    rw [Nat.one_shiftLeft]
    exact Nat.mod_eq_of_lt (by omega)
  have hg := getMeta_bumpOffset s
  rw [hoff] at hg
  obtain ⟨i1, i2, i3, i4⟩ := inc_cluster_ok d (bumpOffset s)
    (by rw [bumpOffset_bufMeta, hg]; exact hC)
    (by rw [bumpOffset_bufMeta, hg]; simp only [hnext]; exact hS)
    (by rw [bumpOffset_trace]; exact hok)
  rw [bumpOffset_bufMeta, hg] at i2 i3
  rw [bumpOffset_trace] at i3
  simp only [hnext] at i2 i3
  unfold load_next_sector
  rw [if_neg (by rw [hC]; simp), if_neg hroot]
  simp only []
  rw [bumpOffset_bufMeta, hg, hper, if_pos rfl]
  exact ⟨i1, i2, ⟨_, i3⟩, i4⟩

/-- The run of C3 from the last sector of cluster 2 of the demo file. -/
theorem load_next_sector_crosses_cluster_witness :
    (load_next_sector (demoDriver demoDir) demoStateLast).1 = 0 ∧
    getMeta (load_next_sector (demoDriver demoDir) demoStateLast).2 demoStateLast.bufMeta =
      { curTier2 := 3, nextTier2 := 4, curTier2Addr := 124, curTier1Offset := 0 } :=
  ⟨(load_next_sector_crosses_cluster (demoDriver demoDir) demoStateLast (by decide) rfl rfl rfl
      (by decide) rfl (fun _ => rfl)).1,
    (load_next_sector_crosses_cluster (demoDriver demoDir) demoStateLast (by decide) rfl rfl rfl
      (by decide) rfl (fun _ => rfl)).2.1⟩

/-- C4: when the required sector is not the one loaded for this file (it differs from
`m_curTier1`, or the buffer is bound to another record), a successful
`load_sector_under_ptr` adds exactly one data-sector read to the history, and a second call
with the position unchanged returns 0 and leaves the whole state, history included, as it
is: no `read_data_block`, no `reload_buffer`, no rebinding. -/
theorem load_sector_under_ptr_idempotent (d : Driver) (s : State)
    (hneed : requiredSectorOf d s ≠ s.m_curTier1 ∨ s.bufMeta ≠ MetaRef.contentMeta)
    (hret : (load_sector_under_ptr d s).1 = 0) :
    (∃ l, (load_sector_under_ptr d s).2.trace = s.trace ++ l ∧ dataReads l = 1) ∧
    load_sector_under_ptr d (load_sector_under_ptr d s).2
      = (0, (load_sector_under_ptr d s).2) := by
  obtain ⟨e1, e2, -, e4, e5⟩ := load_sector_under_ptr_effect d s
  obtain ⟨b1, b2⟩ := e2 hret
  constructor
  · by_cases hb : s.bufMeta = MetaRef.contentMeta
    · obtain ⟨l, h1, -, h3⟩ := e4 hb
      exact ⟨l, h1, h3 hret (hneed.resolve_right (fun h => h hb))⟩
    · obtain ⟨l, h1, -, h3⟩ := e5 hb
      exact ⟨_ :: l, h1, by simpa [dataReads] using h3 hret⟩
  · have hreq : requiredSectorOf d (load_sector_under_ptr d s).2 = requiredSectorOf d s := by
      unfold requiredSectorOf
      rw [e1]
    exact (load_sector_under_ptr_effect d (load_sector_under_ptr d s).2).2.2.1 b1
      (by rw [hreq, b2])

/-- The run of C4 with the file position in sector 19 and the buffer bound elsewhere. -/
theorem load_sector_under_ptr_idempotent_witness :
    load_sector_under_ptr (demoDriver demoDir)
        (load_sector_under_ptr (demoDriver demoDir) demoStateSeek).2
      = (0, (load_sector_under_ptr (demoDriver demoDir) demoStateSeek).2) :=
  (load_sector_under_ptr_idempotent (demoDriver demoDir) demoStateSeek (Or.inl (by decide))
    rfl).2

/-- C5: when the buffer is bound to a record other than the content metadata, a successful
`load_sector_under_ptr` first flushes the buffer while it is still bound to that record, then
makes exactly one data-sector read, and leaves the buffer bound to the content metadata; when
the buffer is already bound to the content metadata a call makes at most one data-sector
read. -/
theorem load_sector_under_ptr_rebinds (d : Driver) (s : State) :
    (s.bufMeta ≠ MetaRef.contentMeta → (load_sector_under_ptr d s).1 = 0 →
      (∃ l, (load_sector_under_ptr d s).2.trace
          = s.trace ++ Event.flush s.bufMeta (getMeta s s.bufMeta) :: l ∧ dataReads l = 1) ∧
      (load_sector_under_ptr d s).2.bufMeta = MetaRef.contentMeta) ∧
    (s.bufMeta = MetaRef.contentMeta →
      ∃ l, (load_sector_under_ptr d s).2.trace = s.trace ++ l ∧ dataReads l ≤ 1) := by
  obtain ⟨-, e2, -, e4, e5⟩ := load_sector_under_ptr_effect d s
  constructor
  · intro hb hret
    obtain ⟨l, h1, -, h3⟩ := e5 hb
    exact ⟨⟨l, h1, h3 hret⟩, (e2 hret).1⟩
  · intro hb
    obtain ⟨l, h1, h2, -⟩ := e4 hb
    exact ⟨l, h1, h2⟩

/-- The run of C5 with the buffer bound to the directory metadata. -/
theorem load_sector_under_ptr_rebinds_witness :
    (load_sector_under_ptr (demoDriver demoDir) demoStateSeek).2.bufMeta = MetaRef.contentMeta :=
  ((load_sector_under_ptr_rebinds (demoDriver demoDir) demoStateSeek).1 (by decide) rfl).2

/-- C6: for an entry whose 8-byte name field is the bytes `nm` followed by spaces and whose
3-byte extension field is the 1 to 3 bytes `ext` followed by spaces, no byte of `nm` or `ext`
being a space or 0x05, `get_filename` produces `nm`, then '.', then `ext`. -/
theorem get_filename_padded (buf : Bytes) (off : Nat) (nm ext : List Nat)
    (he : 1 ≤ ext.length ∧ ext.length ≤ 3)
    (hnm : ∀ x ∈ nm, x ≠ 0x20 ∧ x ≠ 0x05) (hext : ∀ x ∈ ext, x ≠ 0x20 ∧ x ≠ 0x05)
    (hname : field buf off 0 8 = nm ++ List.replicate (8 - nm.length) 0x20)
    (hextn : field buf off 8 3 = ext ++ List.replicate (3 - ext.length) 0x20) :
    get_filename buf off = nm ++ [0x2e] ++ ext := by
  have h8 : 0x20 ≠ u8 buf (off + 8) := by
    obtain ⟨e0, et, rfl⟩ : ∃ e0 et, ext = e0 :: et := by
      cases ext with
      | nil => simp at he
      | cons a l => exact ⟨a, l, rfl⟩
    have h0 : (field buf off 8 3).head? = some (u8 buf (off + 8)) := by
      simp [field, List.range'_succ]
    rw [hextn] at h0
    simp at h0
    rw [← h0]
    exact Ne.symm (hext e0 (by simp)).1
  rw [get_filename_eq, if_pos h8, hname, hextn, List.filterMap_append, List.filterMap_append,
    filterMap_kept keptNameByte nm, filterMap_kept keptExtByte ext,
    filterMap_dropped _ _ _ (by decide), filterMap_dropped _ _ _ (by decide)]
  · simp
  · intro x hx
    have := hext x hx
    simp [keptExtByte, Ne.symm this.1]
  · intro x hx
    have := hnm x hx
    simp [keptNameByte, Ne.symm this.1, Ne.symm this.2]

/-- The raw bytes "FILE    TXT" give "FILE.TXT". -/
theorem get_filename_padded_witness :
    get_filename demoEntry 0 = [0x46, 0x49, 0x4C, 0x45, 0x2E, 0x54, 0x58, 0x54] :=
  get_filename_padded demoEntry 0 [0x46, 0x49, 0x4C, 0x45] [0x54, 0x58, 0x54]
    (by decide) (by decide) (by decide) (by decide) (by decide)

/-- What `find` does with deleted entries and at a zero entry, in terms of the entries its own
advance (`scanNext`, with `load_next_sector` at a sector end) brings into the buffer: it never
returns success with the offset of an entry whose first byte is 0xE5; at such an entry the
loop moves on whatever the name is; and when the entries it visits, after a successful
`reload_directory_start`, are all passed over up to one whose first byte is 0x00, it returns
`FILENAME_NOT_FOUND` there. Which device sectors the advance loads is not part of this
statement. -/
theorem find_deleted_and_end (d : Driver) (filename : List Nat) :
    (∀ (fuel : Nat) (s : State) (off : Nat) (s' : State),
      find d filename fuel s = some (0, off, s') → u8 s'.buf off ≠ DELETED_FILE_MARK) ∧
    (∀ (fuel off : Nat) (s : State), u8 s.buf off = DELETED_FILE_MARK →
      findLoop d filename (fuel + 1) off s =
        if (scanNext d off s).1 ≠ 0 then some (scanNext d off s)
        else findLoop d filename fuel (scanNext d off s).2.1 (scanNext d off s).2.2) ∧
    (∀ (k fuel : Nat) (s : State), k < fuel → (reload_directory_start d s).1 = 0 →
      (∀ i, i < k → PassedOver filename
        (scanPos d i 0 (reload_directory_start d s).2).2.2
        (scanPos d i 0 (reload_directory_start d s).2).2.1) →
      (scanPos d k 0 (reload_directory_start d s).2).1 = 0 →
      u8 (scanPos d k 0 (reload_directory_start d s).2).2.2.buf
        (scanPos d k 0 (reload_directory_start d s).2).2.1 = 0 →
      find d filename fuel s = some (FILENAME_NOT_FOUND,
        (scanPos d k 0 (reload_directory_start d s).2).2.1,
        (scanPos d k 0 (reload_directory_start d s).2).2.2)) := by
  refine ⟨?_, ?_, ?_⟩
  · intro fuel s off s' h
    unfold find at h
    simp only [] at h
    by_cases hr : (reload_directory_start d s).1 = 0
    · rw [if_neg (fun h => h hr)] at h
      obtain ⟨-, hdel, -⟩ := findLoop_success d filename _ _ _ _ _ h
      intro he
      simp [file_deleted, he] at hdel
    · rw [if_pos hr] at h
      simp only [Option.some.injEq, Prod.mk.injEq] at h
      exact (hr h.1).elim
  · intro fuel off s he
    apply findLoop_passes
    refine ⟨by rw [he]; decide, Or.inl ?_⟩
    simp [file_deleted, he]
  · intro k fuel s hf hr hp hs hz
    unfold find
    simp only []
    rw [if_neg (fun h => h hr)]
    exact findLoop_reaches_zero d filename k fuel 0 _ hf hp hs hz

/-- The run of `find` on `demoDir`, looking for the name of its deleted entry: the deleted entry
and the entry of another name are passed over and the scan ends at the zero entry. -/
theorem find_deleted_and_end_witness :
    find (demoDriver demoDir) demoName 3 demoStateLast = some (FILENAME_NOT_FOUND,
      (scanPos (demoDriver demoDir) 2 0
        (reload_directory_start (demoDriver demoDir) demoStateLast).2).2.1,
      (scanPos (demoDriver demoDir) 2 0
        (reload_directory_start (demoDriver demoDir) demoStateLast).2).2.2) :=
  (find_deleted_and_end (demoDriver demoDir) demoName).2.2 2 3 demoStateLast (by decide) rfl
    (by intro i hi; interval_cases i <;> (unfold PassedOver; decide)) rfl (by decide)

/-- C8: when bit 4 of the attribute byte of the entry (offset + 0x0B) is set,
`open_existing_file` returns `ENTRY_NOT_FILE` and the state is returned as it was: no driver
call is added to the history and no file or metadata field is changed. -/
theorem open_existing_file_directory (d : Driver) (s : State) (fileEntryOffset : Nat)
    (h : (u8 s.buf (fileEntryOffset + FILE_ATTRIBUTE_OFFSET)).testBit 4 = true) :
    open_existing_file d fileEntryOffset s = (ENTRY_NOT_FILE, s) := by
  have := subdir_bit _ h
  simp [open_existing_file, is_directory, get_file_attributes, this]

/-- The run of C8 on an entry with attribute byte 0x10. -/
theorem open_existing_file_directory_witness :
    open_existing_file (demoDriver demoDir) 0 demoStateSubdir
      = (ENTRY_NOT_FILE, demoStateSubdir) :=
  open_existing_file_directory (demoDriver demoDir) demoStateSubdir 0 (by decide)

theorem dataReads_seekLookups (d : Driver) (s : State) (c : Nat) :
    dataReads (seekLookups d s c) = 0 := by
  unfold seekLookups
  split
  · exact dataReads_lookups d s _ _
  · split
    · simp [dataReads, dataReads_lookups]
    · rfl

theorem read_data_block_frame (d : Driver) (a : Nat) (s : State) :
    (read_data_block d a s).2.firstTier2 = s.firstTier2 ∧
      (read_data_block d a s).2.m_tier1sPerTier2Shift = s.m_tier1sPerTier2Shift := by
  unfold read_data_block
  simp only []
  split <;> exact ⟨rfl, rfl⟩

theorem readRequired_frame (d : Driver) (requiredSector shift : Nat) (r : MetaRef) (s : State) :
    (readRequired d requiredSector shift r s).2.firstTier2 = s.firstTier2 ∧
      (readRequired d requiredSector shift r s).2.m_tier1sPerTier2Shift
        = s.m_tier1sPerTier2Shift := by
  obtain ⟨-, -, w1, -, w2, -⟩ := setMeta_walked s r { getMeta s r with
      curTier1Offset := requiredSector % (1 <<< shift) % 2 ^ 8 }
  unfold readRequired
  simp only []
  obtain ⟨h1, h2⟩ := read_data_block_frame d
    (add32 (getMeta (setTier1 (setMeta s r { getMeta s r with
      curTier1Offset := requiredSector % (1 <<< shift) % 2 ^ 8 }) requiredSector) r).curTier2Addr
      (getMeta (setTier1 (setMeta s r { getMeta s r with
      curTier1Offset := requiredSector % (1 <<< shift) % 2 ^ 8 }) requiredSector) r).curTier1Offset)
    (setTier1 (setMeta s r { getMeta s r with
      curTier1Offset := requiredSector % (1 <<< shift) % 2 ^ 8 }) requiredSector)
  rw [h1, h2]
  exact ⟨w1, w2⟩

theorem load_sector_from_offset_frame (d : Driver) (requiredSector : Nat) (r : MetaRef)
    (s : State) :
    (load_sector_from_offset d requiredSector r s).2.firstTier2 = s.firstTier2 ∧
      (load_sector_from_offset d requiredSector r s).2.m_tier1sPerTier2Shift
        = s.m_tier1sPerTier2Shift := by
  obtain ⟨-, -, w1, -, w2, -⟩ :=
    seekCluster_walked d (requiredSector >>> s.m_tier1sPerTier2Shift) r (flush d s).2
  obtain ⟨q1, q2⟩ := readRequired_frame d requiredSector s.m_tier1sPerTier2Shift r
    (seekCluster d (requiredSector >>> s.m_tier1sPerTier2Shift) r (flush d s).2).2
  unfold load_sector_from_offset
  simp only []
  split
  · exact ⟨rfl, rfl⟩
  · split
    · exact ⟨w1, w2⟩
    · split
      · exact ⟨q1.trans w1, q2.trans w2⟩
      · exact ⟨q1.trans w1, q2.trans w2⟩

/-- What a seek leaves behind, from a consistent state on which every driver call succeeds. -/
theorem load_sector_from_offset_result (d : Driver) (requiredSector : Nat) (r : MetaRef)
    (s : State)
    (hshift : s.m_tier1sPerTier2Shift ≤ 8) (hc : Consistent d s r) (hok : Succeeds d s.trace) :
    (load_sector_from_offset d requiredSector r s).1 = 0 ∧
    (load_sector_from_offset d requiredSector r s).2.m_curTier2
      = requiredSector >>> s.m_tier1sPerTier2Shift ∧
    getMeta (load_sector_from_offset d requiredSector r s).2 r =
      { curTier2 := chain d s (requiredSector >>> s.m_tier1sPerTier2Shift)
        nextTier2 := d.fat (chain d s (requiredSector >>> s.m_tier1sPerTier2Shift))
        curTier2Addr := d.compute_tier1_from_tier2
          (chain d s (requiredSector >>> s.m_tier1sPerTier2Shift))
        curTier1Offset := requiredSector % 2 ^ s.m_tier1sPerTier2Shift } ∧
    (load_sector_from_offset d requiredSector r s).2.m_curTier1 = requiredSector ∧
    (load_sector_from_offset d requiredSector r s).2.trace =
      s.trace ++ [Event.flush s.bufMeta (getMeta s s.bufMeta)]
        ++ seekLookups d s (requiredSector >>> s.m_tier1sPerTier2Shift)
        ++ [Event.read_data_block (add32
            (d.compute_tier1_from_tier2 (chain d s (requiredSector >>> s.m_tier1sPerTier2Shift)))
            (requiredSector % 2 ^ s.m_tier1sPerTier2Shift))] := by
  have f1 := flush_ok d s hok
  have hok1 : Succeeds d (flush d s).2.trace := by rw [flush_trace]; exact hok.append _
  obtain ⟨k1, k2, k3, k4⟩ := seekCluster_ok d (requiredSector >>> s.m_tier1sPerTier2Shift) r
    (flush d s).2 hok1 (consistent_flush d s r hc)
  have hok2 : Succeeds d (seekCluster d (requiredSector >>> s.m_tier1sPerTier2Shift) r
      (flush d s).2).2.trace := by rw [k4]; exact hok1.append _
  obtain ⟨q1, q2, q3, q4, q5, -⟩ := readRequired_ok d requiredSector s.m_tier1sPerTier2Shift r
    _ hok2 hshift
  have hch : ∀ k, chain d (flush d s).2 k = chain d s k :=
    fun k => chain_congr d s _ (flush_firstTier2 d s) k
  have hsl : seekLookups d (flush d s).2 (requiredSector >>> s.m_tier1sPerTier2Shift)
      = seekLookups d s (requiredSector >>> s.m_tier1sPerTier2Shift) := by
    unfold seekLookups
    rw [flush_m_curTier2, flush_firstTier2, lookups_congr d s _ (flush_firstTier2 d s),
      lookups_congr d s _ (flush_firstTier2 d s)]
  unfold load_sector_from_offset
  simp only [f1, k1, q1, ne_eq, not_true_eq_false, if_false]
  refine ⟨trivial, ?_, ?_, q4, ?_⟩
  · rw [q2, k2]
  · rw [q3, k3, hch]
  · rw [q5, k4, k3, flush_trace, hch, hsl]

/-- C13: from a consistent state on which every driver call succeeds (cluster shift at most
8), for any two sectors `a` and `b`, and so for `a` in a cluster before the current one and `b`
in the current or a later one, `load_sector_from_offset(a)` followed by
`load_sector_from_offset(b)` and `load_sector_from_offset(b)` alone both return 0 and end with
the same metadata record, the same `m_curTier1` and `m_curTier2`, and each seek to `b` ends
with one read, of the same sector, as its only data read. -/
theorem load_sector_from_offset_detour (d : Driver) (a b : Nat) (r : MetaRef) (s : State)
    (hshift : s.m_tier1sPerTier2Shift ≤ 8) (hc : Consistent d s r) (hok : Succeeds d s.trace) :
    (load_sector_from_offset d a r s).1 = 0 ∧
    (load_sector_from_offset d b r (load_sector_from_offset d a r s).2).1 = 0 ∧
    (load_sector_from_offset d b r s).1 = 0 ∧
    getMeta (load_sector_from_offset d b r (load_sector_from_offset d a r s).2).2 r
      = getMeta (load_sector_from_offset d b r s).2 r ∧
    (load_sector_from_offset d b r (load_sector_from_offset d a r s).2).2.m_curTier1
      = (load_sector_from_offset d b r s).2.m_curTier1 ∧
    (load_sector_from_offset d b r (load_sector_from_offset d a r s).2).2.m_curTier2
      = (load_sector_from_offset d b r s).2.m_curTier2 ∧
    ∃ x l l',
      (load_sector_from_offset d b r (load_sector_from_offset d a r s).2).2.trace
        = (load_sector_from_offset d a r s).2.trace ++ l ++ [Event.read_data_block x] ∧
      dataReads l = 0 ∧
      (load_sector_from_offset d b r s).2.trace = s.trace ++ l' ++ [Event.read_data_block x] ∧
      dataReads l' = 0 := by
  obtain ⟨a1, a2, a3, -, a5⟩ := load_sector_from_offset_result d a r s hshift hc hok
  obtain ⟨f1, f2⟩ := load_sector_from_offset_frame d a r s
  have hch : ∀ k, chain d (load_sector_from_offset d a r s).2 k = chain d s k :=
    fun k => chain_congr d s _ f1 k
  have hc1 : Consistent d (load_sector_from_offset d a r s).2 r := by
    unfold Consistent
    rw [a3, a2, hch]
    exact ⟨rfl, rfl, rfl⟩
  have hok1 : Succeeds d (load_sector_from_offset d a r s).2.trace := by
    rw [a5, List.append_assoc, List.append_assoc]
    exact hok.append _
  obtain ⟨b1, b2, b3, b4, b5⟩ := load_sector_from_offset_result d b r
    (load_sector_from_offset d a r s).2 (by rw [f2]; exact hshift) hc1 hok1
  obtain ⟨c1, c2, c3, c4, c5⟩ := load_sector_from_offset_result d b r s hshift hc hok
  refine ⟨a1, b1, c1, ?_, by rw [b4, c4], by rw [b2, c2, f2],
    add32 (d.compute_tier1_from_tier2 (chain d s (b >>> s.m_tier1sPerTier2Shift)))
      (b % 2 ^ s.m_tier1sPerTier2Shift),
    Event.flush (load_sector_from_offset d a r s).2.bufMeta
        (getMeta (load_sector_from_offset d a r s).2 (load_sector_from_offset d a r s).2.bufMeta)
      :: seekLookups d (load_sector_from_offset d a r s).2 (b >>> s.m_tier1sPerTier2Shift),
    Event.flush s.bufMeta (getMeta s s.bufMeta)
      :: seekLookups d s (b >>> s.m_tier1sPerTier2Shift), ?_, ?_, ?_, ?_⟩
  · rw [b3, c3, f2, hch]
  · rw [b5, f2, hch]
    simp only [List.append_assoc, List.singleton_append]
  · simp only [dataReads, dataReads_seekLookups]
  · rw [c5]
    simp only [List.append_assoc, List.singleton_append]
  · simp only [dataReads, dataReads_seekLookups]

/-- The run of C13 from sector 19 (third cluster) back to sector 3 and on to sector 27. -/
theorem load_sector_from_offset_detour_witness :
    getMeta (load_sector_from_offset (demoDriver demoDir) 27 MetaRef.contentMeta
        (load_sector_from_offset (demoDriver demoDir) 3 MetaRef.contentMeta demoStateMid).2).2
        MetaRef.contentMeta
      = getMeta (load_sector_from_offset (demoDriver demoDir) 27 MetaRef.contentMeta
        demoStateMid).2 MetaRef.contentMeta ∧
    getMeta (load_sector_from_offset (demoDriver demoDir) 27 MetaRef.contentMeta
        demoStateMid).2 MetaRef.contentMeta = ⟨5, 6, 140, 3⟩ :=
  ⟨(load_sector_from_offset_detour (demoDriver demoDir) 3 27 MetaRef.contentMeta demoStateMid
      (by decide) ⟨rfl, rfl, rfl⟩ (fun _ => rfl)).2.2.2.1, by decide⟩

theorem filterMap_keptNameByte (l : List Nat) :
    l.filterMap keptNameByte
      = (l.filter (fun b => b ≠ 0x20)).map (fun b => if b = 0x05 then 0xe5 else b) := by
  induction l with
  | nil => rfl
  | cons a l ih =>
    have ha : keptNameByte a = if a = 0x20 then none else some (if a = 0x05 then 0xe5 else a) := by
      unfold keptNameByte
      by_cases h5 : a = 5
      · subst h5; rfl
      · by_cases h20 : a = 0x20
        · subst h20; rfl
        · rw [if_neg (fun h => h5 h.symm), if_pos (fun h => h20 h.symm), if_neg h20, if_neg h5]
    rw [List.filterMap_cons, ha, List.filter_cons]
    by_cases h20 : a = 0x20
    · simp [h20, ih]
    · simp [h20, ih]

theorem filter_padded (nm : List Nat) (k : Nat) (h : ∀ x ∈ nm, x ≠ 0x20) :
    (nm ++ List.replicate k 0x20).filter (fun b => b ≠ 0x20) = nm := by
  rw [List.filter_append]
  have h1 : nm.filter (fun b => b ≠ 0x20) = nm := by
    rw [List.filter_eq_self]
    intro a ha
    simpa using h a ha
  have h2 : (List.replicate k 0x20).filter (fun b => decide (b ≠ 0x20)) = [] := by
    rw [List.filter_eq_nil_iff]
    intro a ha
    rw [List.mem_replicate] at ha
    simp [ha.2]
  rw [h1, h2, List.append_nil]

/-- The name `get_filename` produces starts with the bytes of the 8-byte name field in
order, every space left out and every 0x05 written as 0xE5, and what follows is nothing or
starts with '.'; no space is written for the name field; and when the field is `nm` followed
by pad spaces, `nm` holding no space, that name part is `nm` (0x05 written as 0xE5), the field
with its trailing pad removed. -/
theorem get_filename_name_part (buf : Bytes) (off : Nat) :
    (∃ suffix, get_filename buf off =
        ((field buf off 0 8).filter (fun b => b ≠ 0x20)).map
          (fun b => if b = 0x05 then 0xe5 else b) ++ suffix ∧
      (suffix = [] ∨ suffix.head? = some 0x2e)) ∧
    0x20 ∉ ((field buf off 0 8).filter (fun b => b ≠ 0x20)).map
      (fun b => if b = 0x05 then 0xe5 else b) ∧
    (∀ nm : List Nat, (∀ x ∈ nm, x ≠ 0x20) →
      field buf off 0 8 = nm ++ List.replicate (8 - nm.length) 0x20 →
      ((field buf off 0 8).filter (fun b => b ≠ 0x20)).map
          (fun b => if b = 0x05 then 0xe5 else b)
        = nm.map (fun b => if b = 0x05 then 0xe5 else b)) := by
  refine ⟨?_, ?_, ?_⟩
  · rw [get_filename_eq, filterMap_keptNameByte]
    by_cases h : 0x20 ≠ u8 buf (off + 8)
    · rw [if_pos h]
      exact ⟨[0x2e] ++ (field buf off 8 3).filterMap keptExtByte,
        by rw [List.append_assoc], Or.inr (by simp)⟩
    · rw [if_neg h]
      exact ⟨[], by rw [List.append_nil], Or.inl rfl⟩
  · intro hm
    rw [List.mem_map] at hm
    obtain ⟨b, hb, he⟩ := hm
    rw [List.mem_filter] at hb
    have hb2 : b ≠ 0x20 := by simpa using hb.2
    by_cases h5 : b = 5
    · rw [if_pos h5] at he
      exact absurd he (by decide)
    · rw [if_neg h5] at he
      exact hb2 he
  · intro nm hnm hf
    rw [hf, filter_padded nm _ hnm]

/-- The name part for the name field "FILE    ". -/
theorem get_filename_name_part_witness :
    ((field demoEntry 0 0 8).filter (fun b => b ≠ 0x20)).map
        (fun b => if b = 0x05 then 0xe5 else b)
      = [0x46, 0x49, 0x4C, 0x45] :=
  (get_filename_name_part demoEntry 0).2.2 [0x46, 0x49, 0x4C, 0x45] (by decide) (by decide)

/-- C21: for the name field "A B     ", which is "A B" with its trailing pad removed,
`get_filename` produces "AB": the name loop leaves out the space before the `B` and goes on
with the bytes after it. -/
theorem get_filename_drops_inner_space :
    field spacedEntry 0 0 8 = [0x41, 0x20, 0x42, 0x20, 0x20, 0x20, 0x20, 0x20] ∧
    trailingTrimmed (field spacedEntry 0 0 8) = [0x41, 0x20, 0x42] ∧
    get_filename spacedEntry 0 = [0x41, 0x42] := by
  decide

/-- C23: for an entry whose first name byte is 0x05, the first character `get_filename` writes
is 0xE5. -/
theorem get_filename_kanji_lead (buf : Bytes) (off : Nat) (h : u8 buf off = 0x05) :
    (get_filename buf off).head? = some 0xe5 := by
  have hf : field buf off 0 8 = u8 buf (off + 0) :: field buf off 1 7 := by
    simp [field, List.range'_succ]
  have hk : (field buf off 0 8).filterMap keptNameByte
      = 0xe5 :: (field buf off 1 7).filterMap keptNameByte := by
    rw [hf, List.filterMap_cons, Nat.add_zero, h]
    rfl
  rw [get_filename_eq, hk]
  split <;> rfl

/-- The run of C23 on the entry 0x05 "ILE    TXT". -/
theorem get_filename_kanji_lead_witness :
    get_filename kanjiEntry 0 = [0xE5, 0x49, 0x4C, 0x45, 0x2E, 0x54, 0x58, 0x54] ∧
    (get_filename kanjiEntry 0).head? = some 0xe5 :=
  ⟨by decide, get_filename_kanji_lead kanjiEntry 0 (by decide)⟩

theorem filterMap_length_le (f : Nat → Option Nat) (l : List Nat) :
    (l.filterMap f).length ≤ l.length := by
  induction l with
  | nil => simp
  | cons a l ih =>
    rw [List.filterMap_cons]
    split
    · simp; omega
    · simp; omega

/-- C24: for every entry, `get_filename` writes at most 12 characters and then one NUL directly
after the last of them: at most `FILENAME_STR_LEN` = 13 bytes, stored at the indices 0 to at
most 12. -/
theorem get_filename_fits (buf : Bytes) (off : Nat) :
    (get_filename buf off).length ≤ 12 ∧
    (get_filename_stores buf off).length ≤ FILENAME_STR_LEN ∧
    get_filename_stores buf off = get_filename buf off ++ [0] ∧
    (get_filename_stores buf off).getLast? = some 0 := by
  have h1 : ((field buf off 0 8).filterMap keptNameByte).length ≤ 8 := by
    have := filterMap_length_le keptNameByte (field buf off 0 8)
    simpa [field] using this
  have h2 : ((field buf off 8 3).filterMap keptExtByte).length ≤ 3 := by
    have := filterMap_length_le keptExtByte (field buf off 8 3)
    simpa [field] using this
  have hl : (get_filename buf off).length ≤ 12 := by
    rw [get_filename_eq]
    split
    · simp only [List.length_append, List.length_singleton]; omega
    · omega
  refine ⟨hl, ?_, rfl, ?_⟩
  · simp only [get_filename_stores, List.length_append, List.length_singleton, FILENAME_STR_LEN,
      FILE_NAME_LEN, FILE_EXTENSION_LEN]
    omega
  · simp [get_filename_stores]

/-- C26: when the cluster of the buffer's metadata is the end-of-chain marker, `inc_cluster`
returns `READING_PAST_EOC` with the state as it was: no flush, no driver or FAT call is added to
the history and no metadata field is changed. -/
theorem inc_cluster_past_eoc (d : Driver) (s : State)
    (h : d.is_eoc (getMeta s s.bufMeta).curTier2 = true) :
    inc_cluster d s = (d.READING_PAST_EOC, s) := by
  unfold inc_cluster
  rw [if_pos h]

/-- The run of C26 on a directory metadata whose cluster is 0xFFFF. -/
theorem inc_cluster_past_eoc_witness :
    inc_cluster (demoDriver demoDir) demoStateEnd = (201, demoStateEnd) :=
  inc_cluster_past_eoc (demoDriver demoDir) demoStateEnd (by decide)

theorem shl_or_byte (a b : Nat) (hb : b < 2 ^ 8) : a <<< 8 ||| b = 256 * a + b := by
  rw [Nat.shiftLeft_eq, Nat.mul_comm, Nat.mul_add_lt_is_or hb]

theorem get_short_le (offset : Nat) (buf : Bytes) :
    get_short offset buf = u8 buf offset + 256 * u8 buf (offset + 1) := by
  have h0 : u8 buf offset < 2 ^ 8 := Nat.mod_lt _ (by norm_num)
  have h1 : u8 buf (offset + 1) < 256 := Nat.mod_lt _ (by norm_num)
  unfold get_short
  rw [shl_or_byte _ _ h0]
  omega

theorem get_long_le (offset : Nat) (buf : Bytes) :
    get_long offset buf = u8 buf offset + 256 * u8 buf (offset + 1)
      + 65536 * u8 buf (offset + 2) + 16777216 * u8 buf (offset + 3) := by
  have h0 : u8 buf offset < 2 ^ 8 := Nat.mod_lt _ (by norm_num)
  have h1 : u8 buf (offset + 1) < 256 := Nat.mod_lt _ (by norm_num)
  have h2 : u8 buf (offset + 2) < 256 := Nat.mod_lt _ (by norm_num)
  have h3 : u8 buf (offset + 3) < 256 := Nat.mod_lt _ (by norm_num)
  have e1 : u8 buf (offset + 3) <<< 24 ||| u8 buf (offset + 2) <<< 16
      = 2 ^ 16 * (256 * u8 buf (offset + 3) + u8 buf (offset + 2)) := by
    have hb : u8 buf (offset + 2) <<< 16 < 2 ^ 24 := by rw [Nat.shiftLeft_eq]; omega
    have ha : u8 buf (offset + 3) <<< 24 = 2 ^ 24 * u8 buf (offset + 3) := by
      rw [Nat.shiftLeft_eq, Nat.mul_comm]
    rw [ha, ← Nat.mul_add_lt_is_or hb, Nat.shiftLeft_eq]
    omega
  have e2 : 2 ^ 16 * (256 * u8 buf (offset + 3) + u8 buf (offset + 2))
        ||| u8 buf (offset + 1) <<< 8
      = 2 ^ 8 * (65536 * u8 buf (offset + 3) + 256 * u8 buf (offset + 2)
          + u8 buf (offset + 1)) := by
    have hb : u8 buf (offset + 1) <<< 8 < 2 ^ 16 := by rw [Nat.shiftLeft_eq]; omega
    rw [← Nat.mul_add_lt_is_or hb, Nat.shiftLeft_eq]
    omega
  unfold get_long
  rw [e1, e2, ← Nat.mul_add_lt_is_or h0]
  omega

theorem get_short_lt (offset : Nat) (buf : Bytes) : get_short offset buf < 2 ^ 16 :=
  Nat.mod_lt _ (by norm_num)

theorem cluster_or_lt (low high : Nat) (hl : low < 2 ^ 16) (hh : high < 2 ^ 16) :
    low ||| high <<< 16 < 2 ^ 32 := by
  apply Nat.or_lt_two_pow
  · exact lt_of_lt_of_le hl (by norm_num)
  · rw [Nat.shiftLeft_eq]
    omega

theorem get_fat_value_content (d : Driver) (s : State)
    (h : (get_fat_value d MetaRef.contentMeta s).1 = 0) :
    (get_fat_value d MetaRef.contentMeta s).2.firstTier2 = s.firstTier2 ∧
    (get_fat_value d MetaRef.contentMeta s).2.m_length = s.m_length ∧
    (get_fat_value d MetaRef.contentMeta s).2.m_contentMeta =
      { s.m_contentMeta with nextTier2 := d.fat s.m_contentMeta.curTier2 } ∧
    (get_fat_value d MetaRef.contentMeta s).2.m_curTier2 = s.m_curTier2 ∧
    (get_fat_value d MetaRef.contentMeta s).2.fileEntryOffset = s.fileEntryOffset := by
  unfold get_fat_value at h ⊢
  simp only [] at h ⊢
  split
  · rename_i hs
    rw [if_pos hs] at h
    exact absurd h hs
  · exact ⟨rfl, rfl, rfl, rfl, rfl⟩

theorem reload_buffer_fields (d : Driver) (s : State) :
    (reload_buffer d s).2.firstTier2 = s.firstTier2 ∧
    (reload_buffer d s).2.m_length = s.m_length ∧
    (reload_buffer d s).2.m_contentMeta = s.m_contentMeta ∧
    (reload_buffer d s).2.m_curTier2 = s.m_curTier2 ∧
    (reload_buffer d s).2.fileEntryOffset = s.fileEntryOffset ∧
    (reload_buffer d s).2.bufMeta = s.bufMeta := by
  unfold reload_buffer
  simp only []
  split <;> exact ⟨rfl, rfl, rfl, rfl, rfl, rfl⟩

/-- What a successful `open_existing_file` leaves in the file's fields. -/
theorem open_existing_file_zero (d : Driver) (o : Nat) (s : State)
    (h : (open_existing_file d o s).1 = 0) :
    ∃ ft, ft = (if Variant.FAT_16 = s.m_filesystem then get_short (o + FILE_START_CLSTR_LOW) s.buf
        else ((get_short (o + FILE_START_CLSTR_LOW) s.buf |||
          (get_short (o + FILE_START_CLSTR_HIGH) s.buf <<< 16)) % 2 ^ 32) &&& 0x0FFFFFFF) ∧
      (open_existing_file d o s).2.firstTier2 = ft ∧
      (open_existing_file d o s).2.m_length = get_long (o + FILE_LEN_OFFSET) s.buf ∧
      (open_existing_file d o s).2.m_contentMeta =
        { curTier2 := ft, nextTier2 := d.fat ft,
          curTier2Addr := d.compute_tier1_from_tier2 ft, curTier1Offset := 0 } ∧
      (open_existing_file d o s).2.m_curTier2 = 0 ∧
      (open_existing_file d o s).2.fileEntryOffset = o ∧
      (open_existing_file d o s).2.bufMeta = MetaRef.contentMeta := by
  unfold open_existing_file at h ⊢
  by_cases hd : is_directory s o = true
  · rw [if_pos hd] at h
    exact absurd (show ENTRY_NOT_FILE = 0 from h) (by decide)
  · rw [if_neg hd] at h ⊢
    simp only [] at h ⊢
    by_cases hf : (flush d s).1 ≠ 0
    · rw [if_pos hf] at h
      exact absurd h hf
    · rw [if_neg hf] at h ⊢
      by_cases hv : Variant.FAT_16 = s.m_filesystem
      · have hv' : Variant.FAT_16 = (flush d s).2.m_filesystem := hv
        rw [if_pos hv'] at h ⊢
        rw [if_pos hv]
        split_ifs at h with hg
        · exact absurd h hg
        · rw [if_neg hg]
          obtain ⟨a1, a2, a3, a4, a5⟩ := get_fat_value_content d _ (not_not.mp hg)
          obtain ⟨r1, r2, r3, r4, r5, r6⟩ := reload_buffer_fields d (rebind
            (get_fat_value d MetaRef.contentMeta _).2 MetaRef.contentMeta)
          refine ⟨_, rfl, ?_, ?_, ?_, ?_, ?_, ?_⟩
          · rw [r1]; exact a1
          · rw [r2]; exact a2
          · rw [r3]; exact a3
          · rw [r4]; exact a4
          · rw [r5]; exact a5
          · rw [r6]; rfl
      · have hv' : ¬ Variant.FAT_16 = (flush d s).2.m_filesystem := hv
        rw [if_neg hv'] at h ⊢
        rw [if_neg hv]
        split_ifs at h with hg
        · exact absurd h hg
        · rw [if_neg hg]
          obtain ⟨a1, a2, a3, a4, a5⟩ := get_fat_value_content d _ (not_not.mp hg)
          obtain ⟨r1, r2, r3, r4, r5, r6⟩ := reload_buffer_fields d (rebind
            (get_fat_value d MetaRef.contentMeta _).2 MetaRef.contentMeta)
          refine ⟨_, rfl, ?_, ?_, ?_, ?_, ?_, ?_⟩
          · rw [r1]; exact a1
          · rw [r2]; exact a2
          · rw [r3]; exact a3
          · rw [r4]; exact a4
          · rw [r5]; exact a5
          · rw [r6]; rfl

/-- C25: when `open_existing_file` at entry offset `o` returns 0, the starting cluster is, on
FAT16, the 16-bit little-endian value at `o + 0x1A` and, on FAT32, that value OR the 16-bit
little-endian value at `o + 0x14` shifted left by 16, AND 0x0FFFFFFF; the length is the 32-bit
little-endian value at `o + 0x1C`; and the content metadata holds the starting cluster, its
FAT successor, its base address `compute_tier1_from_tier2` and the sector offset 0. -/
theorem open_existing_file_primes (d : Driver) (o : Nat) (s : State)
    (h : (open_existing_file d o s).1 = 0) :
    (Variant.FAT_16 = s.m_filesystem →
      (open_existing_file d o s).2.firstTier2 = u8 s.buf (o + 0x1A) + 256 * u8 s.buf (o + 0x1B)) ∧
    (Variant.FAT_32 = s.m_filesystem →
      (open_existing_file d o s).2.firstTier2 =
        ((u8 s.buf (o + 0x1A) + 256 * u8 s.buf (o + 0x1B)) |||
          ((u8 s.buf (o + 0x14) + 256 * u8 s.buf (o + 0x15)) <<< 16)) &&& 0x0FFFFFFF) ∧
    (open_existing_file d o s).2.m_length =
      u8 s.buf (o + 0x1C) + 256 * u8 s.buf (o + 0x1D) + 65536 * u8 s.buf (o + 0x1E)
        + 16777216 * u8 s.buf (o + 0x1F) ∧
    (open_existing_file d o s).2.m_contentMeta =
      { curTier2 := (open_existing_file d o s).2.firstTier2
        nextTier2 := d.fat (open_existing_file d o s).2.firstTier2
        curTier2Addr := d.compute_tier1_from_tier2 (open_existing_file d o s).2.firstTier2
        curTier1Offset := 0 } := by
  obtain ⟨ft, hft, h1, h2, h3, -, -, -⟩ := open_existing_file_zero d o s h
  have elow : get_short (o + FILE_START_CLSTR_LOW) s.buf
      = u8 s.buf (o + 0x1A) + 256 * u8 s.buf (o + 0x1B) := get_short_le _ _
  have ehigh : get_short (o + FILE_START_CLSTR_HIGH) s.buf
      = u8 s.buf (o + 0x14) + 256 * u8 s.buf (o + 0x15) := get_short_le _ _
  refine ⟨?_, ?_, ?_, ?_⟩
  · intro hv
    rw [h1, hft, if_pos hv, elow]
  · intro hv
    have hv' : ¬ Variant.FAT_16 = s.m_filesystem := by rw [← hv]; decide
    rw [h1, hft, if_neg hv', Nat.mod_eq_of_lt (cluster_or_lt _ _ (get_short_lt _ _)
      (get_short_lt _ _)), elow, ehigh]
  · rw [h2, get_long_le]
    rfl
  · rw [h3, h1]

/-- The run of C25 on a FAT32 entry with cluster words 0x0001 and 0x0002 and length 1000. -/
theorem open_existing_file_primes_witness :
    (open_existing_file (demoDriver demoDir) 0 demoStateEntry).2.firstTier2 = 0x10002 ∧
    (open_existing_file (demoDriver demoDir) 0 demoStateEntry).2.m_length = 1000 ∧
    (open_existing_file (demoDriver demoDir) 0 demoStateEntry).2.m_contentMeta
      = ⟨0x10002, 0x10003, 100 + 8 * 0x10002, 0⟩ :=
  ⟨((open_existing_file_primes (demoDriver demoDir) 0 demoStateEntry rfl).2.1 rfl).trans
      (by decide),
    ((open_existing_file_primes (demoDriver demoDir) 0 demoStateEntry rfl).2.2.1).trans
      (by decide),
    ((open_existing_file_primes (demoDriver demoDir) 0 demoStateEntry rfl).2.2.2).trans
      (by decide)⟩

theorem fatLookups_append (l₁ l₂ : List Event) :
    fatLookups (l₁ ++ l₂) = fatLookups l₁ + fatLookups l₂ := by
  induction l₁ with
  | nil => simp [fatLookups]
  | cons e l ih =>
    cases e <;> simp [fatLookups, ih]
    omega

theorem fatLookups_lookups (d : Driver) (s : State) :
    ∀ (n k : Nat), fatLookups (lookups d s k n) = n := by
  intro n
  induction n with
  | zero => intro k; rfl
  | succ n ih => intro k; simp [lookups, fatLookups, ih]

/-- C33: from a consistent state on which every driver call succeeds (cluster shift at most
8), `load_sector_from_offset` returns 0 and its driver calls are one flush, the FAT lookups `l`
and one read. With `t` the target cluster number and `c` the current one: for `c < t` the
lookups are those of the clusters `c + 1 .. t` of the chain, `t - c` of them; for `t < c` they
are the lookup of the first cluster followed by those of the clusters `1 .. t`, `t + 1` of
them; for `t = c` there is none. -/
theorem load_sector_from_offset_lookups (d : Driver) (requiredSector : Nat) (r : MetaRef)
    (s : State)
    (hshift : s.m_tier1sPerTier2Shift ≤ 8) (hc : Consistent d s r) (hok : Succeeds d s.trace) :
    ∃ l x, (load_sector_from_offset d requiredSector r s).1 = 0 ∧
      (load_sector_from_offset d requiredSector r s).2.trace
        = s.trace ++ [Event.flush s.bufMeta (getMeta s s.bufMeta)] ++ l
          ++ [Event.read_data_block x] ∧
      (s.m_curTier2 < requiredSector >>> s.m_tier1sPerTier2Shift →
        l = lookups d s s.m_curTier2 (requiredSector >>> s.m_tier1sPerTier2Shift - s.m_curTier2) ∧
        fatLookups l = requiredSector >>> s.m_tier1sPerTier2Shift - s.m_curTier2) ∧
      (requiredSector >>> s.m_tier1sPerTier2Shift < s.m_curTier2 →
        l = Event.get_fat_value s.firstTier2
          :: lookups d s 0 (requiredSector >>> s.m_tier1sPerTier2Shift) ∧
        fatLookups l = requiredSector >>> s.m_tier1sPerTier2Shift + 1) ∧
      (requiredSector >>> s.m_tier1sPerTier2Shift = s.m_curTier2 → l = []) := by
  obtain ⟨a1, -, -, -, a5⟩ := load_sector_from_offset_result d requiredSector r s hshift hc hok
  refine ⟨seekLookups d s (requiredSector >>> s.m_tier1sPerTier2Shift), _, a1, a5, ?_, ?_, ?_⟩
  · intro h
    have e : seekLookups d s (requiredSector >>> s.m_tier1sPerTier2Shift)
        = lookups d s s.m_curTier2 (requiredSector >>> s.m_tier1sPerTier2Shift - s.m_curTier2) := by
      unfold seekLookups
      rw [if_pos h]
    rw [e]
    exact ⟨rfl, fatLookups_lookups d s _ _⟩
  · intro h
    have e : seekLookups d s (requiredSector >>> s.m_tier1sPerTier2Shift)
        = Event.get_fat_value s.firstTier2
          :: lookups d s 0 (requiredSector >>> s.m_tier1sPerTier2Shift) := by
      unfold seekLookups
      rw [if_neg (by omega), if_pos h]
    rw [e]
    exact ⟨rfl, by simp [fatLookups, fatLookups_lookups]⟩
  · intro h
    unfold seekLookups
    rw [if_neg (by omega), if_neg (by omega)]

/-- The seeks of C33 from sector 19 (cluster number 2) forward to sector 35 (cluster number 4)
and back to sector 11 (cluster number 1): two lookups each. -/
theorem load_sector_from_offset_lookups_witness :
    (∃ x, (load_sector_from_offset (demoDriver demoDir) 35 MetaRef.contentMeta demoStateMid).2.trace
      = [Event.flush MetaRef.contentMeta ⟨4, 5, 132, 3⟩, Event.get_fat_value 5,
          Event.get_fat_value 6, Event.read_data_block x]) ∧
    (∃ x, (load_sector_from_offset (demoDriver demoDir) 11 MetaRef.contentMeta demoStateMid).2.trace
      = [Event.flush MetaRef.contentMeta ⟨4, 5, 132, 3⟩, Event.get_fat_value 2,
          Event.get_fat_value 3, Event.read_data_block x]) := by
  obtain ⟨l, x, -, h2, h3, -, -⟩ := load_sector_from_offset_lookups (demoDriver demoDir) 35
    MetaRef.contentMeta demoStateMid (by decide) ⟨rfl, rfl, rfl⟩ (fun _ => rfl)
  obtain ⟨l', x', -, h2', -, h4', -⟩ := load_sector_from_offset_lookups (demoDriver demoDir) 11
    MetaRef.contentMeta demoStateMid (by decide) ⟨rfl, rfl, rfl⟩ (fun _ => rfl)
  have e := (h3 (by decide)).1
  have e' := (h4' (by decide)).1
  subst e
  subst e'
  exact ⟨⟨x, h2⟩, ⟨x', h2'⟩⟩

theorem load_directory_sector_status (d : Driver) (s : State) :
    (load_directory_sector d s).1 =
      if s.bufMeta ≠ MetaRef.dirEntryMeta then
        (reload_buffer d (rebind (flush d s).2 MetaRef.dirEntryMeta)).1
      else 0 := by
  unfold load_directory_sector
  by_cases h : s.bufMeta ≠ MetaRef.dirEntryMeta
  · rw [if_pos h, if_pos h]
    simp only []
    split_ifs with h2
    · rfl
    · simp only [ne_eq, not_not] at h2
      rw [h2]; rfl
  · rw [if_neg h, if_neg h]; rfl

/-- C32: `reload_directory_start` and `load_directory_sector` call `flush` without looking at
its status. The status of `load_directory_sector` is that of its `reload_buffer` (or 0). On a
driver whose `flush` fails with status 7 and whose other calls succeed, both return `NO_ERROR`
after going on to the later calls, and `find` returns `FILENAME_NOT_FOUND` from the scan, while
`load_sector_under_ptr`, `load_sector_from_offset`, `open_existing_file` and `inc_cluster`
return the 7. -/
theorem flush_error_dropped :
    (∀ d s, (load_directory_sector d s).1 =
      if s.bufMeta ≠ MetaRef.dirEntryMeta then
        (reload_buffer d (rebind (flush d s).2 MetaRef.dirEntryMeta)).1
      else 0) ∧
    (flush (flushFailsDriver demoDir) demoStateLast).1 = 7 ∧
    buffer_holds_directory_start (flushFailsDriver demoDir) demoStateLast = false ∧
    (reload_directory_start (flushFailsDriver demoDir) demoStateLast).1 = NO_ERROR ∧
    (reload_directory_start (flushFailsDriver demoDir) demoStateLast).2.trace
      = [Event.flush MetaRef.contentMeta ⟨2, 3, 116, 7⟩, Event.get_fat_value 2,
          Event.reload_buffer MetaRef.dirMeta ⟨2, 3, 116, 0⟩] ∧
    (∃ s', find (flushFailsDriver demoDir) demoFile 3 demoStateLast
      = some (FILENAME_NOT_FOUND, 64, s')) ∧
    (flush (flushFailsDriver demoDir) demoState).1 = 7 ∧
    demoState.bufMeta ≠ MetaRef.dirEntryMeta ∧
    (load_directory_sector (flushFailsDriver demoDir) demoState).1 = NO_ERROR ∧
    (load_directory_sector (flushFailsDriver demoDir) demoState).2.trace
      = [Event.flush MetaRef.dirMeta ⟨2, 3, 116, 0⟩,
          Event.reload_buffer MetaRef.dirEntryMeta ⟨2, 3, 116, 0⟩] ∧
    (load_sector_under_ptr (flushFailsDriver demoDir) demoState).1 = 7 ∧
    (load_sector_from_offset (flushFailsDriver demoDir) 19 MetaRef.contentMeta demoState).1 = 7 ∧
    (open_existing_file (flushFailsDriver demoDir) 0 demoStateEntry).1 = 7 ∧
    (inc_cluster (flushFailsDriver demoDir) demoStateLast).1 = 7 :=
  ⟨load_directory_sector_status, rfl, rfl, rfl, rfl, ⟨_, rfl⟩, rfl, by decide, rfl, rfl, rfl,
    rfl, rfl, rfl⟩

/-- C35: on the last sector of a cluster whose pre-fetched successor is the end-of-chain
marker, `load_next_sector` and `inc_cluster` return 0 after a flush and a read of the sector
`compute_tier1_from_tier2` gives for the marker; only the advance after that returns
`EOC_END`. On a one-cluster directory filled with other names, `find` goes on into that sector
and, when it holds an entry "FILE    TXT", returns 0 for "FILE.TXT" at that entry. -/
theorem inc_cluster_reads_past_chain :
    (endDriver fullDir).is_eoc (getMeta demoStateTail demoStateTail.bufMeta).nextTier2 = true ∧
    (load_next_sector (endDriver fullDir) demoStateTail).1 = 0 ∧
    (load_next_sector (endDriver fullDir) demoStateTail).2.trace
      = [Event.flush MetaRef.dirMeta ⟨2, 0x0FFFFFFF, 116, 8⟩,
          Event.read_data_block straySector] ∧
    (inc_cluster (endDriver fullDir) demoStateTail).1 = 0 ∧
    (inc_cluster (endDriver fullDir) demoStateTail).2.trace
      = [Event.flush MetaRef.dirMeta ⟨2, 0x0FFFFFFF, 116, 7⟩,
          Event.read_data_block straySector] ∧
    (load_next_sector (endDriver fullDir)
      (load_next_sector (endDriver fullDir) demoStateTail).2).1 = (endDriver fullDir).EOC_END ∧
    (∃ s', find strayDriver demoFile 32 demoStateOne = some (0, 0, s') ∧
      s'.trace = [Event.flush MetaRef.contentMeta ⟨2, 3, 116, 0⟩, Event.get_fat_value 2,
        Event.reload_buffer MetaRef.dirMeta ⟨2, 0x0FFFFFFF, 116, 0⟩,
        Event.flush MetaRef.dirMeta ⟨2, 0x0FFFFFFF, 116, 1⟩,
        Event.read_data_block straySector]) :=
  ⟨rfl, rfl, rfl, rfl, rfl, rfl, ⟨_, rfl, rfl⟩⟩

/-- C36: in the root directory of a FAT16 volume at sector 161, on the sector at offset 0,
`load_next_sector` returns 0 after reading device sector 1, the new sector offset alone, not
`161 + 1`; in a data cluster at sector 116 it reads sector 117, base address plus new
offset. -/
theorem load_next_sector_root_address :
    (load_next_sector (demoDriver demoDir) (rootState 0)).1 = 0 ∧
    (load_next_sector (demoDriver demoDir) (rootState 0)).2.trace
      = [Event.flush MetaRef.dirMeta ⟨0, 0, 161, 0⟩, Event.read_data_block 1] ∧
    getMeta (load_next_sector (demoDriver demoDir) (rootState 0)).2 MetaRef.dirMeta
      = ⟨0, 0, 161, 1⟩ ∧
    (load_next_sector (demoDriver demoDir) demoState).2.trace = [Event.read_data_block 117] ∧
    getMeta (load_next_sector (demoDriver demoDir) demoState).2 MetaRef.dirMeta
      = ⟨2, 3, 116, 1⟩ :=
  ⟨rfl, rfl, rfl, rfl, rfl⟩

/-- C37: in a FAT16 root directory of 32 sectors, on its last sector (offset 31),
`load_next_sector` does not return `EOC_END`: it returns 0 after a read at sector offset 32.
`EOC_END` comes at offset 32, one call later. -/
theorem load_next_sector_root_last :
    (rootState 31).m_rootDirSectors = 32 ∧
    (load_next_sector (demoDriver demoDir) (rootState 31)).1 = 0 ∧
    (load_next_sector (demoDriver demoDir) (rootState 31)).2.trace
      = [Event.flush MetaRef.dirMeta ⟨0, 0, 161, 31⟩, Event.read_data_block 32] ∧
    getMeta (load_next_sector (demoDriver demoDir) (rootState 31)).2 MetaRef.dirMeta
      = ⟨0, 0, 161, 32⟩ ∧
    (load_next_sector (demoDriver demoDir) (rootState 32)).1 = (demoDriver demoDir).EOC_END ∧
    (demoDriver demoDir).EOC_END ≠ 0 :=
  ⟨rfl, rfl, rfl, rfl, rfl, by decide⟩

/-- C38: within a data cluster (offset 0 of 8 sectors), `load_next_sector` returns 0 with the
read of sector 117 as its only driver call, no flush before it, and the buffer overwritten; on
the last sector of the cluster the read is preceded by a flush. -/
theorem load_next_sector_reads_unflushed :
    (load_next_sector (demoDriver demoDir) demoState).1 = 0 ∧
    (load_next_sector (demoDriver demoDir) demoState).2.trace = [Event.read_data_block 117] ∧
    demoState.buf 0 = 0 ∧ (load_next_sector (demoDriver demoDir) demoState).2.buf 0 = 0xE5 ∧
    (load_next_sector (demoDriver demoDir) demoStateLast).2.trace
      = [Event.flush MetaRef.contentMeta ⟨2, 3, 116, 8⟩, Event.get_fat_value 3,
          Event.read_data_block 124] :=
  ⟨rfl, rfl, rfl, rfl, rfl⟩

/-- C7: a directory whose first sector, device sector 161, holds sixteen entries of another
name and whose second sector, device sector 162, starts with a zero byte. When it is the root
directory of a FAT16 volume, `find` advances by reading device sector 1 and returns 0 for
"FILE.TXT" at the entry that sector starts with; when it is a cluster of a FAT32 volume, `find`
reads sector 162 and returns `FILENAME_NOT_FOUND`. -/
theorem find_root_next_sector :
    rootDisk 161 = fullDir ∧ u8 (rootDisk 162) 0 = 0 ∧
    (∀ i, i < 16 → u8 fullDir (32 * i) ≠ 0 ∧
      strcmp_eq demoFile (get_filename fullDir (32 * i)) = false) ∧
    (∃ s', find (diskDriver rootDisk) demoFile 32 rootDirState = some (0, 0, s') ∧
      s'.trace = [Event.flush MetaRef.contentMeta ⟨2, 3, 116, 0⟩, Event.get_fat_value 0,
        Event.reload_buffer MetaRef.dirMeta ⟨0, 1, 161, 0⟩,
        Event.flush MetaRef.dirMeta ⟨0, 1, 161, 0⟩, Event.read_data_block 1]) ∧
    (∃ s', find (diskDriver rootDisk) demoFile 32 clusterDirState
        = some (FILENAME_NOT_FOUND, 0, s') ∧
      s'.trace = [Event.flush MetaRef.contentMeta ⟨2, 3, 116, 0⟩, Event.get_fat_value 0,
        Event.reload_buffer MetaRef.dirMeta ⟨0, 1, 161, 0⟩, Event.read_data_block 162]) :=
  ⟨rfl, rfl, by decide, ⟨_, rfl, rfl⟩, ⟨_, rfl, rfl⟩⟩

end FatFile

/-! ## pin.h -/

namespace Pin

theorem set_pin_num_eq (NULL_PIN n : Nat) :
    set_pin_num NULL_PIN n = if 31 ≤ n % 256 then NULL_PIN else 2 ^ (n % 256) := by
  unfold set_pin_num
  have e : (2 : Nat) ^ 8 = 256 := by norm_num
  rw [e]
  by_cases h : 31 ≤ n % 256
  · rw [if_pos h, if_pos h]
  · rw [if_neg h, if_neg h, Nat.shiftLeft_eq, Nat.one_mul]
    exact Nat.mod_eq_of_lt (Nat.pow_lt_pow_right (by norm_num) (by omega))

/-- C34: `set_pin_num` gives the mask `1 << n` for the pin numbers 0 to 30 and `NULL_PIN` from
31 on: pin number 31 gets `NULL_PIN`, pin number 30 the bit `2 ^ 30`. -/
theorem set_pin_num_31 (NULL_PIN : Nat) :
    (∀ n, set_pin_num NULL_PIN n = if 31 ≤ n % 256 then NULL_PIN else 2 ^ (n % 256)) ∧
    set_pin_num NULL_PIN 31 = NULL_PIN ∧ set_pin_num NULL_PIN 30 = 2 ^ 30 :=
  ⟨set_pin_num_eq NULL_PIN, by simp [set_pin_num_eq], by simp [set_pin_num_eq]⟩

end Pin

end PropWare
